import Mathlib

/-!
# Servers.com cloud provider of the cluster autoscaler

A shallow embedding of `cluster-autoscaler/cloudprovider/serverscom`
(`node_group.go`, `manager.go`) and proofs about it.

Conventions of the embedding:

* a Go `string` is the list of its bytes (`GoString`);
* a Go `int` is an `Int` and every arithmetic operation of the source wraps
  to 64 bits two's complement (`wrap64`);
* a Go `error` is `Option GoError`, `none` being `nil`;
* the `manager` interface held by a node group and the compute API used by the
  manager are explicit, state-passing oracles, and every call made to them is
  recorded in a call log.
-/

namespace Serverscom

/-! ## Go base types -/

/-- A Go string: an immutable sequence of bytes. -/
abbrev GoString := List Nat

/-- The bytes (UTF-8) of a string literal of the source. -/
def str (s : String) : GoString :=
  (s.data.flatMap String.utf8EncodeChar).map UInt8.toNat

/-- Two's complement wrap-around of a mathematical integer to a Go `int` (64 bits). -/
def wrap64 (x : Int) : Int :=
  (x + 9223372036854775808) % 18446744073709551616 - 9223372036854775808

/-- The values a Go `int` can hold. -/
def isInt (x : Int) : Prop :=
  -9223372036854775808 ≤ x ∧ x ≤ 9223372036854775807

instance (x : Int) : Decidable (isInt x) := by
  unfold isInt
  exact inferInstance

/-- Go `a + b` on `int`. -/
def intAdd (a b : Int) : Int := wrap64 (a + b)

/-- Go `a - b` on `int`. -/
def intSub (a b : Int) : Int := wrap64 (a - b)

/-- A non-nil Go `error` value of this package.  `ErrNotFound` and
`NodeNotFound` are the package-level sentinels of `manager.go` (compared by
identity in the source), `fresh` is a value made by `errors.New` or
`fmt.Errorf`, `wrapped` a value made by `errors.Wrap` around a non-nil cause. -/
inductive GoError where
  | ErrNotFound : GoError
  | NodeNotFound : GoError
  | fresh (text : GoString) : GoError
  | wrapped (cause : GoError) (text : GoString) : GoError
  deriving DecidableEq, Repr

/-- The `Error()` method. -/
def GoError.Error : GoError → GoString
  | GoError.ErrNotFound => str "not found"
  | GoError.NodeNotFound => str "node was not found"
  | GoError.fresh text => text
  | GoError.wrapped cause text => text ++ str ": " ++ cause.Error

namespace errors

/-- The function `errors.New` of `github.com/pkg/errors`. -/
def New (message : GoString) : Option GoError :=
  some (GoError.fresh message)

/-- The function `errors.Wrap` of `github.com/pkg/errors`: "If err is nil, Wrap
returns nil", otherwise the cause annotated with the message. -/
def Wrap (err : Option GoError) (message : GoString) : Option GoError :=
  match err with
  | none => none
  | some cause => some (GoError.wrapped cause message)

end errors

/-! ## `node_group.go` -/

/-- The part of `apiv1.Node` the package reads: the object name. -/
structure Node where
  Name : GoString
  deriving DecidableEq, Repr

/-- Modelled from the spec: the declaration of `cloudprovider.InstanceState` is
not among the sources.  It is an `int` enumeration of the states Running,
Creating and Deleting; `unset` is its zero value, which names none of them. -/
inductive InstanceState where
  | unset : InstanceState
  | InstanceRunning : InstanceState
  | InstanceCreating : InstanceState
  | InstanceDeleting : InstanceState
  deriving DecidableEq, Repr

/-- Modelled from the spec: the declaration of `cloudprovider.InstanceErrorClass`
is not among the sources.  It is an `int` enumeration; `unset` is its zero
value, `OtherErrorClass` the only class the package uses. -/
inductive InstanceErrorClass where
  | unset : InstanceErrorClass
  | OutOfResourcesErrorClass : InstanceErrorClass
  | OtherErrorClass : InstanceErrorClass
  deriving DecidableEq, Repr

/-- The part of `cloudprovider.InstanceErrorInfo` the package writes. -/
structure InstanceErrorInfo where
  ErrorClass : InstanceErrorClass
  ErrorMessage : GoString
  deriving DecidableEq, Repr

/-- The type `cloudprovider.InstanceStatus`; `ErrorInfo` is a pointer, `none` is `nil`. -/
structure InstanceStatus where
  State : InstanceState
  ErrorInfo : Option InstanceErrorInfo
  deriving DecidableEq, Repr

/-- The type `cloudprovider.Instance`; `Status` is a pointer, `none` is `nil`. -/
structure Instance where
  Id : GoString
  Status : Option InstanceStatus
  deriving DecidableEq, Repr

/-- The struct `nodeGroupSize`. -/
structure nodeGroupSize where
  min : Int
  max : Int
  target : Int
  deriving DecidableEq, Repr

/-- The struct `nodeGroup` without its mutex and without the `manager` back
reference, which the methods below take as an argument; `size` is the value
behind the (non-nil) pointer. -/
structure nodeGroup where
  id : GoString
  size : nodeGroupSize
  nodes : List Instance
  notRunningNodes : List Instance
  deriving DecidableEq, Repr

/-- The methods of the `manager` interface that `nodeGroup` calls.  A manager
is an arbitrary state machine over `σ`: each call sees the state left by the
calls before it, returns its Go results and the next state. -/
structure manager (σ : Type) where
  CreateNodes : Int → GoString → σ → (Int × Option GoError) × σ
  DeleteNode : Node → σ → Option GoError × σ

/-- One call made by a node group to its manager. -/
inductive Call where
  | CreateNodes (count : Int) (ngName : GoString) : Call
  | DeleteNode (node : Node) : Call
  deriving DecidableEq, Repr

/-- What a `nodeGroup` method leaves behind: the returned error, the node
group, the manager state and the calls made to the manager, oldest first. -/
structure Effect (σ : Type) where
  err : Option GoError
  ng : nodeGroup
  mgr : σ
  calls : List Call

/-- The method `nodeGroup.TargetSize` (it never returns an error). -/
def TargetSize (ng : nodeGroup) : Int × Option GoError :=
  (ng.size.target, none)

/-- The method `nodeGroup.IncreaseSize`. -/
def IncreaseSize {σ : Type} (m : manager σ) (ng : nodeGroup) (delta : Int) (s : σ) : Effect σ :=
  if delta ≤ 0 then
    { err := none, ng := ng, mgr := s, calls := [] }
  else if intAdd ng.size.target delta > ng.size.max then
    { err := errors.New (str "delta value is too big, may cause nodegroup overflow"),
      ng := ng, mgr := s, calls := [] }
  else
    let r := m.CreateNodes delta ng.id s
    match r.1.2 with
    | some e =>
      { err := errors.Wrap (some e) (str "create nodes error"),
        ng := ng, mgr := r.2, calls := [Call.CreateNodes delta ng.id] }
    | none =>
      { err := none,
        ng := { ng with size := { ng.size with target := intAdd ng.size.target r.1.1 } },
        mgr := r.2, calls := [Call.CreateNodes delta ng.id] }

/-- The method `nodeGroup.DeleteNodes`: the `for ... range nodes` loop, one
node per step. -/
def DeleteNodes {σ : Type} (m : manager σ) (ng : nodeGroup) : List Node → σ → Effect σ
  | [], s => { err := none, ng := ng, mgr := s, calls := [] }
  | node :: rest, s =>
    match (m.DeleteNode node s).1 with
    | some _ =>
      { err := some (GoError.fresh (str "deleting node failed name=" ++ node.Name)),
        ng := ng, mgr := (m.DeleteNode node s).2, calls := [Call.DeleteNode node] }
    | none =>
      let r := DeleteNodes m
        { ng with size := { ng.size with target := intSub ng.size.target 1 } }
        rest (m.DeleteNode node s).2
      { r with calls := Call.DeleteNode node :: r.calls }

/-- The method `nodeGroup.DecreaseTargetSize`. -/
def DecreaseTargetSize {σ : Type} (_m : manager σ) (ng : nodeGroup) (delta : Int) (s : σ) :
    Effect σ :=
  { err := none,
    ng := { ng with size := { ng.size with target := intAdd ng.size.target delta } },
    mgr := s, calls := [] }

/-! ## `manager.go`: base library functions -/

/-- A Go function that either returns or panics. -/
inductive GoResult (α : Type) where
  | panics : GoResult α
  | returns (value : α) : GoResult α
  deriving DecidableEq, Repr

/-- The function `strings.HasPrefix`. -/
def HasPrefix (s pre : GoString) : Bool :=
  pre.isPrefixOf s

/-- The function `strings.Contains`: `substr` starts at some offset of `s`. -/
def Contains : GoString → GoString → Bool
  | [], substr => HasPrefix [] substr
  | b :: bs, substr => HasPrefix (b :: bs) substr || Contains bs substr

/-- The function `strings.TrimPrefix`. -/
def TrimPrefix (s pre : GoString) : GoString :=
  if HasPrefix s pre then s.drop pre.length else s

/-- The pieces of `s` between the occurrences of the byte `sep`: the first
piece, and the list of the pieces after it. -/
def splitPieces (sep : Nat) : GoString → GoString × List GoString
  | [] => ([], [])
  | b :: bs =>
    if b = sep then ([], (splitPieces sep bs).1 :: (splitPieces sep bs).2)
    else (b :: (splitPieces sep bs).1, (splitPieces sep bs).2)

/-- The function `strings.Split` for a separator of one byte (the source only
splits on `"-"`): a slice of at least one piece. -/
def Split (s : GoString) (sep : Nat) : List GoString :=
  (splitPieces sep s).1 :: (splitPieces sep s).2

/-- The regexp class `\d`: an ASCII digit. -/
def isDigit (b : Nat) : Bool :=
  decide (48 ≤ b) && decide (b ≤ 57)

/-- The regexp class `\w`: an ASCII letter, digit or underscore. -/
def isWord (b : Nat) : Bool :=
  isDigit b || (decide (65 ≤ b) && decide (b ≤ 90)) || (decide (97 ≤ b) && decide (b ≤ 122))
    || decide (b = 95)

/-- A match of `kube\d*-(\w+)-` that starts at offset 0 of `s`: the matched
text and the text of the group, or the empty slice.  `\d*` and `\w+` are
greedy and each is followed by a hyphen, which is in neither class, so the
only run that can be followed by the hyphen is the longest one. -/
def matchAt (s : GoString) : List GoString :=
  if HasPrefix s (str "kube") then
    match (s.drop 4).dropWhile isDigit with
    | [] => []
    | b :: r =>
      if b = 45 then
        match r.takeWhile isWord, r.dropWhile isWord with
        | w :: ws, b2 :: _ =>
          if b2 = 45 then
            [str "kube" ++ (s.drop 4).takeWhile isDigit ++ [45] ++ (w :: ws) ++ [45], w :: ws]
          else []
        | _, _ => []
      else []
  else []

/-- The method `FindStringSubmatch` of `nodeGroupHostNameRegex`, the compiled
`kube\d*-(\w+)-`: the leftmost match with its group, `nil` when there is none. -/
def FindStringSubmatch : GoString → List GoString
  | [] => matchAt []
  | b :: bs =>
    match matchAt (b :: bs) with
    | [] => FindStringSubmatch bs
    | m :: ms => m :: ms

/-! ## `manager.go`: configuration -/

/-- A Go `map[string]α` as the list of its entries. -/
abbrev GoMap (α : Type) := List (GoString × α)

/-- The map read `m[k]` with its `ok` flag. -/
def GoMap.get {α : Type} (m : GoMap α) (k : GoString) : Option α :=
  match m with
  | [] => none
  | (k1, v) :: rest => if k1 = k then some v else GoMap.get rest k

/-- The map write `m[k] = v`. -/
def GoMap.set {α : Type} (m : GoMap α) (k : GoString) (v : α) : GoMap α :=
  match m with
  | [] => [(k, v)]
  | (k1, v1) :: rest => if k1 = k then (k1, v) :: rest else (k1, v1) :: GoMap.set rest k v

/-- The struct `nodeGroupProps`. -/
structure nodeGroupProps where
  Min : Int
  Max : Int
  deriving DecidableEq, Repr

/-- The struct `credentials`. -/
structure credentials where
  AuthUrl : GoString
  TenantName : GoString
  Password : GoString
  Username : GoString
  DomainName : GoString
  deriving DecidableEq, Repr

/-- The struct `managerConfig`. -/
structure managerConfig where
  DefaultFlavor : GoString
  Flavors : GoMap GoString
  NetworkPrefixes : List GoString
  AuthCredsFromEnv : Bool
  NodeGroups : GoMap nodeGroupProps
  NewNodeNamePrefix : GoString
  Image : GoString
  Credentials : credentials
  deriving DecidableEq, Repr

/-- The zero value of `managerConfig` (`var cfg managerConfig`). -/
def managerConfig.zero : managerConfig :=
  { DefaultFlavor := [], Flavors := [], NetworkPrefixes := [], AuthCredsFromEnv := false,
    NodeGroups := [], NewNodeNamePrefix := [], Image := [],
    Credentials := { AuthUrl := [], TenantName := [], Password := [], Username := [],
                     DomainName := [] } }

/-- A decoder `json.Unmarshal` or `yaml.Unmarshal` at type `managerConfig`:
from the input bytes and the value behind the pointer, the value left behind
the pointer and the returned error. -/
abbrev Unmarshal := GoString → managerConfig → managerConfig × Option GoError

/-- The function `NewConfig`.  `read` is the result of `ioutil.ReadAll` on the
reader, the two decoders are those of `encoding/json` and `gopkg.in/yaml.v2`. -/
def NewConfig (read : GoString × Option GoError) (jsonUnmarshal yamlUnmarshal : Unmarshal) :
    GoResult (managerConfig × Option GoError) :=
  let cfg := managerConfig.zero
  let cfgBytes := read.1
  if read.2 ≠ none then
    GoResult.returns (cfg, errors.Wrap read.2 (str "read config error"))
  else
    match cfgBytes with
    | [] => GoResult.panics
    | first :: _ =>
      let decoded :=
        if first = 91 ∨ first = 123 then jsonUnmarshal cfgBytes cfg
        else yamlUnmarshal cfgBytes cfg
      let cfg := decoded.1
      let err := decoded.2
      if err ≠ none then
        GoResult.returns (cfg, errors.Wrap err (str "unmarshal config error"))
      else if cfg.DefaultFlavor = [] then
        GoResult.returns (cfg, errors.Wrap err (str "default flavor should be set"))
      else
        GoResult.returns (cfg, none)

/-! ## `manager.go`: the manager -/

/-- The struct `scaleProperties`. -/
structure scaleProperties where
  defaultFlavor : GoString
  flavors : GoMap GoString
  networksPrefixes : List GoString
  nodeGroups : GoMap nodeGroupProps
  newNodeNamePrefix : GoString
  imageName : GoString
  deriving DecidableEq, Repr

/-- The struct `managerServersCom` without its mutex and without `osClient`,
the handle of the compute API, which the methods take as an oracle. -/
structure managerServersCom where
  nodeGroups : GoMap nodeGroup
  scaleProperties : scaleProperties
  deriving DecidableEq, Repr

/-- The fields of `servers.Server` the package reads. -/
structure Server where
  ID : GoString
  Name : GoString
  Status : GoString
  deriving DecidableEq, Repr

/-- What listing the servers gives: `AllPages` fails, `ExtractServers` fails,
or the servers are returned. -/
inductive Listing where
  | pagesError (e : GoError) : Listing
  | extractError (e : GoError) : Listing
  | servers (found : List Server) : Listing
  deriving DecidableEq, Repr

/-- The compute API behind `osClient`, an arbitrary state machine over `ω`.
`ListServers name` is `servers.List` with `ListOpts{Name: name}` (the empty
name is the zero `ListOpts`), `DeleteServer id` is `servers.Delete` and gives
`res.Err`. -/
structure computeAPI (ω : Type) where
  ListServers : GoString → ω → Listing × ω
  DeleteServer : GoString → ω → Option GoError × ω

/-- One request sent to the compute API. -/
inductive Request where
  | ListServers (name : GoString) : Request
  | DeleteServer (id : GoString) : Request
  deriving DecidableEq, Repr

/-- The compute API state together with the requests sent so far, oldest first. -/
structure World (ω : Type) where
  api : ω
  sent : List Request

/-- The call `servers.List(m.osClient, servers.ListOpts{Name: name})` followed
by `AllPages` and `ExtractServers`. -/
def listServers {ω : Type} (c : computeAPI ω) (name : GoString) (w : World ω) :
    Listing × World ω :=
  ((c.ListServers name w.api).1,
   { api := (c.ListServers name w.api).2, sent := w.sent ++ [Request.ListServers name] })

/-- The call `servers.Delete(m.osClient, id)`, giving `res.Err`. -/
def deleteServer {ω : Type} (c : computeAPI ω) (id : GoString) (w : World ω) :
    Option GoError × World ω :=
  ((c.DeleteServer id w.api).1,
   { api := (c.DeleteServer id w.api).2, sent := w.sent ++ [Request.DeleteServer id] })

/-- The package variable `nodeStatusCreating`. -/
def nodeStatusCreating : InstanceStatus :=
  { State := InstanceState.InstanceCreating, ErrorInfo := none }

/-- The package variable `nodeStatusRunning`. -/
def nodeStatusRunning : InstanceStatus :=
  { State := InstanceState.InstanceRunning, ErrorInfo := none }

/-- The package variable `nodeStatusDeleting`. -/
def nodeStatusDeleting : InstanceStatus :=
  { State := InstanceState.InstanceDeleting, ErrorInfo := none }

/-- The package variable `statusMapping`. -/
def statusMapping : GoMap InstanceStatus :=
  [(str "BUILD", nodeStatusCreating), (str "ACTIVE", nodeStatusRunning),
   (str "SOFT_DELETED", nodeStatusDeleting)]

/-- The method `managerServersCom.nodeGroupName`. -/
def nodeGroupName (m : managerServersCom) (hostname : GoString) : GoString :=
  if Contains hostname m.scaleProperties.newNodeNamePrefix then
    (Split (TrimPrefix hostname (m.scaleProperties.newNodeNamePrefix ++ str "-")) 45).head
      (List.cons_ne_nil _ _)
  else
    match FindStringSubmatch hostname with
    | [_, group] => group
    | _ => []

/-- The method `managerServersCom.getAllNodes`. -/
def getAllNodes {ω : Type} (c : computeAPI ω) (w : World ω) :
    (List Server × Option GoError) × World ω :=
  match (listServers c [] w).1 with
  | Listing.pagesError e => (([], some e), (listServers c [] w).2)
  | Listing.extractError e => (([], some e), (listServers c [] w).2)
  | Listing.servers found => ((found, none), (listServers c [] w).2)

/-- The first loop of `GetNodeGroups`: one empty group per configured id. -/
def seedGroups : GoMap nodeGroupProps → GoMap nodeGroup → GoMap nodeGroup
  | [], groups => groups
  | (ngName, ngProps) :: rest, groups =>
    seedGroups rest (GoMap.set groups ngName
      { id := ngName, size := { min := ngProps.Min, max := ngProps.Max, target := 0 },
        nodes := [], notRunningNodes := [] })

/-- The body of the second loop of `GetNodeGroups` for one server. -/
def placeServer (m : managerServersCom) (groups : GoMap nodeGroup) (srv : Server) :
    GoMap nodeGroup :=
  let ngName := nodeGroupName m srv.Name
  if ngName = [] then groups
  else
    match GoMap.get groups ngName with
    | none => groups
    | some ng =>
      let status :=
        match GoMap.get statusMapping srv.Status with
        | some status => status
        | none =>
          { nodeStatusRunning with
            ErrorInfo := some { ErrorClass := InstanceErrorClass.unset,
                                ErrorMessage := str "unknown instance state=" ++ srv.Status } }
      GoMap.set groups ngName
        { ng with
          size := { ng.size with target := intAdd ng.size.target 1 },
          nodes := ng.nodes ++ [{ Id := srv.Name, Status := some status }] }

/-- The method `managerServersCom.GetNodeGroups`: the returned groups and
error, the manager after the call and the compute API after the call.  The
groups are returned in the order of the entries of the map (Go leaves the
order of a `range` over a map unspecified). -/
def GetNodeGroups {ω : Type} (c : computeAPI ω) (m : managerServersCom) (w : World ω) :
    (List nodeGroup × Option GoError) × managerServersCom × World ω :=
  let nodeGroups := seedGroups m.scaleProperties.nodeGroups []
  let listed := getAllNodes c w
  match listed.1.2 with
  | some err => (([], some (GoError.fresh (str "get all nodes error=" ++ err.Error))), m, listed.2)
  | none =>
    let nodeGroups := listed.1.1.foldl (placeServer m) nodeGroups
    ((nodeGroups.map (fun entry => entry.2), none), { m with nodeGroups := nodeGroups }, listed.2)

/-- The method `managerServersCom.getNodeID`. -/
def getNodeID {ω : Type} (c : computeAPI ω) (name : GoString) (w : World ω) :
    (GoString × Option GoError) × World ω :=
  match (listServers c name w).1 with
  | Listing.pagesError e =>
    (([], errors.Wrap (some e) (str "get server error")), (listServers c name w).2)
  | Listing.extractError e =>
    (([], errors.Wrap (some e) (str "extract servers error")), (listServers c name w).2)
  | Listing.servers allServers =>
    if allServers.length > 1 then
      (([], errors.New (str "more than one server found for the provided name")),
       (listServers c name w).2)
    else
      match allServers with
      | [] => (([], some GoError.ErrNotFound), (listServers c name w).2)
      | first :: _ => ((first.ID, none), (listServers c name w).2)

/-- The method `managerServersCom.DeleteNode`. -/
def DeleteNode {ω : Type} (c : computeAPI ω) (node : Node) (w : World ω) :
    Option GoError × World ω :=
  let found := getNodeID c node.Name w
  let id := found.1.1
  let err := found.1.2
  if err ≠ none ∧ err ≠ some GoError.ErrNotFound then
    (errors.Wrap err (str "get node id error"), found.2)
  else
    let res := deleteServer c id found.2
    if res.1 ≠ none then
      (errors.Wrap res.1 (str "delete node error"), res.2)
    else
      (none, res.2)

/-- The constant `defaultNodeGroupMaxSize`. -/
def defaultNodeGroupMaxSize : Int := 10

/-- The loop "fix zero values" of `newManager`: a `range` over the keys of
`cfg.NodeGroups`; a read of an absent key gives the zero `nodeGroupProps`. -/
def fixZeroValues (nodeGroups : GoMap nodeGroupProps) : GoMap nodeGroupProps :=
  (nodeGroups.map (fun entry => entry.1)).foldl
    (fun acc ngName =>
      if ((GoMap.get acc ngName).getD { Min := 0, Max := 0 }).Max = 0 then
        GoMap.set acc ngName
          { (GoMap.get acc ngName).getD { Min := 0, Max := 0 } with
            Max := defaultNodeGroupMaxSize }
      else acc)
    nodeGroups

/-- The errors returned by the three calls `newManager` makes to build the
compute client: `openstack.AuthOptionsFromEnv`, `openstack.AuthenticatedClient`
and `openstack.NewComputeV2`. -/
structure clientSetup where
  authOptionsFromEnv : Option GoError
  authenticatedClient : Option GoError
  newComputeV2 : Option GoError

/-- The function `newManager`.  `configReader` is `none` for a nil reader and
otherwise the result of `ioutil.ReadAll` on it. -/
def newManager (configReader : Option (GoString × Option GoError))
    (jsonUnmarshal yamlUnmarshal : Unmarshal) (setup : clientSetup) :
    GoResult (Option managerServersCom × Option GoError) :=
  match configReader with
  | none => GoResult.returns (none, errors.New (str "config is nil"))
  | some read =>
    match NewConfig read jsonUnmarshal yamlUnmarshal with
    | GoResult.panics => GoResult.panics
    | GoResult.returns (cfg, err) =>
      if err ≠ none then
        GoResult.returns (none, errors.Wrap err (str "create config error"))
      else
        match (if cfg.AuthCredsFromEnv then setup.authOptionsFromEnv else none) with
        | some e =>
          GoResult.returns
            (none, some (GoError.fresh (str "get auth options from env error: " ++ e.Error)))
        | none =>
          match setup.authenticatedClient with
          | some e =>
            GoResult.returns
              (none, some (GoError.fresh (str "get authentificated client error: " ++ e.Error)))
          | none =>
            match setup.newComputeV2 with
            | some e =>
              GoResult.returns
                (none, some (GoError.fresh (str "get service client v2 error: " ++ e.Error)))
            | none =>
              GoResult.returns
                (some
                  { nodeGroups := [],
                    scaleProperties :=
                      { defaultFlavor := cfg.DefaultFlavor,
                        flavors := cfg.Flavors,
                        networksPrefixes := cfg.NetworkPrefixes,
                        nodeGroups := fixZeroValues cfg.NodeGroups,
                        newNodeNamePrefix := cfg.NewNodeNamePrefix,
                        imageName := cfg.Image } },
                 none)

/-- The method `managerServersCom.NodeGroupForNode`: the returned pointer
(`none` is `nil`), the returned error and the manager after the call. -/
def NodeGroupForNode (m : managerServersCom) (hostname : GoString) :
    (Option nodeGroup × Option GoError) × managerServersCom :=
  let ngName := nodeGroupName m hostname
  match GoMap.get m.nodeGroups ngName with
  | none => ((none, some (GoError.fresh (str "unknown node group=" ++ ngName))), m)
  | some n => ((some n, none), m)

/-- The fields of `networks.Network` (the compute API's network) the package reads. -/
structure osNetwork where
  ID : GoString
  Label : GoString
  deriving DecidableEq, Repr

/-- The struct `Network`: the `UUID` of the embedded `servers.Network` and the label. -/
structure Network where
  UUID : GoString
  Label : GoString
  deriving DecidableEq, Repr

/-- What listing the networks gives: `AllPages` fails, `ExtractNetworks` fails,
or the networks are returned. -/
inductive NetworkListing where
  | pagesError (e : GoError) : NetworkListing
  | extractError (e : GoError) : NetworkListing
  | networks (found : List osNetwork) : NetworkListing
  deriving DecidableEq, Repr

/-- The inner loop of `GetKnownNetworks` for one prefix: the first network
whose label contains the prefix is appended and the scan stops. -/
def appendFirstMatch (pre : GoString) : List osNetwork → List Network → List Network
  | [], nets => nets
  | net :: rest, nets =>
    if Contains net.Label pre then nets ++ [{ UUID := net.ID, Label := net.Label }]
    else appendFirstMatch pre rest nets

/-- The method `managerServersCom.GetKnownNetworks`.  `listed` is what
`networks.List(m.osClient).AllPages()` and `networks.ExtractNetworks` give. -/
def GetKnownNetworks (m : managerServersCom) (listed : NetworkListing) :
    List Network × Option GoError :=
  if m.scaleProperties.networksPrefixes.length = 0 then
    ([], errors.New (str "networks list is undefined"))
  else
    match listed with
    | NetworkListing.pagesError e => ([], errors.Wrap (some e) (str "list networks error"))
    | NetworkListing.extractError e => ([], errors.Wrap (some e) (str "extract networks error"))
    | NetworkListing.networks allNetworks =>
      (m.scaleProperties.networksPrefixes.foldl
        (fun nets pre => appendFirstMatch pre allNetworks nets) [], none)

/-- The decimal digits of `n`, most significant first; `fuel` bounds the
number of digits. -/
def decimal : Nat → Nat → GoString
  | 0, _ => []
  | fuel + 1, n => if n < 10 then [48 + n] else decimal fuel (n / 10) ++ [48 + n % 10]

/-- The verb `%d` of `fmt.Sprintf` on an `int`. -/
def formatInt (z : Int) : GoString :=
  if z < 0 then 45 :: decimal (z.natAbs + 1) z.natAbs else decimal (z.natAbs + 1) z.natAbs

/-- The function `strings.Join`. -/
def Join : List GoString → GoString → GoString
  | [], _ => []
  | [a], _ => a
  | a :: b :: rest, sep => a ++ sep ++ Join (b :: rest) sep

/-- The expression `fmt.Sprintf("%s-%s-%d", m.scaleProperties.newNodeNamePrefix,
ngName, ngLen+1+i)` of `CreateNodes`. -/
def newNodeName (m : managerServersCom) (ngName : GoString) (ngLen : Int) (i : Int) : GoString :=
  m.scaleProperties.newNodeNamePrefix ++ str "-" ++ ngName ++ str "-"
    ++ formatInt (intAdd (intAdd ngLen 1) i)

/-- What one call of `CreateNodes` does: the arguments of the `createNode`
calls of the tasks it starts, in the order of the loop, and the two results. -/
structure fanOut where
  started : List (GoString × GoString)
  created : Int
  err : Option GoError
  deriving DecidableEq, Repr

/-- The method `managerServersCom.CreateNodes`.  The tasks run concurrently:
`createNode i ngName name` is what the call `m.createNode(ngName, name)` of the
task started by iteration `i` returns, and `finished` lists the tasks in the
order in which they take the error mutex or bump the counter.  The read of
`.nodes` through the nil pointer of an absent group panics. -/
def CreateNodes (m : managerServersCom) (createNode : Nat → GoString → GoString → Option GoError)
    (finished : List Nat) (count : Int) (ngName : GoString) : GoResult fanOut :=
  match GoMap.get m.nodeGroups ngName with
  | none => GoResult.panics
  | some ng =>
    let ngLen : Int := ng.nodes.length
    let errList := finished.filterMap
      (fun i => (createNode i ngName (newNodeName m ngName ngLen i)).map GoError.Error)
    let created := finished.foldl
      (fun created i =>
        match createNode i ngName (newNodeName m ngName ngLen i) with
        | some _ => created
        | none => intAdd created 1)
      0
    GoResult.returns
      { started := (List.range count.toNat).map
          (fun i : Nat => (ngName, newNodeName m ngName ngLen i)),
        created := created,
        err := if errList.length ≠ 0 then errors.New (Join errList (str "; ")) else none }

/-- What `servers.Get(m.osClient, id)` gives: the error `ErrDefault404`, another
failure of the request or of `Extract`, or the server. -/
inductive GetResult where
  | notFound404 : GetResult
  | failed (e : GoError) : GetResult
  | found (srv : Server) : GetResult
  deriving DecidableEq, Repr

/-- The method `managerServersCom.GetNodeStatusByID`.  `got` is what
`servers.Get(m.osClient, id)` gives. -/
def GetNodeStatusByID (got : GetResult) : InstanceStatus × Option GoError :=
  let ret : InstanceStatus := { State := InstanceState.unset, ErrorInfo := none }
  match got with
  | GetResult.notFound404 => (ret, some GoError.NodeNotFound)
  | GetResult.failed e => (ret, errors.Wrap (some e) (str "extract server error"))
  | GetResult.found srv =>
    match GoMap.get statusMapping srv.Status with
    | some status => (status, none)
    | none =>
      ({ ret with
         ErrorInfo := some { ErrorClass := InstanceErrorClass.OtherErrorClass,
                             ErrorMessage := str "abnormal status " ++ srv.Status } },
       none)

/-- The fields of `images.Image` the package reads. -/
structure Image where
  ID : GoString
  Name : GoString
  Created : GoString
  deriving DecidableEq, Repr

/-- What listing the images gives: `AllPages` fails, `ExtractImages` fails, or
the images are returned. -/
inductive ImageListing where
  | pagesError (e : GoError) : ImageListing
  | extractError (e : GoError) : ImageListing
  | images (found : List Image) : ImageListing
  deriving DecidableEq, Repr

/-- The body of the loop of `getImageRef` for one image: the state is the map
`imagesMap` and the string `lastUpdated`; `>` on Go strings is the
lexicographic order of the bytes. -/
def noteImage (name : GoString) (state : GoMap GoString × GoString) (image : Image) :
    GoMap GoString × GoString :=
  if image.Name ≠ name then state
  else
    (GoMap.set state.1 image.Created image.ID,
     if image.Created > state.2 then image.Created else state.2)

/-- The method `managerServersCom.getImageRef`.  `listed` is what
`images.ListDetail(...).AllPages()` and `images.ExtractImages` give; a read of
an absent key of `imagesMap` gives the empty string. -/
def getImageRef (name : GoString) (listed : ImageListing) : GoString × Option GoError :=
  match listed with
  | ImageListing.pagesError e => ([], errors.Wrap (some e) (str "get images error"))
  | ImageListing.extractError e => ([], errors.Wrap (some e) (str "extract images error"))
  | ImageListing.images images =>
    let state := images.foldl (noteImage name) ([], [])
    if state.2 = [] then
      ([], some (GoError.fresh (str "cannot find image with name=" ++ name)))
    else
      ((GoMap.get state.1 state.2).getD [], none)

/-- The fields of `servers.CreateOpts` that `createNode` fills; `Networks`
holds the `UUID` of each network. -/
structure CreateOpts where
  Name : GoString
  ImageRef : GoString
  FlavorName : GoString
  Networks : List GoString
  deriving DecidableEq, Repr

/-- What `servers.Create` gives: `res.Err`, a failure of `res.Extract`, or the
created server. -/
inductive CreateResult where
  | requestError (e : GoError) : CreateResult
  | extractError (e : GoError) : CreateResult
  | server (srv : Server) : CreateResult
  deriving DecidableEq, Repr

/-- The poll loop of `createNode`.  The list holds what `servers.Get` gives at
each poll that is made before the timer of `nodeProvisionTimeout` fires, in
order; once the timer has fired the loop is left and the function returns the
error "did not reach active state".  An error of the status query is only
logged. -/
def pollLoop (nodeName : GoString) : List GetResult → Option GoError
  | [] => errors.New (str "node " ++ nodeName ++ str " did not reach active state")
  | got :: later =>
    if (GetNodeStatusByID got).1 = nodeStatusRunning then none
    else pollLoop nodeName later

/-- The method `managerServersCom.createNode`.  `networks` and `images` are
the listings of the compute API, `create` is `servers.Create` and `polls` are
the results of the status queries made before the provisioning timer fires. -/
def createNode (m : managerServersCom) (ngName nodeName : GoString)
    (networks : NetworkListing) (images : ImageListing) (create : CreateOpts → CreateResult)
    (polls : List GetResult) : Option GoError :=
  let flavor :=
    if (GoMap.get m.scaleProperties.flavors ngName).getD [] = [] then
      m.scaleProperties.defaultFlavor
    else (GoMap.get m.scaleProperties.flavors ngName).getD []
  let known := GetKnownNetworks m networks
  if known.2 ≠ none then errors.Wrap known.2 (str "get networks error")
  else
    let image := getImageRef m.scaleProperties.imageName images
    if image.2 ≠ none then errors.Wrap image.2 (str "get image ref error")
    else
      match create { Name := nodeName, ImageRef := image.1, FlavorName := flavor,
                     Networks := known.1.map (fun n => n.UUID) } with
      | CreateResult.requestError e => errors.Wrap (some e) (str "create server error")
      | CreateResult.extractError e => errors.Wrap (some e) (str "extract server info error")
      | CreateResult.server _ => pollLoop nodeName polls

/-- A decoder run on an input that sets no field (such as the JSON document
`{}`): the value behind the pointer is left as it was and no error is returned. -/
def decodeNothing : Unmarshal :=
  fun _ cfg => (cfg, none)

/-- A compute API whose inventory is empty: every listing succeeds with no
server, and a delete request is answered with "Resource not found". -/
def emptyCompute : computeAPI Unit where
  ListServers := fun _ s => (Listing.servers [], s)
  DeleteServer := fun _ s => (some (GoError.fresh (str "Resource not found")), s)

/-- A compute API with the given inventory: a listing by name gives the
servers of that name, a delete request succeeds for the id of a server of the
inventory and is answered with "Resource not found" for any other id. -/
def fixedCompute (inventory : List Server) : computeAPI Unit where
  ListServers := fun name s =>
    (Listing.servers (if name = [] then inventory
      else inventory.filter (fun srv => decide (srv.Name = name))), s)
  DeleteServer := fun id s =>
    (if id ∈ inventory.map (fun srv => srv.ID) then none
      else some (GoError.fresh (str "Resource not found")), s)

/-- The world before any request is sent. -/
def freshWorld : World Unit :=
  { api := (), sent := [] }

/-- A manager value with the given new-node prefix and configured groups. -/
def managerWith (newNodeNamePrefix : GoString) (groups : GoMap nodeGroupProps) :
    managerServersCom :=
  { nodeGroups := [],
    scaleProperties :=
      { defaultFlavor := [], flavors := [], networksPrefixes := [], nodeGroups := groups,
        newNodeNamePrefix := newNodeNamePrefix, imageName := [] } }

/-- The text `s` has a substring in the language of the convention pattern
`kube\d*-(\w+)-`: the literal `kube`, any number of digits, a hyphen, one or
more word bytes and a hyphen. -/
def hasConventionMatch (s : GoString) : Prop :=
  ∃ pre digits word post : GoString,
    s = pre ++ str "kube" ++ digits ++ str "-" ++ word ++ str "-" ++ post ∧
    (∀ b ∈ digits, isDigit b = true) ∧ (∀ b ∈ word, isWord b = true) ∧ word ≠ []

/-- An inventory of two servers of the group `kafka` and, between them, one
server whose name follows neither naming rule. -/
def sampleInventory : List Server :=
  [{ ID := str "id-1", Name := str "kube2-kafka-mow-1.int.avs.io", Status := str "ACTIVE" },
   { ID := str "id-2", Name := str "db1.int.avs.io", Status := str "ACTIVE" },
   { ID := str "id-3", Name := str "kube2-kafka-mow-2.int.avs.io", Status := str "BUILD" }]

/-- The servers of the fixture `respServersDetail` of `manager_test.go`. -/
def respServersDetail : List Server :=
  [{ ID := str "7f8c3960-f801-41f2-9153-7cfc4b54c78e", Name := str "kube2-master-mow-3.int.avs.io", Status := str "ACTIVE" },
   { ID := str "1eacd1cf-ec20-4cb0-b12f-437b10429fe6", Name := str "kube2-master-mow-2.int.avs.io", Status := str "ACTIVE" },
   { ID := str "f2ed8cba-b776-4829-84d1-34d6de927675", Name := str "kube2-master-mow-1.int.avs.io", Status := str "ACTIVE" },
   { ID := str "9a90a932-67a0-44d3-b16d-7b9d7bae3879", Name := str "kube2-kafka-mow-3.int.avs.io", Status := str "ACTIVE" },
   { ID := str "19e2afc4-f100-4af4-a091-55fd2c500b77", Name := str "kube2-kafka-mow-2.int.avs.io", Status := str "ACTIVE" },
   { ID := str "2571b52a-9adc-4359-8028-ece2d6656321", Name := str "kube2-kafka-mow-1.int.avs.io", Status := str "ACTIVE" },
   { ID := str "66db195b-5db5-42a4-8148-409814f4841c", Name := str "launchkit.int.avs.io", Status := str "ACTIVE" }]

/-- The networks of the fixture `respOsNetworks` of `manager_test.go`. -/
def respOsNetworks : List osNetwork :=
  [{ ID := str "0a2844d4-114e-48cd-9997-0cd2d95191e7", Label := str "global_private" },
   { ID := str "0b1b8097-fa5a-4041-bf83-76e03aa4bab3", Label := str "internet_23.105.240.64/27" },
   { ID := str "134ca3d6-b6f8-4bae-aadc-4c13219b7b2d", Label := str "internet_88.212.241.96/27" },
   { ID := str "22840db2-b9cc-4785-a2ad-462dc996271a", Label := str "internet_88.212.241.32/27" },
   { ID := str "2d933a6e-d5d0-4511-a2f9-9b9b95086491", Label := str "local_private" },
   { ID := str "38d66238-f8d9-434c-bb72-8d948f8c3fab", Label := str "internet_188.42.181.192/27" },
   { ID := str "42bae52a-ae02-4ea8-9404-0b4dacd83154", Label := str "internet_88.212.238.192/27" },
   { ID := str "46846924-1394-45d9-a675-b3df53f8adda", Label := str "internet_23.105.225.224/27" },
   { ID := str "48415712-a435-4d59-a0b6-9f454a34e97e", Label := str "internet_23.105.240.0/27" },
   { ID := str "57789992-d8f9-4558-97d0-d16246079dc9", Label := str "internet_23.105.225.160/27" },
   { ID := str "65ba4421-bd65-455c-aa75-5fb36a4fdc6d", Label := str "internet_23.105.240.96/27" },
   { ID := str "6b5b99b9-b0df-40ab-b6bb-3540caf790b3", Label := str "internet_23.105.231.96/27" },
   { ID := str "7379c937-824a-48bc-abe8-52ebcc9a3890", Label := str "internet_23.105.225.128/27" },
   { ID := str "813cd43a-276e-461a-99b6-d0e37356d3d8", Label := str "internet_88.212.238.128/27" },
   { ID := str "8cbbaa1b-a4c9-4818-bfbf-f24cd3c2f423", Label := str "internet_88.212.238.96/27" },
   { ID := str "8e94804b-63a6-4bab-befd-9bcd27fb31e4", Label := str "internet_88.212.241.224/27" },
   { ID := str "92e5ad9b-7e87-473c-a00a-641d5c96a71a", Label := str "internet_188.42.181.224/27" },
   { ID := str "9d892306-115a-4809-a6c9-7de25907281e", Label := str "internet_23.105.240.32/27" },
   { ID := str "a05cb870-7423-46ae-9109-dde4ba877256", Label := str "internet_88.212.238.224/27" },
   { ID := str "aa2b74d2-4690-4387-9a3f-6d8220dabe0c", Label := str "internet_88.212.238.64/27" },
   { ID := str "ad8192af-1822-437c-9155-20a976986a12", Label := str "internet_188.42.181.160/27" },
   { ID := str "bcc6d37f-5641-471d-bfee-3756da3ef429", Label := str "internet_88.212.241.64/27" },
   { ID := str "c73add07-022c-4a7c-8ac9-c81c7bac1807", Label := str "internet_88.212.241.128/27" },
   { ID := str "cdc77f48-c699-47e4-aa7f-69f9e2bb3ca8", Label := str "internet_188.42.181.128/27" },
   { ID := str "d98b8c36-b785-4e4d-b657-dc8f3573a689", Label := str "internet_23.105.231.64/27" },
   { ID := str "de3f0102-51ce-4605-b817-d8d41a0d29af", Label := str "internet_88.212.238.160/27" },
   { ID := str "eb982e9b-bd4c-4916-953c-f5e8aba2f943", Label := str "internet_88.212.241.0/27" },
   { ID := str "ec663f27-e5eb-4037-9fb8-c7fef9025291", Label := str "internet_88.212.241.192/27" },
   { ID := str "efdfb4e9-7f11-461a-b330-6bd80aead7f8", Label := str "internet_88.212.241.160/27" },
   { ID := str "f1fc6bc4-a35f-4f89-8f8a-1db862868207", Label := str "internet_23.105.225.192/27" }]

/-- The manager of `newTestManager` in `manager_test.go`. -/
def newTestManager : managerServersCom :=
  { nodeGroups := [],
    scaleProperties :=
      { defaultFlavor := [], flavors := [],
        networksPrefixes := [str "global_private", str "local_private", str "internet"],
        nodeGroups := [], newNodeNamePrefix := [], imageName := [] } }

/-- A compute API whose listing of the servers fails in `AllPages`. -/
def failingCompute : computeAPI Unit where
  ListServers := fun _ s => (Listing.pagesError (GoError.fresh (str "connection refused")), s)
  DeleteServer := fun _ s => (none, s)

/-- The bounds of a group after the defaulting of `newManager`: the maximum
`defaultNodeGroupMaxSize` in place of a zero maximum. -/
def withDefaultMax (props : nodeGroupProps) : nodeGroupProps :=
  { Min := props.Min, Max := if props.Max = 0 then defaultNodeGroupMaxSize else props.Max }

/-- The configuration that the YAML document of `TestNewConfig` decodes to. -/
def testConfig : managerConfig :=
  { managerConfig.zero with
    DefaultFlavor := str "SSD.80",
    NetworkPrefixes := [str "global_private", str "local_private"],
    NodeGroups := [(str "worker", { Min := 0, Max := 0 })] }

/-- The YAML document of `TestNewConfig`. -/
def testConfigYaml : GoString :=
  str "\ndefault_flavor: SSD.80\nnetwork_prefixes:\n - global_private\n - local_private\nnode_groups:\n worker:\n"

/-- A decoder run on an input that decodes to `cfg` without error. -/
def decodeTo (cfg : managerConfig) : Unmarshal :=
  fun _ _ => (cfg, none)

/-- A client setup in which every call succeeds. -/
def setupOk : clientSetup :=
  { authOptionsFromEnv := none, authenticatedClient := none, newComputeV2 := none }

/-- The instance that `GetNodeGroups` records for a listed server: the host
name as id, the status of `statusMapping`, or Running with the error info
"unknown instance state=" followed by the raw status. -/
def listedInstance (srv : Server) : Instance :=
  { Id := srv.Name,
    Status := some
      (match GoMap.get statusMapping srv.Status with
        | some status => status
        | none =>
          { nodeStatusRunning with
            ErrorInfo := some { ErrorClass := InstanceErrorClass.unset,
                                ErrorMessage := str "unknown instance state=" ++ srv.Status } }) }

/-- The servers of an inventory whose host name resolves to the group id
`ngName`, in inventory order; a name that resolves to the empty string
resolves to no group. -/
def membersOf (m : managerServersCom) (ngName : GoString) (inventory : List Server) :
    List Server :=
  inventory.filter (fun srv =>
    decide (nodeGroupName m srv.Name = ngName) && decide (nodeGroupName m srv.Name ≠ []))

/-- The group of a configured id over an inventory: the configured bounds, one
instance per member and a target that was incremented once per member. -/
def builtGroup (m : managerServersCom) (inventory : List Server)
    (entry : GoString × nodeGroupProps) : nodeGroup :=
  { id := entry.1,
    size := { min := entry.2.Min, max := entry.2.Max,
              target := wrap64 (membersOf m entry.1 inventory).length },
    nodes := (membersOf m entry.1 inventory).map listedInstance,
    notRunningNodes := [] }

/-- The manager of `TestManager_GetNodeGroups`: the prefix `kube2-mow` and the
configured group `kafka` with the bounds 2 and 5. -/
def kafkaManager : managerServersCom :=
  managerWith (str "kube2-mow") [(str "kafka", { Min := 2, Max := 5 })]

/-- The number written by a string of decimal digits. -/
def decimalValue (digits : GoString) : Nat :=
  digits.foldl (fun acc d => acc * 10 + (d - 48)) 0

/-- What the `createNode` call of the task started by iteration `i` of
`CreateNodes` returns, for a group whose node list is `ng.nodes`. -/
def taskResult (m : managerServersCom) (createNode : Nat → GoString → GoString → Option GoError)
    (ngName : GoString) (ng : nodeGroup) (i : Nat) : Option GoError :=
  createNode i ngName (newNodeName m ngName ng.nodes.length i)

/-- Provisioning in which the tasks of even index fail with the message
"timeout" and the others succeed. -/
def evenTasksFail : Nat → GoString → GoString → Option GoError :=
  fun i _ _ => if i % 2 = 0 then some (GoError.fresh (str "timeout")) else none

/-- What holds of the state of the loop of `getImageRef` once the images of
`seen` have been visited: no visited image of the name has a timestamp above
`lastUpdated`; `lastUpdated` is empty or the timestamp of a visited image of
the name; and under every timestamp of a visited image of the name the map
holds the id of a visited image of the name with that timestamp. -/
def imagesNoted (name : GoString) (seen : List Image) (state : GoMap GoString × GoString) :
    Prop :=
  (∀ img ∈ seen, img.Name = name → ¬ state.2 < img.Created) ∧
  (state.2 = [] ∨ ∃ img ∈ seen, img.Name = name ∧ img.Created = state.2) ∧
  (∀ k, (∃ img ∈ seen, img.Name = name ∧ img.Created = k) →
    ∃ img ∈ seen, img.Name = name ∧ img.Created = k ∧ GoMap.get state.1 k = some img.ID)

/-- A manager configured to provision nodes from the image `scalermow` on the
networks of the prefixes of `newTestManager`. -/
def provisionManager : managerServersCom :=
  { newTestManager with
    scaleProperties :=
      { newTestManager.scaleProperties with
        defaultFlavor := str "SSD.80", imageName := str "scalermow",
        newNodeNamePrefix := str "kube2-scaler-mow" } }

/-- Two images named `scalermow` and one of another name. -/
def sampleImages : List Image :=
  [{ ID := str "img-1", Name := str "scalermow", Created := str "2019-10-01T10:00:00Z" },
   { ID := str "img-2", Name := str "scalermow", Created := str "2019-11-05T08:30:00Z" },
   { ID := str "img-3", Name := str "other", Created := str "2020-01-01T00:00:00Z" }]

/-- A create call that succeeds with a server in the state `BUILD`. -/
def createOk : CreateOpts → CreateResult :=
  fun opts => CreateResult.server { ID := str "id-new", Name := opts.Name, Status := str "BUILD" }

/-- A successful status query that finds the server in the raw status `raw`. -/
def polled (raw : String) : GetResult :=
  GetResult.found { ID := str "id-new", Name := str "n", Status := str raw }

/-- The answers a manager gives when it is asked to delete the nodes of a
list one after the other, each request seeing the state left by the one
before it. -/
def deleteAnswers {σ : Type} (m : manager σ) : List Node → σ → List (Option GoError)
  | [], _ => []
  | node :: rest, s => (m.DeleteNode node s).1 :: deleteAnswers m rest (m.DeleteNode node s).2

/-- A manager without state that answers every `CreateNodes` with the same
pair and every `DeleteNode` by looking the node name up in a list of names
that fail. -/
def scriptedManager (created : Int) (createErr : Option GoError) (failing : List GoString) :
    manager Unit where
  CreateNodes := fun _ _ s => ((created, createErr), s)
  DeleteNode := fun node s =>
    (if node.Name ∈ failing then some (GoError.fresh (str "delete failed")) else none, s)

/-- A node group `worker` with bounds 0..5 and the given target. -/
def workerGroup (target : Int) : nodeGroup :=
  { id := str "worker", size := { min := 0, max := 5, target := target },
    nodes := [], notRunningNodes := [] }

/-- The manager `kafkaManager` with a group map left by an earlier refresh: a
group `stale` that is not configured, with target 9. -/
def staleManager : managerServersCom :=
  { kafkaManager with nodeGroups := [(str "stale", workerGroup 9)] }

/-- The manager of `TestManager_NodeGroupForNode`: the prefix
`kube2-scaler-mow` and a map with the one group `worker`. -/
def workerManager : managerServersCom :=
  { managerWith (str "kube2-scaler-mow") [] with
    nodeGroups := [(str "worker", workerGroup 0)] }

/-- The group `worker` with the one node `kube2-scaler-mow-worker-2`. -/
def oneNodeGroup : nodeGroup :=
  { workerGroup 1 with
    nodes := [{ Id := str "kube2-scaler-mow-worker-2", Status := some nodeStatusRunning }] }

/-- A node group whose target and maximum are both ten below the largest `int`. -/
def hugeGroup : nodeGroup :=
  { id := str "worker",
    size := { min := 0, max := 9223372036854775797, target := 9223372036854775797 },
    nodes := [], notRunningNodes := [] }

/-- A manager with the prefix `kube2-mow` and the configured group
`kafka-east`, whose id holds a hyphen. -/
def hyphenManager : managerServersCom :=
  managerWith (str "kube2-mow") [(str "kafka-east", { Min := 0, Max := 5 })]

/-- An inventory of two servers named after the group `kafka-east`, one by
the convention pattern and one by the new-node prefix. -/
def hyphenInventory : List Server :=
  [{ ID := str "id-1", Name := str "kube2-kafka-east-mow-1", Status := str "ACTIVE" },
   { ID := str "id-2", Name := str "kube2-mow-kafka-east-1", Status := str "ACTIVE" }]

/-- The manager `workerManager` after a refresh that found the one node
`kube2-scaler-mow-worker-2` in the group `worker`. -/
def oneNodeManager : managerServersCom :=
  { workerManager with nodeGroups := [(str "worker", oneNodeGroup)] }

/-! ## Arithmetic of Go `int` -/

theorem wrap64_isInt (x : Int) : isInt (wrap64 x) := by
  unfold isInt wrap64
  omega

theorem wrap64_of_isInt (x : Int) (h : isInt x) : wrap64 x = x := by
  unfold isInt at h
  unfold wrap64
  omega

theorem wrap64_sub_wrap64 (a b : Int) : wrap64 (wrap64 a - b) = wrap64 (a - b) := by
  unfold wrap64
  omega

theorem wrap64_add_wrap64 (a b : Int) : wrap64 (wrap64 a + b) = wrap64 (a + b) := by
  unfold wrap64
  omega

/-! ## `nodeGroup.IncreaseSize` -/

/-- What `IncreaseSize` does once both guards are passed and `CreateNodes`
returns an error: the error is wrapped and returned before the target is
updated. -/
theorem IncreaseSize_of_create_error {σ : Type} (m : manager σ) (ng : nodeGroup) (delta : Int)
    (s : σ) (e : GoError) (hpos : 0 < delta)
    (hfit : ¬ intAdd ng.size.target delta > ng.size.max)
    (herr : (m.CreateNodes delta ng.id s).1.2 = some e) :
    (IncreaseSize m ng delta s).ng = ng ∧
    (IncreaseSize m ng delta s).err = some (GoError.wrapped e (str "create nodes error")) := by
  have hd : ¬ delta ≤ 0 := by omega
  simp only [IncreaseSize, hd, hfit, if_false, herr, errors.Wrap, and_self]

/-- What `IncreaseSize` does once both guards are passed and `CreateNodes`
returns no error. -/
theorem IncreaseSize_of_create_ok {σ : Type} (m : manager σ) (ng : nodeGroup) (delta : Int)
    (s : σ) (hpos : 0 < delta)
    (hfit : ¬ intAdd ng.size.target delta > ng.size.max)
    (hok : (m.CreateNodes delta ng.id s).1.2 = none) :
    (IncreaseSize m ng delta s).ng.size.target
        = intAdd ng.size.target (m.CreateNodes delta ng.id s).1.1 ∧
    (IncreaseSize m ng delta s).err = none := by
  have hd : ¬ delta ≤ 0 := by omega
  simp only [IncreaseSize, hd, hfit, if_false, hok, and_self]

/-- C1, evaluated on the code: the group `worker` has target 0 and max 5,
`IncreaseSize(2)` passes both guards, `CreateNodes(2, "worker")` reports 1
created node together with an error; `IncreaseSize` returns the wrapped error
and the target is still 0, not 0 + 1. -/
theorem IncreaseSize_partial_failure_loses_created :
    (0 : Int) < 2 ∧ intAdd (workerGroup 0).size.target 2 ≤ (workerGroup 0).size.max ∧
    ((scriptedManager 1 (some (GoError.fresh (str "boom"))) []).CreateNodes 2 (str "worker") ()).1
      = (1, some (GoError.fresh (str "boom"))) ∧
    (IncreaseSize (scriptedManager 1 (some (GoError.fresh (str "boom"))) [])
      (workerGroup 0) 2 ()).ng.size.target = 0 ∧
    (IncreaseSize (scriptedManager 1 (some (GoError.fresh (str "boom"))) [])
      (workerGroup 0) 2 ()).ng.size.target ≠ intAdd (workerGroup 0).size.target 1 ∧
    (IncreaseSize (scriptedManager 1 (some (GoError.fresh (str "boom"))) [])
      (workerGroup 0) 2 ()).err
      = some (GoError.wrapped (GoError.fresh (str "boom")) (str "create nodes error")) := by
  have hfit : ¬ intAdd (workerGroup 0).size.target 2 > (workerGroup 0).size.max := by
    simp [workerGroup, intAdd, wrap64]
  have h := IncreaseSize_of_create_error
    (scriptedManager 1 (some (GoError.fresh (str "boom"))) []) (workerGroup 0) 2 ()
    (GoError.fresh (str "boom")) (by decide) hfit rfl
  refine ⟨by decide, not_lt.mp hfit, rfl, ?_, ?_, h.2⟩
  · rw [h.1]
    rfl
  · rw [h.1]
    simp [workerGroup, intAdd, wrap64]

/-- Once both guards of `IncreaseSize` are passed, the one call made to the
manager is `CreateNodes(delta, ng.id)`. -/
theorem IncreaseSize_calls_of_guards_passed {σ : Type} (m : manager σ) (ng : nodeGroup)
    (delta : Int) (s : σ) (hpos : 0 < delta)
    (hfit : ¬ intAdd ng.size.target delta > ng.size.max) :
    (IncreaseSize m ng delta s).calls = [Call.CreateNodes delta ng.id] := by
  have hd : ¬ delta ≤ 0 := by omega
  cases herr : (m.CreateNodes delta ng.id s).1.2 <;>
    simp only [IncreaseSize, hd, hfit, if_false, herr]

/-- C3, counterexample: target and maximum are 5 and `delta` is
9223372036854775806, so `delta > 0` and `target+delta` is above the maximum;
the code computes the sum with wrap-around, which is negative and passes the
guard: `IncreaseSize` calls `CreateNodes` and returns no error. -/
theorem IncreaseSize_above_max_overflow :
    (0 : Int) < 9223372036854775806 ∧ isInt 9223372036854775806 ∧
    isInt (workerGroup 5).size.target ∧ isInt (workerGroup 5).size.max ∧
    (workerGroup 5).size.target + 9223372036854775806 > (workerGroup 5).size.max ∧
    intAdd (workerGroup 5).size.target 9223372036854775806 = -9223372036854775805 ∧
    (IncreaseSize (scriptedManager 0 none []) (workerGroup 5) 9223372036854775806 ()).err
      = none ∧
    (IncreaseSize (scriptedManager 0 none []) (workerGroup 5) 9223372036854775806 ()).calls
      = [Call.CreateNodes 9223372036854775806 (str "worker")] := by
  have hsum : intAdd (workerGroup 5).size.target 9223372036854775806
      = -9223372036854775805 := by
    simp [workerGroup, intAdd, wrap64]
  have hfit : ¬ intAdd (workerGroup 5).size.target 9223372036854775806
      > (workerGroup 5).size.max := by
    rw [hsum]
    decide
  exact ⟨by decide, by decide, by decide, by decide, by decide, hsum,
    (IncreaseSize_of_create_ok (scriptedManager 0 none []) (workerGroup 5)
      9223372036854775806 () (by decide) hfit rfl).2,
    IncreaseSize_calls_of_guards_passed (scriptedManager 0 none []) (workerGroup 5)
      9223372036854775806 () (by decide) hfit⟩

/-- C3, amended: when `delta > 0` and the sum `target+delta` is in the range
of `int` and exceeds `max`, `IncreaseSize(delta)` returns the error "delta
value is too big, may cause nodegroup overflow", leaves the node group (its
target included) and the manager as they were, and makes no call to the
manager. -/
theorem IncreaseSize_rejects_above_max {σ : Type} (m : manager σ) (ng : nodeGroup)
    (delta : Int) (s : σ) (hpos : 0 < delta) (hsum : isInt (ng.size.target + delta))
    (hbig : ng.size.target + delta > ng.size.max) :
    (IncreaseSize m ng delta s).err
        = some (GoError.fresh (str "delta value is too big, may cause nodegroup overflow")) ∧
    (IncreaseSize m ng delta s).err ≠ none ∧
    (IncreaseSize m ng delta s).ng.size.target = ng.size.target ∧
    (IncreaseSize m ng delta s).ng = ng ∧
    (IncreaseSize m ng delta s).calls = [] ∧
    (IncreaseSize m ng delta s).mgr = s := by
  have hd : ¬ delta ≤ 0 := by omega
  have hguard : intAdd ng.size.target delta > ng.size.max := by
    rw [intAdd, wrap64_of_isInt _ hsum]
    exact hbig
  simp [IncreaseSize, hd, hguard, errors.New]

theorem IncreaseSize_rejects_above_max_witness :
    (0 : Int) < 3 ∧ isInt ((workerGroup 4).size.target + 3) ∧
    (workerGroup 4).size.target + 3 > (workerGroup 4).size.max ∧
    (IncreaseSize (scriptedManager 3 none []) (workerGroup 4) 3 ()).err ≠ none ∧
    (IncreaseSize (scriptedManager 3 none []) (workerGroup 4) 3 ()).ng.size.target = 4 ∧
    (IncreaseSize (scriptedManager 3 none []) (workerGroup 4) 3 ()).calls = [] := by
  have h := IncreaseSize_rejects_above_max (scriptedManager 3 none []) (workerGroup 4) 3 ()
    (by decide) (by decide) (by decide)
  exact ⟨by decide, by decide, by decide, h.2.1, h.2.2.1, h.2.2.2.2.1⟩

/-- C4: for every node group state (whatever its target and max) and every
`delta ≤ 0`, `IncreaseSize(delta)` returns no error, leaves the node group
(its target included) and the manager as they were, and makes no call to the
manager. -/
theorem IncreaseSize_nonpositive_noop {σ : Type} (m : manager σ) (ng : nodeGroup)
    (delta : Int) (s : σ) (hle : delta ≤ 0) :
    (IncreaseSize m ng delta s).err = none ∧
    (IncreaseSize m ng delta s).ng.size.target = ng.size.target ∧
    (IncreaseSize m ng delta s).ng = ng ∧
    (IncreaseSize m ng delta s).calls = [] ∧
    (IncreaseSize m ng delta s).mgr = s := by
  simp [IncreaseSize, hle]

theorem IncreaseSize_nonpositive_noop_witness :
    (-2 : Int) ≤ 0 ∧ (workerGroup 9).size.target > (workerGroup 9).size.max ∧
    (IncreaseSize (scriptedManager 1 none []) (workerGroup 9) (-2) ()).err = none ∧
    (IncreaseSize (scriptedManager 1 none []) (workerGroup 9) (-2) ()).ng.size.target = 9 ∧
    (IncreaseSize (scriptedManager 1 none []) (workerGroup 9) (-2) ()).calls = [] := by
  have h := IncreaseSize_nonpositive_noop (scriptedManager 1 none []) (workerGroup 9) (-2) ()
    (by decide)
  exact ⟨by decide, by decide, h.1, h.2.1, h.2.2.2.1⟩

/-! ## `nodeGroup.DeleteNodes` -/

theorem DeleteNodes_cons_ok {σ : Type} (m : manager σ) (ng : nodeGroup) (node : Node)
    (rest : List Node) (s : σ) (h : (m.DeleteNode node s).1 = none) :
    DeleteNodes m ng (node :: rest) s =
      { DeleteNodes m { ng with size := { ng.size with target := intSub ng.size.target 1 } }
          rest (m.DeleteNode node s).2 with
        calls := Call.DeleteNode node ::
          (DeleteNodes m { ng with size := { ng.size with target := intSub ng.size.target 1 } }
            rest (m.DeleteNode node s).2).calls } := by
  simp only [DeleteNodes, h]

theorem DeleteNodes_cons_fail {σ : Type} (m : manager σ) (ng : nodeGroup) (node : Node)
    (rest : List Node) (s : σ) (e : GoError) (h : (m.DeleteNode node s).1 = some e) :
    DeleteNodes m ng (node :: rest) s =
      { err := some (GoError.fresh (str "deleting node failed name=" ++ node.Name)),
        ng := ng, mgr := (m.DeleteNode node s).2, calls := [Call.DeleteNode node] } := by
  simp only [DeleteNodes, h]

/-- The run of `DeleteNodes` when the manager first refuses at index `i`. -/
theorem DeleteNodes_first_failure {σ : Type} (m : manager σ) (nodes : List Node) :
    ∀ (ng : nodeGroup) (s : σ) (i : Nat) (node : Node), isInt ng.size.target →
      nodes[i]? = some node →
      (∀ j, j < i → (deleteAnswers m nodes s)[j]? = some none) →
      (∃ e, (deleteAnswers m nodes s)[i]? = some (some e)) →
      (DeleteNodes m ng nodes s).calls = (nodes.take (i + 1)).map Call.DeleteNode ∧
      (DeleteNodes m ng nodes s).ng.size.target = wrap64 (ng.size.target - i) ∧
      (DeleteNodes m ng nodes s).ng.id = ng.id ∧
      (DeleteNodes m ng nodes s).ng.nodes = ng.nodes ∧
      (DeleteNodes m ng nodes s).err
        = some (GoError.fresh (str "deleting node failed name=" ++ node.Name)) := by
  induction nodes with
  | nil =>
    intro ng s i node _ hnode
    simp at hnode
  | cons first rest ih =>
    intro ng s i node hT hnode hbefore hfail
    cases i with
    | zero =>
      obtain ⟨e, he⟩ := hfail
      simp only [deleteAnswers, List.getElem?_cons_zero, Option.some.injEq] at he
      simp only [List.getElem?_cons_zero, Option.some.injEq] at hnode
      rw [DeleteNodes_cons_fail m ng first rest s e he]
      subst hnode
      simp [wrap64_of_isInt _ hT]
    | succ k =>
      have h0 : (m.DeleteNode first s).1 = none := by
        have := hbefore 0 (Nat.succ_pos k)
        simpa [deleteAnswers] using this
      simp only [List.getElem?_cons_succ] at hnode
      have hbefore1 : ∀ j, j < k →
          (deleteAnswers m rest (m.DeleteNode first s).2)[j]? = some none := by
        intro j hj
        have := hbefore (j + 1) (Nat.succ_lt_succ hj)
        simpa [deleteAnswers] using this
      have hfail1 : ∃ e, (deleteAnswers m rest (m.DeleteNode first s).2)[k]? = some (some e) := by
        obtain ⟨e, he⟩ := hfail
        exact ⟨e, by simpa [deleteAnswers] using he⟩
      have hrec := ih { ng with size := { ng.size with target := intSub ng.size.target 1 } }
        (m.DeleteNode first s).2 k node (wrap64_isInt _) hnode hbefore1 hfail1
      rw [DeleteNodes_cons_ok m ng first rest s h0]
      obtain ⟨hc, ht, hid, hn, he⟩ := hrec
      refine ⟨?_, ht.trans ?_, hid, hn, he⟩
      · simp [hc]
      · show wrap64 (intSub ng.size.target 1 - (k : Int)) = wrap64 (ng.size.target - ((k + 1 : Nat) : Int))
        rw [intSub, wrap64_sub_wrap64]
        congr 1
        push_cast
        ring

/-- The run of `DeleteNodes` when the manager refuses no node of the list. -/
theorem DeleteNodes_no_failure {σ : Type} (m : manager σ) (nodes : List Node) :
    ∀ (ng : nodeGroup) (s : σ), isInt ng.size.target →
      (∀ j, j < nodes.length → (deleteAnswers m nodes s)[j]? = some none) →
      (DeleteNodes m ng nodes s).calls = nodes.map Call.DeleteNode ∧
      (DeleteNodes m ng nodes s).ng.size.target = wrap64 (ng.size.target - nodes.length) ∧
      (DeleteNodes m ng nodes s).ng.id = ng.id ∧
      (DeleteNodes m ng nodes s).ng.nodes = ng.nodes ∧
      (DeleteNodes m ng nodes s).err = none := by
  induction nodes with
  | nil =>
    intro ng s hT _
    simp [DeleteNodes, wrap64_of_isInt _ hT]
  | cons first rest ih =>
    intro ng s _ hall
    have h0 : (m.DeleteNode first s).1 = none := by
      have := hall 0 (by simp)
      simpa [deleteAnswers] using this
    have hall1 : ∀ j, j < rest.length →
        (deleteAnswers m rest (m.DeleteNode first s).2)[j]? = some none := by
      intro j hj
      have := hall (j + 1) (by simpa using hj)
      simpa [deleteAnswers] using this
    have hrec := ih { ng with size := { ng.size with target := intSub ng.size.target 1 } }
      (m.DeleteNode first s).2 (wrap64_isInt _) hall1
    rw [DeleteNodes_cons_ok m ng first rest s h0]
    obtain ⟨hc, ht, hid, hn, he⟩ := hrec
    refine ⟨?_, ht.trans ?_, hid, hn, he⟩
    · simp [hc]
    · show wrap64 (intSub ng.size.target 1 - (rest.length : Int))
        = wrap64 (ng.size.target - ((rest.length + 1 : Nat) : Int))
      rw [intSub, wrap64_sub_wrap64]
      congr 1
      push_cast
      ring

/-- C5: `DeleteNodes` asks the manager to delete the nodes in list order.
If index `i` is the first node the manager refuses, the calls made are exactly
the deletions of nodes `0..i`, the target is the old target decremented `i`
times (the old target minus `i` unless that leaves the range of `int`), and the
error is "deleting node failed name=" followed by the name of node `i`.  If
the manager refuses no node, every node is attempted, the target is
decremented once per node and no error is returned. -/
theorem DeleteNodes_sequential_until_failure {σ : Type} (m : manager σ) (ng : nodeGroup)
    (nodes : List Node) (s : σ) (hT : isInt ng.size.target) :
    (∀ (i : Nat) (node : Node), nodes[i]? = some node →
      (∀ j, j < i → (deleteAnswers m nodes s)[j]? = some none) →
      (∃ e, (deleteAnswers m nodes s)[i]? = some (some e)) →
      (DeleteNodes m ng nodes s).calls = (nodes.take (i + 1)).map Call.DeleteNode ∧
      (DeleteNodes m ng nodes s).ng.size.target = wrap64 (ng.size.target - i) ∧
      (isInt (ng.size.target - i) →
        (DeleteNodes m ng nodes s).ng.size.target = ng.size.target - i) ∧
      (DeleteNodes m ng nodes s).err
        = some (GoError.fresh (str "deleting node failed name=" ++ node.Name))) ∧
    ((∀ j, j < nodes.length → (deleteAnswers m nodes s)[j]? = some none) →
      (DeleteNodes m ng nodes s).calls = nodes.map Call.DeleteNode ∧
      (DeleteNodes m ng nodes s).ng.size.target = wrap64 (ng.size.target - nodes.length) ∧
      (isInt (ng.size.target - nodes.length) →
        (DeleteNodes m ng nodes s).ng.size.target = ng.size.target - nodes.length) ∧
      (DeleteNodes m ng nodes s).err = none) := by
  constructor
  · intro i node hnode hbefore hfail
    obtain ⟨hc, ht, _, _, he⟩ :=
      DeleteNodes_first_failure m nodes ng s i node hT hnode hbefore hfail
    exact ⟨hc, ht, fun hr => ht.trans (wrap64_of_isInt _ hr), he⟩
  · intro hall
    obtain ⟨hc, ht, _, _, he⟩ := DeleteNodes_no_failure m nodes ng s hT hall
    exact ⟨hc, ht, fun hr => ht.trans (wrap64_of_isInt _ hr), he⟩

theorem DeleteNodes_sequential_until_failure_witness :
    isInt (workerGroup 3).size.target ∧
    (DeleteNodes (scriptedManager 0 none [str "b"]) (workerGroup 3)
        [{ Name := str "a" }, { Name := str "b" }, { Name := str "c" }] ()).calls
      = [Call.DeleteNode { Name := str "a" }, Call.DeleteNode { Name := str "b" }] ∧
    (DeleteNodes (scriptedManager 0 none [str "b"]) (workerGroup 3)
        [{ Name := str "a" }, { Name := str "b" }, { Name := str "c" }] ()).ng.size.target = 2 ∧
    (DeleteNodes (scriptedManager 0 none [str "b"]) (workerGroup 3)
        [{ Name := str "a" }, { Name := str "b" }, { Name := str "c" }] ()).err
      = some (GoError.fresh (str "deleting node failed name=b")) := by
  have hT : isInt (workerGroup 3).size.target := by decide
  have h := (DeleteNodes_sequential_until_failure (scriptedManager 0 none [str "b"])
    (workerGroup 3) [{ Name := str "a" }, { Name := str "b" }, { Name := str "c" }] () hT).1
    1 { Name := str "b" } rfl
    (by
      intro j hj
      have hj0 : j = 0 := by omega
      subst hj0
      decide)
    ⟨GoError.fresh (str "delete failed"), by decide⟩
  refine ⟨hT, h.1, ?_, ?_⟩
  · have ht := h.2.2.1 (by decide)
    rw [ht]
    rfl
  · rw [h.2.2.2]
    decide

/-! ## `NewConfig` -/

/-- C2, on the code: whenever the input is not empty and the decoder chosen by
its first byte returns no error and a configuration whose `DefaultFlavor` is
empty, `NewConfig` returns that configuration with a nil error, because
`errors.Wrap` of the nil decoding error is nil. -/
theorem NewConfig_empty_default_flavor_not_rejected (first : Nat) (rest : GoString)
    (jsonUnmarshal yamlUnmarshal : Unmarshal) (cfg : managerConfig)
    (hdecoded : (if first = 91 ∨ first = 123
        then jsonUnmarshal (first :: rest) managerConfig.zero
        else yamlUnmarshal (first :: rest) managerConfig.zero) = (cfg, none))
    (hempty : cfg.DefaultFlavor = []) :
    NewConfig (first :: rest, none) jsonUnmarshal yamlUnmarshal = GoResult.returns (cfg, none) := by
  simp only [NewConfig, ne_eq, not_true_eq_false, if_false, hdecoded, hempty, if_true,
    errors.Wrap]

theorem NewConfig_empty_default_flavor_not_rejected_witness :
    str "{}" = [123, 125] ∧ managerConfig.zero.DefaultFlavor = [] ∧
    NewConfig (str "{}", none) decodeNothing decodeNothing
      = GoResult.returns (managerConfig.zero, none) :=
  ⟨by decide, rfl,
   NewConfig_empty_default_flavor_not_rejected 123 [125] decodeNothing decodeNothing
     managerConfig.zero (by simp [decodeNothing]) rfl⟩

/-! ## `managerServersCom.DeleteNode` -/

/-- With exactly one server of the node's name, `DeleteNode` sends one delete
request, for the id of that server. -/
theorem DeleteNode_one_match {ω : Type} (c : computeAPI ω) (node : Node) (w : World ω)
    (srv : Server) (h : (c.ListServers node.Name w.api).1 = Listing.servers [srv]) :
    (DeleteNode c node w).2.sent
      = w.sent ++ [Request.ListServers node.Name, Request.DeleteServer srv.ID] := by
  simp only [DeleteNode, getNodeID, listServers, h]
  simp only [List.length_singleton, gt_iff_lt, lt_self_iff_false, if_false, ne_eq,
    not_true_eq_false, false_and, deleteServer]
  split <;> simp

/-- With more than one server of the node's name, `DeleteNode` returns an
error and sends no delete request. -/
theorem DeleteNode_many_matches {ω : Type} (c : computeAPI ω) (node : Node) (w : World ω)
    (found : List Server) (h : (c.ListServers node.Name w.api).1 = Listing.servers found)
    (hmany : found.length > 1) :
    (DeleteNode c node w).1 = some (GoError.wrapped
        (GoError.fresh (str "more than one server found for the provided name"))
        (str "get node id error")) ∧
    (DeleteNode c node w).2.sent = w.sent ++ [Request.ListServers node.Name] := by
  simp [DeleteNode, getNodeID, listServers, h, hmany, errors.New, errors.Wrap]

/-- With no server of the node's name, `getNodeID` gives the empty id and
`ErrNotFound`, and `DeleteNode` goes on to send a delete request for the empty
id and to return what that request answers. -/
theorem DeleteNode_no_match {ω : Type} (c : computeAPI ω) (node : Node) (w : World ω)
    (h : (c.ListServers node.Name w.api).1 = Listing.servers []) :
    (DeleteNode c node w).1
      = errors.Wrap (c.DeleteServer [] (c.ListServers node.Name w.api).2).1
          (str "delete node error") ∧
    (DeleteNode c node w).2.sent
      = w.sent ++ [Request.ListServers node.Name, Request.DeleteServer []] := by
  simp only [DeleteNode, getNodeID, listServers, h]
  simp only [List.length_nil, gt_iff_lt, Nat.not_lt_zero, if_false, ne_eq, not_true_eq_false,
    and_false, deleteServer]
  cases hd : (c.DeleteServer [] (c.ListServers node.Name w.api).2).1 <;> simp [errors.Wrap]

/-- C6, evaluated on the code: the inventory is empty, so the lookup of the
node `gone` yields zero instances; the delete request sent for the empty id
is answered "Resource not found" and `DeleteNode` returns the error
"delete node error: Resource not found". -/
theorem DeleteNode_zero_matches_returns_error :
    (listServers emptyCompute (str "gone") freshWorld).1 = Listing.servers [] ∧
    (DeleteNode emptyCompute { Name := str "gone" } freshWorld).1
      = some (GoError.wrapped (GoError.fresh (str "Resource not found"))
          (str "delete node error")) ∧
    (DeleteNode emptyCompute { Name := str "gone" } freshWorld).1 ≠ none := by
  have h := (DeleteNode_no_match emptyCompute { Name := str "gone" } freshWorld rfl).1
  refine ⟨rfl, h, ?_⟩
  rw [h]
  simp [emptyCompute, errors.Wrap]

/-- C7, evaluated on the code: the inventory holds one server, named `kept`;
the lookup of the node `gone` yields zero instances, and `DeleteNode` still
sends a delete request, for the empty id. -/
theorem DeleteNode_zero_matches_sends_delete :
    (listServers (fixedCompute [{ ID := str "id-1", Name := str "kept", Status := str "ACTIVE" }])
      (str "gone") freshWorld).1 = Listing.servers [] ∧
    (DeleteNode (fixedCompute [{ ID := str "id-1", Name := str "kept", Status := str "ACTIVE" }])
      { Name := str "gone" } freshWorld).2.sent
      = [Request.ListServers (str "gone"), Request.DeleteServer []] := by
  have hl : ((fixedCompute [{ ID := str "id-1", Name := str "kept", Status := str "ACTIVE" }]).ListServers
      (str "gone") freshWorld.api).1 = Listing.servers [] := by decide
  exact ⟨by decide, (DeleteNode_no_match _ { Name := str "gone" } freshWorld hl).2⟩

/-! ## Strings -/

theorem str_hyphen : str "-" = [45] := by decide

theorem str_kube : str "kube" = [107, 117, 98, 101] := by decide

theorem HasPrefix_append (p x : GoString) : HasPrefix (p ++ x) p = true := by
  unfold HasPrefix
  rw [List.isPrefixOf_iff_prefix]
  exact List.prefix_append p x

theorem HasPrefix_iff (s p : GoString) : HasPrefix s p = true ↔ ∃ x, s = p ++ x := by
  unfold HasPrefix
  rw [List.isPrefixOf_iff_prefix]
  constructor
  · rintro ⟨x, hx⟩
    exact ⟨x, hx.symm⟩
  · rintro ⟨x, hx⟩
    exact ⟨x, hx.symm⟩

theorem Contains_of_HasPrefix (s sub : GoString) (h : HasPrefix s sub = true) :
    Contains s sub = true := by
  cases s with
  | nil => simpa [Contains] using h
  | cons b bs => simp [Contains, h]

theorem Contains_append_left (pre s sub : GoString) (h : Contains s sub = true) :
    Contains (pre ++ s) sub = true := by
  induction pre with
  | nil => simpa using h
  | cons b bs ih => simp [Contains, ih]

theorem Contains_iff (s sub : GoString) :
    Contains s sub = true ↔ ∃ pre post, s = pre ++ sub ++ post := by
  constructor
  · intro h
    induction s with
    | nil =>
      obtain ⟨x, hx⟩ := (HasPrefix_iff [] sub).mp (by simpa [Contains] using h)
      exact ⟨[], x, by simpa using hx⟩
    | cons b bs ih =>
      simp only [Contains, Bool.or_eq_true] at h
      rcases h with h | h
      · obtain ⟨x, hx⟩ := (HasPrefix_iff _ sub).mp h
        exact ⟨[], x, by simpa using hx⟩
      · obtain ⟨pre, post, hp⟩ := ih h
        exact ⟨b :: pre, post, by simp [hp]⟩
  · rintro ⟨pre, post, rfl⟩
    rw [List.append_assoc]
    exact Contains_append_left pre _ sub (Contains_of_HasPrefix _ _ (HasPrefix_append sub post))

theorem TrimPrefix_append (p x : GoString) : TrimPrefix (p ++ x) p = x := by
  simp [TrimPrefix, HasPrefix_append]

theorem splitPieces_first (sep : Nat) (g rest : GoString) (hg : sep ∉ g) :
    (splitPieces sep (g ++ sep :: rest)).1 = g := by
  induction g with
  | nil => simp [splitPieces]
  | cons b bs ih =>
    have hb : b ≠ sep := fun h => hg (by simp [h])
    have hbs : sep ∉ bs := fun h => hg (by simp [h])
    simp [splitPieces, hb, ih hbs]

/-- The first piece of a split holds no separator. -/
theorem splitPieces_first_no_sep (sep : Nat) (s : GoString) : sep ∉ (splitPieces sep s).1 := by
  induction s with
  | nil => simp [splitPieces]
  | cons b bs ih =>
    by_cases hb : b = sep
    · simp [splitPieces, hb]
    · simp only [splitPieces, hb, if_false, List.mem_cons, not_or]
      exact ⟨fun h => hb h.symm, ih⟩

/-! ## `managerServersCom.nodeGroupName` -/

/-- The branch of `nodeGroupName` taken when the host name contains the prefix. -/
theorem nodeGroupName_of_contains (m : managerServersCom) (hostname : GoString)
    (h : Contains hostname m.scaleProperties.newNodeNamePrefix = true) :
    nodeGroupName m hostname
      = (splitPieces 45
          (TrimPrefix hostname (m.scaleProperties.newNodeNamePrefix ++ str "-"))).1 := by
  simp [nodeGroupName, h, Split]

/-- The branch of `nodeGroupName` taken when the host name does not contain the prefix. -/
theorem nodeGroupName_of_not_contains (m : managerServersCom) (hostname : GoString)
    (h : Contains hostname m.scaleProperties.newNodeNamePrefix = false) :
    nodeGroupName m hostname
      = (match FindStringSubmatch hostname with
          | [_, group] => group
          | _ => []) := by
  simp [nodeGroupName, h]

/-- C8: for every new-node prefix `p`, every group id `g` without a hyphen and
every `rest`, `nodeGroupName` of `p ++ "-" ++ g ++ "-" ++ rest` is `g`. -/
theorem nodeGroupName_prefixed (m : managerServersCom) (g rest : GoString)
    (hg : 45 ∉ g) :
    nodeGroupName m
      (m.scaleProperties.newNodeNamePrefix ++ str "-" ++ g ++ str "-" ++ rest) = g := by
  have hc : Contains
      (m.scaleProperties.newNodeNamePrefix ++ str "-" ++ g ++ str "-" ++ rest)
      m.scaleProperties.newNodeNamePrefix = true := by
    apply Contains_of_HasPrefix
    simp only [List.append_assoc]
    exact HasPrefix_append _ _
  rw [nodeGroupName_of_contains m _ hc]
  have ht : TrimPrefix
      (m.scaleProperties.newNodeNamePrefix ++ str "-" ++ g ++ str "-" ++ rest)
      (m.scaleProperties.newNodeNamePrefix ++ str "-") = g ++ 45 :: rest := by
    have : m.scaleProperties.newNodeNamePrefix ++ str "-" ++ g ++ str "-" ++ rest
        = (m.scaleProperties.newNodeNamePrefix ++ str "-") ++ (g ++ 45 :: rest) := by
      simp [str_hyphen]
    rw [this, TrimPrefix_append]
  rw [ht, splitPieces_first 45 g rest hg]

theorem nodeGroupName_prefixed_witness :
    45 ∉ str "worker" ∧
    nodeGroupName (managerWith (str "kube2-scaler-mow") [])
      (str "kube2-scaler-mow-worker-91e12557-732f-41f0-a23c-93fd7acda037") = str "worker" := by
  have h := nodeGroupName_prefixed (managerWith (str "kube2-scaler-mow") [])
    (str "worker") (str "91e12557-732f-41f0-a23c-93fd7acda037") (by decide)
  have hname : (managerWith (str "kube2-scaler-mow") []).scaleProperties.newNodeNamePrefix
      ++ str "-" ++ str "worker" ++ str "-" ++ str "91e12557-732f-41f0-a23c-93fd7acda037"
      = str "kube2-scaler-mow-worker-91e12557-732f-41f0-a23c-93fd7acda037" := by decide
  rw [hname] at h
  exact ⟨by decide, h⟩

/-! ## The convention pattern -/

theorem dropWhile_run (p : Nat → Bool) (run : GoString) (c : Nat) (x : GoString)
    (hrun : ∀ b ∈ run, p b = true) (hc : p c = false) :
    (run ++ c :: x).dropWhile p = c :: x := by
  induction run with
  | nil => simp [List.dropWhile, hc]
  | cons b bs ih =>
    have hb : p b = true := hrun b (by simp)
    have hbs : ∀ b ∈ bs, p b = true := fun b hb => hrun b (by simp [hb])
    simp [List.dropWhile, hb, ih hbs]

theorem takeWhile_run (p : Nat → Bool) (run : GoString) (c : Nat) (x : GoString)
    (hrun : ∀ b ∈ run, p b = true) (hc : p c = false) :
    (run ++ c :: x).takeWhile p = run := by
  induction run with
  | nil => simp [List.takeWhile, hc]
  | cons b bs ih =>
    have hb : p b = true := hrun b (by simp)
    have hbs : ∀ b ∈ bs, p b = true := fun b hb => hrun b (by simp [hb])
    simp [List.takeWhile, hb, ih hbs]

theorem takeWhile_all (p : Nat → Bool) (l : GoString) : ∀ b ∈ l.takeWhile p, p b = true := by
  induction l with
  | nil => simp
  | cons a as ih =>
    by_cases ha : p a = true
    · simp only [List.takeWhile, ha, List.mem_cons]
      rintro b (rfl | hb)
      · exact ha
      · exact ih b hb
    · simp [List.takeWhile, ha]

/-- A text of the shape of the pattern is matched at offset 0, the group being
the word between the two hyphens. -/
theorem matchAt_of_shape (digits word post : GoString)
    (hd : ∀ b ∈ digits, isDigit b = true) (hw : ∀ b ∈ word, isWord b = true)
    (hne : word ≠ []) :
    matchAt (str "kube" ++ digits ++ str "-" ++ word ++ str "-" ++ post)
      = [str "kube" ++ digits ++ [45] ++ word ++ [45], word] := by
  have hshape : str "kube" ++ digits ++ str "-" ++ word ++ str "-" ++ post
      = str "kube" ++ (digits ++ 45 :: (word ++ 45 :: post)) := by
    simp [str_hyphen]
  have hdrop : (str "kube" ++ (digits ++ 45 :: (word ++ 45 :: post))).drop 4
      = digits ++ 45 :: (word ++ 45 :: post) := by
    simp [str_kube]
  have h45d : isDigit 45 = false := by decide
  have h45w : isWord 45 = false := by decide
  rw [hshape]
  unfold matchAt
  rw [HasPrefix_append, hdrop, dropWhile_run isDigit digits 45 _ hd h45d,
    takeWhile_run isDigit digits 45 _ hd h45d]
  simp only [if_true]
  rw [takeWhile_run isWord word 45 _ hw h45w, dropWhile_run isWord word 45 _ hw h45w]
  cases word with
  | nil => exact absurd rfl hne
  | cons w ws => simp

/-- A match at offset 0 has the shape of the pattern. -/
theorem matchAt_shape (s : GoString) (h : matchAt s ≠ []) :
    ∃ digits word post : GoString,
      s = str "kube" ++ digits ++ str "-" ++ word ++ str "-" ++ post ∧
      (∀ b ∈ digits, isDigit b = true) ∧ (∀ b ∈ word, isWord b = true) ∧ word ≠ [] ∧
      matchAt s = [str "kube" ++ digits ++ [45] ++ word ++ [45], word] := by
  unfold matchAt at h
  by_cases hk : HasPrefix s (str "kube") = true
  · obtain ⟨x, hx⟩ := (HasPrefix_iff s _).mp hk
    have hdrop : s.drop 4 = x := by
      rw [hx]
      simp [str_kube]
    rw [if_pos hk, hdrop] at h
    have hsplit := List.takeWhile_append_dropWhile isDigit x
    cases hdw : x.dropWhile isDigit with
    | nil => simp [hdw] at h
    | cons b r =>
      rw [hdw] at h hsplit
      by_cases hb : b = 45
      · subst hb
        simp only [if_true] at h
        have hsplit2 := List.takeWhile_append_dropWhile isWord r
        cases htw : r.takeWhile isWord with
        | nil => simp [htw] at h
        | cons w ws =>
          cases hdw2 : r.dropWhile isWord with
          | nil => simp [htw, hdw2] at h
          | cons b2 post =>
            by_cases hb2 : b2 = 45
            · subst hb2
              rw [htw, hdw2] at hsplit2
              have hs : s = str "kube" ++ x.takeWhile isDigit ++ str "-" ++ (w :: ws)
                  ++ str "-" ++ post := by
                calc s = str "kube" ++ x := hx
                  _ = str "kube" ++ (x.takeWhile isDigit ++ 45 :: ((w :: ws) ++ 45 :: post)) := by
                    rw [hsplit2, hsplit]
                  _ = _ := by simp [str_hyphen]
              have hword : ∀ b ∈ w :: ws, isWord b = true := by
                rw [← htw]
                exact takeWhile_all isWord r
              have hm := matchAt_of_shape (x.takeWhile isDigit) (w :: ws) post
                (takeWhile_all isDigit x) hword (by simp)
              refine ⟨x.takeWhile isDigit, w :: ws, post, hs, takeWhile_all isDigit x, hword,
                by simp, ?_⟩
              rw [← hm, ← hs]
            · simp [htw, hdw2, hb2] at h
      · simp [hb] at h
  · simp [hk] at h

theorem FindStringSubmatch_of_matchAt (s : GoString) (h : matchAt s ≠ []) :
    FindStringSubmatch s = matchAt s := by
  cases s with
  | nil => rfl
  | cons b bs =>
    unfold FindStringSubmatch
    cases hm : matchAt (b :: bs) with
    | nil => exact absurd hm h
    | cons m ms => rfl

/-- The regexp finds nothing in a text without a substring of its language. -/
theorem FindStringSubmatch_eq_nil (s : GoString) (h : ¬ hasConventionMatch s) :
    FindStringSubmatch s = [] := by
  induction s with
  | nil =>
    by_contra hne
    obtain ⟨digits, word, post, hs, hd, hw, hwne, _⟩ := matchAt_shape [] hne
    exact h ⟨[], digits, word, post, by simpa using hs, hd, hw, hwne⟩
  | cons b bs ih =>
    have hhere : matchAt (b :: bs) = [] := by
      by_contra hne
      obtain ⟨digits, word, post, hs, hd, hw, hwne, _⟩ := matchAt_shape (b :: bs) hne
      exact h ⟨[], digits, word, post, by simpa using hs, hd, hw, hwne⟩
    have htail : ¬ hasConventionMatch bs := by
      rintro ⟨pre, digits, word, post, hs, hd, hw, hwne⟩
      exact h ⟨b :: pre, digits, word, post, by simp [hs], hd, hw, hwne⟩
    unfold FindStringSubmatch
    rw [hhere]
    exact ih htail

/-- The regexp finds a match in every text with a substring of its language. -/
theorem FindStringSubmatch_ne_nil (s : GoString) (h : hasConventionMatch s) :
    FindStringSubmatch s ≠ [] := by
  obtain ⟨pre, digits, word, post, hs, hd, hw, hwne⟩ := h
  subst hs
  induction pre with
  | nil =>
    have hm := matchAt_of_shape digits word post hd hw hwne
    have hne : matchAt (str "kube" ++ digits ++ str "-" ++ word ++ str "-" ++ post) ≠ [] := by
      rw [hm]
      simp
    have := FindStringSubmatch_of_matchAt _ hne
    simp only [List.nil_append]
    rw [this]
    exact hne
  | cons b bs ih =>
    simp only [List.cons_append, List.append_assoc] at ih ⊢
    unfold FindStringSubmatch
    cases hm : matchAt (b :: (bs ++ (str "kube" ++ (digits ++ (str "-" ++ (word ++ (str "-" ++ post))))))) with
    | nil => exact ih
    | cons m ms => simp

/-- C9: a host name that does not contain the new-node prefix and begins with
`kube`, digits, a hyphen, a non-empty token `t` of word bytes and a hyphen
resolves to `t`. -/
theorem nodeGroupName_convention (m : managerServersCom) (digits t rest : GoString)
    (hd : ∀ b ∈ digits, isDigit b = true) (ht : ∀ b ∈ t, isWord b = true) (hne : t ≠ [])
    (hnc : Contains (str "kube" ++ digits ++ str "-" ++ t ++ str "-" ++ rest)
      m.scaleProperties.newNodeNamePrefix = false) :
    nodeGroupName m (str "kube" ++ digits ++ str "-" ++ t ++ str "-" ++ rest) = t := by
  have hm := matchAt_of_shape digits t rest hd ht hne
  have hf := FindStringSubmatch_of_matchAt
    (str "kube" ++ digits ++ str "-" ++ t ++ str "-" ++ rest) (by rw [hm]; simp)
  rw [nodeGroupName_of_not_contains m _ hnc, hf, hm]

theorem nodeGroupName_convention_witness :
    Contains (str "kube2-kafka-mow-1.int.avs.io")
      (managerWith (str "kube2-mow") []).scaleProperties.newNodeNamePrefix = false ∧
    nodeGroupName (managerWith (str "kube2-mow") []) (str "kube2-kafka-mow-1.int.avs.io")
      = str "kafka" := by
  have hname : str "kube" ++ str "2" ++ str "-" ++ str "kafka" ++ str "-"
      ++ str "mow-1.int.avs.io" = str "kube2-kafka-mow-1.int.avs.io" := by decide
  have hnc : Contains (str "kube2-kafka-mow-1.int.avs.io")
      (managerWith (str "kube2-mow") []).scaleProperties.newNodeNamePrefix = false := by decide
  have h := nodeGroupName_convention (managerWith (str "kube2-mow") [])
    (str "2") (str "kafka") (str "mow-1.int.avs.io") (by decide) (by decide) (by decide)
    (by rw [hname]; exact hnc)
  rw [hname] at h
  exact ⟨hnc, h⟩

/-! ## `managerServersCom.GetNodeGroups` -/

theorem GoMap.mem_set {α : Type} (gm : GoMap α) (k : GoString) (v : α) (entry : GoString × α)
    (h : entry ∈ GoMap.set gm k v) : entry.2 = v ∨ entry ∈ gm := by
  induction gm with
  | nil =>
    simp only [GoMap.set, List.mem_singleton] at h
    exact Or.inl (by rw [h])
  | cons head rest ih =>
    obtain ⟨k1, v1⟩ := head
    by_cases hk : k1 = k
    · simp only [GoMap.set, hk, if_true, List.mem_cons] at h
      rcases h with h | h
      · exact Or.inl (by rw [h])
      · exact Or.inr (List.mem_cons_of_mem _ h)
    · simp only [GoMap.set, hk, if_false, List.mem_cons] at h
      rcases h with h | h
      · exact Or.inr (by rw [h]; exact List.mem_cons_self _ _)
      · rcases ih h with h2 | h2
        · exact Or.inl h2
        · exact Or.inr (List.mem_cons_of_mem _ h2)

theorem GoMap.get_mem {α : Type} (gm : GoMap α) (k : GoString) (v : α)
    (h : GoMap.get gm k = some v) : (k, v) ∈ gm := by
  induction gm with
  | nil => simp [GoMap.get] at h
  | cons head rest ih =>
    obtain ⟨k1, v1⟩ := head
    by_cases hk : k1 = k
    · simp only [GoMap.get, hk, if_true, Option.some.injEq] at h
      rw [hk, h]
      exact List.mem_cons_self _ _
    · simp only [GoMap.get, hk, if_false] at h
      exact List.mem_cons_of_mem _ (ih h)

/-- The groups seeded from the configuration have no node. -/
theorem seedGroups_nodes (cfg : GoMap nodeGroupProps) :
    ∀ groups : GoMap nodeGroup, (∀ entry ∈ groups, entry.2.nodes = []) →
      ∀ entry ∈ seedGroups cfg groups, entry.2.nodes = [] := by
  induction cfg with
  | nil =>
    intro groups h
    simpa [seedGroups] using h
  | cons head rest ih =>
    obtain ⟨ngName, ngProps⟩ := head
    intro groups h
    simp only [seedGroups]
    apply ih
    intro entry hentry
    rcases GoMap.mem_set _ _ _ _ hentry with h2 | h2
    · rw [h2]
    · exact h entry h2

/-- A server whose name resolves to the empty string changes no group. -/
theorem placeServer_of_unresolved (m : managerServersCom) (groups : GoMap nodeGroup)
    (srv : Server) (h : nodeGroupName m srv.Name = []) : placeServer m groups srv = groups := by
  simp [placeServer, h]

/-- Every node placed by the second loop has a name that resolves to a group id. -/
theorem placeServer_nodes_resolved (m : managerServersCom) (groups : GoMap nodeGroup)
    (srv : Server)
    (h : ∀ entry ∈ groups, ∀ inst ∈ entry.2.nodes, nodeGroupName m inst.Id ≠ []) :
    ∀ entry ∈ placeServer m groups srv, ∀ inst ∈ entry.2.nodes,
      nodeGroupName m inst.Id ≠ [] := by
  by_cases hname : nodeGroupName m srv.Name = []
  · rw [placeServer_of_unresolved m groups srv hname]
    exact h
  · cases hget : GoMap.get groups (nodeGroupName m srv.Name) with
    | none =>
      have : placeServer m groups srv = groups := by
        simp [placeServer, hname, hget]
      rw [this]
      exact h
    | some ng =>
      intro entry hentry inst hinst
      simp only [placeServer, hname, if_false, hget] at hentry
      rcases GoMap.mem_set _ _ _ _ hentry with h2 | h2
      · rw [h2] at hinst
        simp only [List.mem_append, List.mem_singleton] at hinst
        rcases hinst with h3 | h3
        · exact h _ (GoMap.get_mem _ _ _ hget) inst h3
        · rw [h3]
          exact hname
      · exact h entry h2 inst hinst

theorem foldl_placeServer_nodes_resolved (m : managerServersCom) (inventory : List Server) :
    ∀ groups : GoMap nodeGroup,
      (∀ entry ∈ groups, ∀ inst ∈ entry.2.nodes, nodeGroupName m inst.Id ≠ []) →
      ∀ entry ∈ inventory.foldl (placeServer m) groups, ∀ inst ∈ entry.2.nodes,
        nodeGroupName m inst.Id ≠ [] := by
  induction inventory with
  | nil =>
    intro groups h
    simpa using h
  | cons srv rest ih =>
    intro groups h
    simp only [List.foldl_cons]
    exact ih _ (placeServer_nodes_resolved m groups srv h)

/-- Servers of a name that resolves to the empty string can be left out of the
inventory without changing what the second loop builds. -/
theorem foldl_placeServer_filter (m : managerServersCom) (hostname : GoString)
    (h : nodeGroupName m hostname = []) (inventory : List Server) :
    ∀ groups : GoMap nodeGroup,
      (inventory.filter (fun srv => decide (srv.Name ≠ hostname))).foldl (placeServer m) groups
        = inventory.foldl (placeServer m) groups := by
  induction inventory with
  | nil =>
    intro groups
    rfl
  | cons srv rest ih =>
    intro groups
    by_cases hs : srv.Name = hostname
    · have hskip : placeServer m groups srv = groups :=
        placeServer_of_unresolved m groups srv (by rw [hs]; exact h)
      simp only [List.filter, hs, ne_eq, not_true_eq_false, decide_False, List.foldl_cons, hskip]
      exact ih groups
    · simp only [List.filter, hs, ne_eq, not_false_eq_true, decide_True, List.foldl_cons]
      exact ih _

/-- The result of `GetNodeGroups` when the listing of the servers succeeds. -/
theorem GetNodeGroups_of_listing {ω : Type} (c : computeAPI ω) (m : managerServersCom)
    (w : World ω) (inventory : List Server)
    (h : (c.ListServers [] w.api).1 = Listing.servers inventory) :
    (GetNodeGroups c m w).1
      = ((inventory.foldl (placeServer m) (seedGroups m.scaleProperties.nodeGroups [])).map
          (fun entry => entry.2), none) ∧
    (GetNodeGroups c m w).2.1
      = { m with nodeGroups :=
            inventory.foldl (placeServer m) (seedGroups m.scaleProperties.nodeGroups []) } := by
  simp [GetNodeGroups, getAllNodes, listServers, h]

/-- The result of `GetNodeGroups` when the listing of the servers fails. -/
theorem GetNodeGroups_of_listing_error {ω : Type} (c : computeAPI ω) (m : managerServersCom)
    (w : World ω) (h : ∀ inventory, (c.ListServers [] w.api).1 ≠ Listing.servers inventory) :
    (GetNodeGroups c m w).1.1 = [] ∧ (GetNodeGroups c m w).1.2 ≠ none ∧
    (GetNodeGroups c m w).2.1 = m := by
  cases hl : (c.ListServers [] w.api).1 with
  | pagesError e => simp [GetNodeGroups, getAllNodes, listServers, hl]
  | extractError e => simp [GetNodeGroups, getAllNodes, listServers, hl]
  | servers found => exact absurd hl (h found)

/-- Every node of every group returned by `GetNodeGroups` has a name that
resolves to a group id. -/
theorem GetNodeGroups_nodes_resolved {ω : Type} (c : computeAPI ω) (m : managerServersCom)
    (w : World ω) :
    ∀ g ∈ (GetNodeGroups c m w).1.1, ∀ inst ∈ g.nodes, nodeGroupName m inst.Id ≠ [] := by
  cases hl : (c.ListServers [] w.api).1 with
  | pagesError e =>
    have := (GetNodeGroups_of_listing_error c m w (by simp [hl])).1
    simp [this]
  | extractError e =>
    have := (GetNodeGroups_of_listing_error c m w (by simp [hl])).1
    simp [this]
  | servers found =>
    rw [(GetNodeGroups_of_listing c m w found hl).1]
    intro g hg inst hinst
    simp only [List.mem_map] at hg
    obtain ⟨entry, hentry, rfl⟩ := hg
    exact foldl_placeServer_nodes_resolved m found _
      (fun entry hentry inst hinst => by
        rw [seedGroups_nodes _ [] (by simp) entry hentry] at hinst
        simp at hinst)
      entry hentry inst hinst

/-- C10: a host name that neither contains the new-node prefix nor has a
substring matching the convention pattern resolves to the empty string; for
every configuration and compute API no group returned by `GetNodeGroups` has
an instance of that name in its node list, and leaving the servers of that
name out of the inventory changes nothing in what `GetNodeGroups` returns
(neither a node list nor a target). -/
theorem nodeGroupName_unmatched_ignored (m : managerServersCom) (hostname : GoString)
    (hnc : Contains hostname m.scaleProperties.newNodeNamePrefix = false)
    (hnm : ¬ hasConventionMatch hostname) :
    nodeGroupName m hostname = [] ∧
    (∀ {ω : Type} (c : computeAPI ω) (w : World ω),
      ∀ g ∈ (GetNodeGroups c m w).1.1, ∀ inst ∈ g.nodes, inst.Id ≠ hostname) ∧
    (∀ {ω ω2 : Type} (c : computeAPI ω) (w : World ω) (c2 : computeAPI ω2) (w2 : World ω2)
      (inventory : List Server),
      (c.ListServers [] w.api).1 = Listing.servers inventory →
      (c2.ListServers [] w2.api).1
        = Listing.servers (inventory.filter (fun srv => decide (srv.Name ≠ hostname))) →
      (GetNodeGroups c m w).1 = (GetNodeGroups c2 m w2).1) := by
  have hname : nodeGroupName m hostname = [] := by
    rw [nodeGroupName_of_not_contains m hostname hnc, FindStringSubmatch_eq_nil hostname hnm]
  refine ⟨hname, ?_, ?_⟩
  · intro ω c w g hg inst hinst hid
    exact GetNodeGroups_nodes_resolved c m w g hg inst hinst (by rw [hid]; exact hname)
  · intro ω ω2 c w c2 w2 inventory hl hl2
    rw [(GetNodeGroups_of_listing c m w inventory hl).1,
      (GetNodeGroups_of_listing c2 m w2 _ hl2).1, foldl_placeServer_filter m hostname hname]

theorem nodeGroupName_unmatched_ignored_witness :
    Contains (str "db1.int.avs.io")
      (managerWith (str "kube2-mow") [(str "kafka", { Min := 2, Max := 5 })]).scaleProperties.newNodeNamePrefix
      = false ∧
    ¬ hasConventionMatch (str "db1.int.avs.io") ∧
    nodeGroupName (managerWith (str "kube2-mow") [(str "kafka", { Min := 2, Max := 5 })])
      (str "db1.int.avs.io") = [] ∧
    (∀ g ∈ (GetNodeGroups (fixedCompute sampleInventory)
        (managerWith (str "kube2-mow") [(str "kafka", { Min := 2, Max := 5 })]) freshWorld).1.1,
      ∀ inst ∈ g.nodes, inst.Id ≠ str "db1.int.avs.io") ∧
    (GetNodeGroups (fixedCompute sampleInventory)
        (managerWith (str "kube2-mow") [(str "kafka", { Min := 2, Max := 5 })]) freshWorld).1
      = (GetNodeGroups
          (fixedCompute (sampleInventory.filter
            (fun srv => decide (srv.Name ≠ str "db1.int.avs.io"))))
          (managerWith (str "kube2-mow") [(str "kafka", { Min := 2, Max := 5 })]) freshWorld).1 := by
  have hnc : Contains (str "db1.int.avs.io")
      (managerWith (str "kube2-mow")
        [(str "kafka", { Min := 2, Max := 5 })]).scaleProperties.newNodeNamePrefix = false := by
    decide
  have hnm : ¬ hasConventionMatch (str "db1.int.avs.io") :=
    fun hm => FindStringSubmatch_ne_nil _ hm (by decide)
  have h := nodeGroupName_unmatched_ignored
    (managerWith (str "kube2-mow") [(str "kafka", { Min := 2, Max := 5 })])
    (str "db1.int.avs.io") hnc hnm
  exact ⟨hnc, hnm, h.1, h.2.1 (fixedCompute sampleInventory) freshWorld,
    h.2.2 (fixedCompute sampleInventory) freshWorld
      (fixedCompute (sampleInventory.filter
        (fun srv => decide (srv.Name ≠ str "db1.int.avs.io")))) freshWorld sampleInventory
      rfl rfl⟩

/-! ## `managerServersCom.GetKnownNetworks` -/

theorem appendFirstMatch_eq (pre : GoString) (allNetworks : List osNetwork) (nets : List Network) :
    appendFirstMatch pre allNetworks nets
      = nets ++ ((allNetworks.find? (fun net => Contains net.Label pre)).map
          (fun net => ({ UUID := net.ID, Label := net.Label } : Network))).toList := by
  induction allNetworks with
  | nil => simp [appendFirstMatch]
  | cons net rest ih =>
    by_cases h : Contains net.Label pre = true
    · simp [appendFirstMatch, List.find?, h]
    · simp only [Bool.not_eq_true] at h
      simp [appendFirstMatch, List.find?, h, ih]

theorem foldl_appendFirstMatch (allNetworks : List osNetwork) (prefixes : List GoString) :
    ∀ nets : List Network,
      prefixes.foldl (fun nets pre => appendFirstMatch pre allNetworks nets) nets
        = nets ++ prefixes.filterMap (fun pre =>
            (allNetworks.find? (fun net => Contains net.Label pre)).map
              (fun net => ({ UUID := net.ID, Label := net.Label } : Network))) := by
  induction prefixes with
  | nil =>
    intro nets
    simp
  | cons pre rest ih =>
    intro nets
    simp only [List.foldl_cons]
    rw [ih, appendFirstMatch_eq, List.filterMap_cons]
    cases (allNetworks.find? (fun net => Contains net.Label pre)) <;> simp

theorem find?_isSome_eq_any {α : Type} (p : α → Bool) (l : List α) :
    (l.find? p).isSome = l.any p := by
  induction l with
  | nil => rfl
  | cons a as ih =>
    cases h : p a <;> simp [List.find?, h, ih]

theorem length_filterMap_eq_length_filter {α β : Type} (f : α → Option β) (l : List α) :
    (l.filterMap f).length = (l.filter (fun a => (f a).isSome)).length := by
  induction l with
  | nil => rfl
  | cons a as ih =>
    cases h : f a <;> simp [List.filterMap_cons, List.filter_cons, h, ih]

/-- C11: for a non-empty prefix list and any listed networks,
`GetKnownNetworks` returns no error and, in prefix order, for each prefix the
first listed network whose label contains the prefix, with that network's id
and label; a prefix without such a network contributes nothing, so the result
has one entry per prefix that has a match. -/
theorem GetKnownNetworks_first_matches (m : managerServersCom)
    (allNetworks : List osNetwork) (hne : m.scaleProperties.networksPrefixes ≠ []) :
    GetKnownNetworks m (NetworkListing.networks allNetworks)
      = (m.scaleProperties.networksPrefixes.filterMap (fun pre =>
          (allNetworks.find? (fun net => Contains net.Label pre)).map
            (fun net => ({ UUID := net.ID, Label := net.Label } : Network))), none) ∧
    (GetKnownNetworks m (NetworkListing.networks allNetworks)).1.length
      = (m.scaleProperties.networksPrefixes.filter (fun pre =>
          allNetworks.any (fun net => Contains net.Label pre))).length := by
  have hlen : ¬ m.scaleProperties.networksPrefixes.length = 0 := by
    simpa [List.length_eq_zero] using hne
  have h : GetKnownNetworks m (NetworkListing.networks allNetworks)
      = (m.scaleProperties.networksPrefixes.filterMap (fun pre =>
          (allNetworks.find? (fun net => Contains net.Label pre)).map
            (fun net => ({ UUID := net.ID, Label := net.Label } : Network))), none) := by
    simp only [GetKnownNetworks, hlen, if_false, foldl_appendFirstMatch, List.nil_append]
  refine ⟨h, ?_⟩
  rw [h, length_filterMap_eq_length_filter]
  congr 1
  apply List.filter_congr
  intro pre _
  rw [Option.isSome_map', find?_isSome_eq_any]

theorem GetKnownNetworks_first_matches_witness :
    newTestManager.scaleProperties.networksPrefixes
      = [str "global_private", str "local_private", str "internet"] ∧
    (GetKnownNetworks newTestManager (NetworkListing.networks respOsNetworks)).1
      = [{ UUID := str "0a2844d4-114e-48cd-9997-0cd2d95191e7", Label := str "global_private" },
         { UUID := str "2d933a6e-d5d0-4511-a2f9-9b9b95086491", Label := str "local_private" },
         { UUID := str "0b1b8097-fa5a-4041-bf83-76e03aa4bab3",
           Label := str "internet_23.105.240.64/27" }] ∧
    (GetKnownNetworks newTestManager (NetworkListing.networks respOsNetworks)).2 = none := by
  have h := (GetKnownNetworks_first_matches newTestManager respOsNetworks
    (by decide)).1
  refine ⟨rfl, ?_, ?_⟩
  · rw [h]
    decide
  · rw [h]

/-! ## `GetNodeGroups` when the inventory cannot be listed -/

/-- C13: when listing the servers fails (in `AllPages` or in
`ExtractServers`), `GetNodeGroups` returns no group and the error "get all
nodes error=" followed by the text of the failure, and the manager, its group
map included, is as it was before the call. -/
theorem GetNodeGroups_listing_failure {ω : Type} (c : computeAPI ω) (m : managerServersCom)
    (w : World ω) (e : GoError)
    (hfail : (c.ListServers [] w.api).1 = Listing.pagesError e ∨
      (c.ListServers [] w.api).1 = Listing.extractError e) :
    (GetNodeGroups c m w).1.1 = [] ∧
    (GetNodeGroups c m w).1.2 = some (GoError.fresh (str "get all nodes error=" ++ e.Error)) ∧
    (GetNodeGroups c m w).1.2 ≠ none ∧
    (GetNodeGroups c m w).2.1.nodeGroups = m.nodeGroups ∧
    (GetNodeGroups c m w).2.1 = m := by
  rcases hfail with h | h <;> simp [GetNodeGroups, getAllNodes, listServers, h]

theorem GetNodeGroups_listing_failure_witness :
    (failingCompute.ListServers [] freshWorld.api).1
      = Listing.pagesError (GoError.fresh (str "connection refused")) ∧
    (GetNodeGroups failingCompute workerManager freshWorld).1.1 = [] ∧
    (GetNodeGroups failingCompute workerManager freshWorld).1.2
      = some (GoError.fresh (str "get all nodes error=connection refused")) ∧
    (GetNodeGroups failingCompute workerManager freshWorld).2.1.nodeGroups
      = [(str "worker", workerGroup 0)] := by
  have h := GetNodeGroups_listing_failure failingCompute workerManager freshWorld
    (GoError.fresh (str "connection refused")) (Or.inl rfl)
  refine ⟨rfl, h.1, ?_, ?_⟩
  · rw [h.2.1]
    decide
  · rw [h.2.2.2.1]
    rfl

/-! ## `managerServersCom.NodeGroupForNode` -/

/-- C17: `NodeGroupForNode` returns the group stored under the id
`nodeGroupName(hostname)` and no error when that id is a key of the map;
otherwise it returns a nil group and the error "unknown node group=" followed
by the id; in both cases the manager, its map included, is unchanged. -/
theorem NodeGroupForNode_lookup (m : managerServersCom) (hostname : GoString) :
    (∀ n, GoMap.get m.nodeGroups (nodeGroupName m hostname) = some n →
      (NodeGroupForNode m hostname).1 = (some n, none)) ∧
    (GoMap.get m.nodeGroups (nodeGroupName m hostname) = none →
      (NodeGroupForNode m hostname).1
        = (none, some (GoError.fresh
            (str "unknown node group=" ++ nodeGroupName m hostname)))) ∧
    (NodeGroupForNode m hostname).2 = m ∧
    (NodeGroupForNode m hostname).2.nodeGroups = m.nodeGroups := by
  refine ⟨?_, ?_, ?_, ?_⟩
  · intro n hn
    simp [NodeGroupForNode, hn]
  · intro hn
    simp [NodeGroupForNode, hn]
  · cases hn : GoMap.get m.nodeGroups (nodeGroupName m hostname) <;>
      simp [NodeGroupForNode, hn]
  · cases hn : GoMap.get m.nodeGroups (nodeGroupName m hostname) <;>
      simp [NodeGroupForNode, hn]

theorem NodeGroupForNode_lookup_witness :
    nodeGroupName workerManager
      (str "kube2-scaler-mow-worker-91e12557-732f-41f0-a23c-93fd7acda037") = str "worker" ∧
    (NodeGroupForNode workerManager
      (str "kube2-scaler-mow-worker-91e12557-732f-41f0-a23c-93fd7acda037")).1
      = (some (workerGroup 0), none) ∧
    (workerGroup 0).id = str "worker" ∧
    (NodeGroupForNode workerManager (str "db1.int.avs.io")).1
      = (none, some (GoError.fresh (str "unknown node group="))) := by
  have hname : nodeGroupName workerManager
      (str "kube2-scaler-mow-worker-91e12557-732f-41f0-a23c-93fd7acda037") = str "worker" := by
    decide
  have hname2 : nodeGroupName workerManager (str "db1.int.avs.io") = [] := by decide
  refine ⟨hname, ?_, rfl, ?_⟩
  · exact (NodeGroupForNode_lookup workerManager _).1 (workerGroup 0) (by rw [hname]; decide)
  · have h := (NodeGroupForNode_lookup workerManager (str "db1.int.avs.io")).2.1
      (by rw [hname2]; decide)
    rw [h, hname2]
    decide

/-! ## `nodeGroup.DecreaseTargetSize` -/

/-- C18: for every node group state and every `delta`, of either sign,
`DecreaseTargetSize(delta)` sets the target to the old target plus `delta`
(Go `int` addition, the mathematical sum whenever that is in range), returns
no error, makes no call to the manager and leaves the manager and the other
fields of the group as they were. -/
theorem DecreaseTargetSize_adds_delta {σ : Type} (m : manager σ) (ng : nodeGroup)
    (delta : Int) (s : σ) :
    (DecreaseTargetSize m ng delta s).ng.size.target = intAdd ng.size.target delta ∧
    (isInt (ng.size.target + delta) →
      (DecreaseTargetSize m ng delta s).ng.size.target = ng.size.target + delta) ∧
    (DecreaseTargetSize m ng delta s).err = none ∧
    (DecreaseTargetSize m ng delta s).calls = [] ∧
    (DecreaseTargetSize m ng delta s).mgr = s ∧
    (DecreaseTargetSize m ng delta s).ng.nodes = ng.nodes ∧
    (DecreaseTargetSize m ng delta s).ng.size.min = ng.size.min ∧
    (DecreaseTargetSize m ng delta s).ng.size.max = ng.size.max := by
  refine ⟨rfl, ?_, rfl, rfl, rfl, rfl, rfl, rfl⟩
  intro h
  exact wrap64_of_isInt _ h

theorem DecreaseTargetSize_adds_delta_witness :
    (DecreaseTargetSize (scriptedManager 0 none []) (workerGroup 3) (-2) ()).ng.size.target = 1 ∧
    (DecreaseTargetSize (scriptedManager 0 none []) (workerGroup 3) 4 ()).ng.size.target = 7 ∧
    (DecreaseTargetSize (scriptedManager 0 none []) (workerGroup 3) (-2) ()).calls = [] := by
  have h1 := (DecreaseTargetSize_adds_delta (scriptedManager 0 none []) (workerGroup 3) (-2) ())
  have h2 := (DecreaseTargetSize_adds_delta (scriptedManager 0 none []) (workerGroup 3) 4 ())
  refine ⟨?_, ?_, h1.2.2.2.1⟩
  · rw [h1.2.1 (by decide)]
    rfl
  · rw [h2.2.1 (by decide)]
    rfl

/-! ## `managerServersCom.GetNodeStatusByID` -/

theorem statusMapping_other (raw : GoString) (h1 : raw ≠ str "BUILD") (h2 : raw ≠ str "ACTIVE")
    (h3 : raw ≠ str "SOFT_DELETED") : GoMap.get statusMapping raw = none := by
  simp [statusMapping, GoMap.get, Ne.symm h1, Ne.symm h2, Ne.symm h3]

/-- C20: when the lookup of the instance succeeds, `GetNodeStatusByID` returns
no error; the raw status `BUILD` gives Creating, `ACTIVE` gives Running and
`SOFT_DELETED` gives Deleting, each without error info; any other raw status
gives the zero state (none of the three) with an error info of class
`OtherErrorClass` whose message is "abnormal status " followed by the raw
status. -/
theorem GetNodeStatusByID_mapping (srv : Server) :
    (GetNodeStatusByID (GetResult.found srv)).2 = none ∧
    (srv.Status = str "BUILD" →
      (GetNodeStatusByID (GetResult.found srv)).1
        = { State := InstanceState.InstanceCreating, ErrorInfo := none }) ∧
    (srv.Status = str "ACTIVE" →
      (GetNodeStatusByID (GetResult.found srv)).1
        = { State := InstanceState.InstanceRunning, ErrorInfo := none }) ∧
    (srv.Status = str "SOFT_DELETED" →
      (GetNodeStatusByID (GetResult.found srv)).1
        = { State := InstanceState.InstanceDeleting, ErrorInfo := none }) ∧
    (srv.Status ≠ str "BUILD" → srv.Status ≠ str "ACTIVE" → srv.Status ≠ str "SOFT_DELETED" →
      (GetNodeStatusByID (GetResult.found srv)).1.ErrorInfo
        = some { ErrorClass := InstanceErrorClass.OtherErrorClass,
                 ErrorMessage := str "abnormal status " ++ srv.Status } ∧
      (GetNodeStatusByID (GetResult.found srv)).1.State ≠ InstanceState.InstanceCreating ∧
      (GetNodeStatusByID (GetResult.found srv)).1.State ≠ InstanceState.InstanceRunning ∧
      (GetNodeStatusByID (GetResult.found srv)).1.State ≠ InstanceState.InstanceDeleting) := by
  have hb : GoMap.get statusMapping (str "BUILD") = some nodeStatusCreating := by decide
  have ha : GoMap.get statusMapping (str "ACTIVE") = some nodeStatusRunning := by decide
  have hs : GoMap.get statusMapping (str "SOFT_DELETED") = some nodeStatusDeleting := by decide
  refine ⟨?_, ?_, ?_, ?_, ?_⟩
  · cases h : GoMap.get statusMapping srv.Status <;> simp [GetNodeStatusByID, h]
  · intro h
    simp [GetNodeStatusByID, h, hb, nodeStatusCreating]
  · intro h
    simp [GetNodeStatusByID, h, ha, nodeStatusRunning]
  · intro h
    simp [GetNodeStatusByID, h, hs, nodeStatusDeleting]
  · intro h1 h2 h3
    simp [GetNodeStatusByID, statusMapping_other srv.Status h1 h2 h3]

theorem GetNodeStatusByID_mapping_witness :
    (GetNodeStatusByID (GetResult.found
      { ID := str "id-1", Name := str "n", Status := str "ACTIVE" })).1
      = { State := InstanceState.InstanceRunning, ErrorInfo := none } ∧
    (GetNodeStatusByID (GetResult.found
      { ID := str "id-1", Name := str "n", Status := str "ERROR" })).1.ErrorInfo
      = some { ErrorClass := InstanceErrorClass.OtherErrorClass,
               ErrorMessage := str "abnormal status ERROR" } := by
  refine ⟨(GetNodeStatusByID_mapping _).2.2.1 rfl, ?_⟩
  have h := ((GetNodeStatusByID_mapping
    { ID := str "id-1", Name := str "n", Status := str "ERROR" }).2.2.2.2
    (by decide) (by decide) (by decide)).1
  rw [h]
  decide

/-! ## Go maps -/

theorem GoMap.get_set_same {α : Type} (gm : GoMap α) (k : GoString) (v : α) :
    GoMap.get (GoMap.set gm k v) k = some v := by
  induction gm with
  | nil => simp [GoMap.set, GoMap.get]
  | cons head rest ih =>
    obtain ⟨k1, v1⟩ := head
    by_cases hk : k1 = k
    · simp [GoMap.set, GoMap.get, hk]
    · simp [GoMap.set, GoMap.get, hk, ih]

theorem GoMap.get_set_other {α : Type} (gm : GoMap α) (k k2 : GoString) (v : α) (h : k2 ≠ k) :
    GoMap.get (GoMap.set gm k v) k2 = GoMap.get gm k2 := by
  induction gm with
  | nil => simp [GoMap.set, GoMap.get, Ne.symm h]
  | cons head rest ih =>
    obtain ⟨k1, v1⟩ := head
    by_cases hk : k1 = k
    · subst hk
      simp [GoMap.set, GoMap.get, Ne.symm h]
    · by_cases hk2 : k1 = k2
      · subst hk2
        simp [GoMap.set, GoMap.get, hk]
      · simp [GoMap.set, GoMap.get, hk, hk2, ih]

theorem GoMap.get_isSome_iff {α : Type} (gm : GoMap α) (k : GoString) :
    (GoMap.get gm k).isSome = true ↔ k ∈ gm.map (fun entry => entry.1) := by
  induction gm with
  | nil => simp [GoMap.get]
  | cons head rest ih =>
    obtain ⟨k1, v1⟩ := head
    by_cases hk : k1 = k
    · simp [GoMap.get, hk]
    · have hk2 : ¬ k = k1 := fun h => hk h.symm
      simp only [GoMap.get, hk, if_false, ih, List.map_cons, List.mem_cons, hk2, false_or]

theorem GoMap.keys_set_of_mem {α : Type} (gm : GoMap α) (k : GoString) (v : α)
    (h : k ∈ gm.map (fun entry => entry.1)) :
    (GoMap.set gm k v).map (fun entry => entry.1) = gm.map (fun entry => entry.1) := by
  induction gm with
  | nil => simp at h
  | cons head rest ih =>
    obtain ⟨k1, v1⟩ := head
    by_cases hk : k1 = k
    · simp [GoMap.set, hk]
    · have hrest : k ∈ rest.map (fun entry => entry.1) := by
        simp only [List.map_cons, List.mem_cons] at h
        rcases h with h | h
        · exact absurd h.symm hk
        · exact h
      simp [GoMap.set, hk, ih hrest]

/-! ## `newManager` -/

theorem withDefaultMax_idem (props : nodeGroupProps) :
    withDefaultMax (withDefaultMax props) = withDefaultMax props := by
  by_cases h : props.Max = 0
  · simp [withDefaultMax, h, defaultNodeGroupMaxSize]
  · simp [withDefaultMax, h]

/-- One step of the loop of `fixZeroValues` on a key that is present. -/
theorem fixZero_step (acc : GoMap nodeGroupProps) (k0 : GoString) (props : nodeGroupProps)
    (h : GoMap.get acc k0 = some props) (k : GoString) :
    GoMap.get
      (if ((GoMap.get acc k0).getD { Min := 0, Max := 0 }).Max = 0 then
        GoMap.set acc k0
          { (GoMap.get acc k0).getD { Min := 0, Max := 0 } with Max := defaultNodeGroupMaxSize }
      else acc) k
      = if k = k0 then some (withDefaultMax props) else GoMap.get acc k := by
  rw [h]
  simp only [Option.getD_some]
  by_cases hmax : props.Max = 0
  · simp only [hmax, if_true]
    by_cases hk : k = k0
    · subst hk
      simp [GoMap.get_set_same, withDefaultMax, hmax]
    · simp [GoMap.get_set_other _ _ _ _ hk, hk]
  · simp only [hmax, if_false]
    by_cases hk : k = k0
    · subst hk
      simp [h, withDefaultMax, hmax]
    · simp [hk]

theorem fixZero_foldl (keys : List GoString) :
    ∀ acc : GoMap nodeGroupProps, (∀ k ∈ keys, (GoMap.get acc k).isSome = true) →
      ∀ k, GoMap.get
          (keys.foldl
            (fun acc ngName =>
              if ((GoMap.get acc ngName).getD { Min := 0, Max := 0 }).Max = 0 then
                GoMap.set acc ngName
                  { (GoMap.get acc ngName).getD { Min := 0, Max := 0 } with
                    Max := defaultNodeGroupMaxSize }
              else acc)
            acc) k
        = if k ∈ keys then (GoMap.get acc k).map withDefaultMax else GoMap.get acc k := by
  induction keys with
  | nil =>
    intro acc _ k
    simp
  | cons k0 ks ih =>
    intro acc hpresent k
    obtain ⟨props, hprops⟩ := Option.isSome_iff_exists.mp (hpresent k0 (List.mem_cons_self _ _))
    have hstep := fixZero_step acc k0 props hprops
    simp only [List.foldl_cons]
    rw [ih _ (by
      intro k1 hk1
      rw [hstep k1]
      by_cases h : k1 = k0
      · simp [h]
      · simp only [h, if_false]
        exact hpresent k1 (List.mem_cons_of_mem _ hk1)) k, hstep k]
    by_cases hk : k = k0
    · subst hk
      by_cases hin : k ∈ ks
      · simp [hin, hprops, withDefaultMax_idem]
      · simp [hin, hprops]
    · simp [hk]

/-- The bounds of every key after `fixZeroValues`. -/
theorem fixZeroValues_get (nodeGroups : GoMap nodeGroupProps) (k : GoString) :
    GoMap.get (fixZeroValues nodeGroups) k = (GoMap.get nodeGroups k).map withDefaultMax := by
  unfold fixZeroValues
  rw [fixZero_foldl _ nodeGroups (fun k hk => (GoMap.get_isSome_iff nodeGroups k).mpr hk) k]
  by_cases hin : k ∈ nodeGroups.map (fun entry => entry.1)
  · simp [hin]
  · have hnone : GoMap.get nodeGroups k = none := by
      cases hg : GoMap.get nodeGroups k with
      | none => rfl
      | some v =>
        exact absurd ((GoMap.get_isSome_iff nodeGroups k).mp (by simp [hg])) hin
    simp [hin, hnone]

theorem fixZero_foldl_keys (keys : List GoString) :
    ∀ acc : GoMap nodeGroupProps, (∀ k ∈ keys, k ∈ acc.map (fun entry => entry.1)) →
      (keys.foldl
        (fun acc ngName =>
          if ((GoMap.get acc ngName).getD { Min := 0, Max := 0 }).Max = 0 then
            GoMap.set acc ngName
              { (GoMap.get acc ngName).getD { Min := 0, Max := 0 } with
                Max := defaultNodeGroupMaxSize }
          else acc)
        acc).map (fun entry => entry.1) = acc.map (fun entry => entry.1) := by
  induction keys with
  | nil =>
    intro acc _
    rfl
  | cons k0 ks ih =>
    intro acc hpresent
    have hk0 := hpresent k0 (List.mem_cons_self _ _)
    simp only [List.foldl_cons]
    split
    · rw [ih _ (by
        intro k hk
        rw [GoMap.keys_set_of_mem _ _ _ hk0]
        exact hpresent k (List.mem_cons_of_mem _ hk)), GoMap.keys_set_of_mem _ _ _ hk0]
    · exact ih acc (fun k hk => hpresent k (List.mem_cons_of_mem _ hk))

theorem fixZero_foldl_noop (keys : List GoString) (acc : GoMap nodeGroupProps)
    (h : ∀ k ∈ keys, ((GoMap.get acc k).getD { Min := 0, Max := 0 }).Max ≠ 0) :
    keys.foldl
      (fun acc ngName =>
        if ((GoMap.get acc ngName).getD { Min := 0, Max := 0 }).Max = 0 then
          GoMap.set acc ngName
            { (GoMap.get acc ngName).getD { Min := 0, Max := 0 } with
              Max := defaultNodeGroupMaxSize }
        else acc)
      acc = acc := by
  induction keys with
  | nil => rfl
  | cons k0 ks ih =>
    simp only [List.foldl_cons, h k0 (List.mem_cons_self _ _), if_false]
    exact ih (fun k hk => h k (List.mem_cons_of_mem _ hk))

theorem withDefaultMax_ne_zero (props : nodeGroupProps) : (withDefaultMax props).Max ≠ 0 := by
  by_cases h : props.Max = 0
  · simp [withDefaultMax, h, defaultNodeGroupMaxSize]
  · simp [withDefaultMax, h]

/-- Running the loop of `fixZeroValues` a second time changes nothing. -/
theorem fixZeroValues_idem (nodeGroups : GoMap nodeGroupProps) :
    fixZeroValues (fixZeroValues nodeGroups) = fixZeroValues nodeGroups := by
  have hkeys : (fixZeroValues nodeGroups).map (fun entry => entry.1)
      = nodeGroups.map (fun entry => entry.1) :=
    fixZero_foldl_keys _ nodeGroups (fun k hk => hk)
  have hunfold : fixZeroValues (fixZeroValues nodeGroups)
      = ((fixZeroValues nodeGroups).map (fun entry => entry.1)).foldl
          (fun acc ngName =>
            if ((GoMap.get acc ngName).getD { Min := 0, Max := 0 }).Max = 0 then
              GoMap.set acc ngName
                { (GoMap.get acc ngName).getD { Min := 0, Max := 0 } with
                  Max := defaultNodeGroupMaxSize }
            else acc)
          (fixZeroValues nodeGroups) := rfl
  rw [hunfold]
  apply fixZero_foldl_noop
  intro k hk
  rw [hkeys] at hk
  obtain ⟨props, hprops⟩ :=
    Option.isSome_iff_exists.mp ((GoMap.get_isSome_iff nodeGroups k).mpr hk)
  rw [fixZeroValues_get, hprops]
  exact withDefaultMax_ne_zero props

/-- C19: when the configuration is decoded and the compute client is built
without error, the manager returned by `newManager` holds the configured
groups with the bounds of `fixZeroValues`: for every configured group the
maximum is 10 when the configured maximum is 0 (the value of an absent one)
and the configured maximum otherwise, and the minimum is the configured
minimum; running the defaulting again changes nothing. -/
theorem newManager_capacity_bounds (read : GoString × Option GoError)
    (jsonUnmarshal yamlUnmarshal : Unmarshal) (setup : clientSetup) (cfg : managerConfig)
    (hcfg : NewConfig read jsonUnmarshal yamlUnmarshal = GoResult.returns (cfg, none))
    (henv : cfg.AuthCredsFromEnv = true → setup.authOptionsFromEnv = none)
    (hauth : setup.authenticatedClient = none) (hclient : setup.newComputeV2 = none) :
    (∃ mgr, newManager (some read) jsonUnmarshal yamlUnmarshal setup
        = GoResult.returns (some mgr, none) ∧
      mgr.scaleProperties.nodeGroups = fixZeroValues cfg.NodeGroups ∧
      mgr.nodeGroups = []) ∧
    (∀ k props, GoMap.get cfg.NodeGroups k = some props →
      GoMap.get (fixZeroValues cfg.NodeGroups) k
        = some { Min := props.Min, Max := if props.Max = 0 then 10 else props.Max }) ∧
    (∀ k, GoMap.get cfg.NodeGroups k = none →
      GoMap.get (fixZeroValues cfg.NodeGroups) k = none) ∧
    fixZeroValues (fixZeroValues cfg.NodeGroups) = fixZeroValues cfg.NodeGroups := by
  refine ⟨?_, ?_, ?_, fixZeroValues_idem _⟩
  · have henv2 : (if cfg.AuthCredsFromEnv then setup.authOptionsFromEnv else none) = none := by
      by_cases h : cfg.AuthCredsFromEnv = true
      · simp [h, henv h]
      · simp [h]
    refine ⟨{ nodeGroups := [],
              scaleProperties :=
                { defaultFlavor := cfg.DefaultFlavor,
                  flavors := cfg.Flavors,
                  networksPrefixes := cfg.NetworkPrefixes,
                  nodeGroups := fixZeroValues cfg.NodeGroups,
                  newNodeNamePrefix := cfg.NewNodeNamePrefix,
                  imageName := cfg.Image } }, ?_, rfl, rfl⟩
    simp only [newManager, hcfg, ne_eq, not_true_eq_false, if_false, henv2, hauth, hclient]
  · intro k props h
    rw [fixZeroValues_get, h]
    rfl
  · intro k h
    rw [fixZeroValues_get, h]
    rfl

theorem newManager_capacity_bounds_witness :
    NewConfig (testConfigYaml, none) decodeNothing (decodeTo testConfig)
      = GoResult.returns (testConfig, none) ∧
    GoMap.get testConfig.NodeGroups (str "worker") = some { Min := 0, Max := 0 } ∧
    (∃ mgr, newManager (some (testConfigYaml, none)) decodeNothing (decodeTo testConfig) setupOk
        = GoResult.returns (some mgr, none) ∧
      mgr.scaleProperties.nodeGroups = fixZeroValues testConfig.NodeGroups ∧
      mgr.nodeGroups = []) ∧
    GoMap.get (fixZeroValues testConfig.NodeGroups) (str "worker")
      = some { Min := 0, Max := 10 } := by
  have hcfg : NewConfig (testConfigYaml, none) decodeNothing (decodeTo testConfig)
      = GoResult.returns (testConfig, none) := by decide
  have hget : GoMap.get testConfig.NodeGroups (str "worker") = some { Min := 0, Max := 0 } := by
    decide
  have h := newManager_capacity_bounds (testConfigYaml, none) decodeNothing
    (decodeTo testConfig) setupOk testConfig hcfg (fun _ => rfl) rfl rfl
  exact ⟨hcfg, hget, h.1, h.2.1 (str "worker") { Min := 0, Max := 0 } hget⟩

/-! ## What `GetNodeGroups` builds -/

theorem GoMap.set_of_not_mem {α : Type} (gm : GoMap α) (k : GoString) (v : α)
    (h : k ∉ gm.map (fun entry => entry.1)) : GoMap.set gm k v = gm ++ [(k, v)] := by
  induction gm with
  | nil => rfl
  | cons head rest ih =>
    obtain ⟨k1, v1⟩ := head
    simp only [List.map_cons, List.mem_cons, not_or] at h
    have hk : ¬ k1 = k := fun e => h.1 e.symm
    simp [GoMap.set, hk, ih h.2]

/-- The first loop of `GetNodeGroups` over a configuration with distinct
keys appends one empty group per key, in the order of the keys. -/
theorem seedGroups_eq (m : managerServersCom) (cfg : GoMap nodeGroupProps) :
    ∀ groups : GoMap nodeGroup,
      (cfg.map (fun entry => entry.1)).Nodup →
      (∀ k ∈ cfg.map (fun entry => entry.1), k ∉ groups.map (fun entry => entry.1)) →
      seedGroups cfg groups
        = groups ++ cfg.map (fun entry => (entry.1, builtGroup m [] entry)) := by
  induction cfg with
  | nil =>
    intro groups _ _
    simp [seedGroups]
  | cons head rest ih =>
    obtain ⟨ngName, ngProps⟩ := head
    intro groups hnodup hfresh
    simp only [List.map_cons, List.nodup_cons] at hnodup
    have hnew : ngName ∉ groups.map (fun entry => entry.1) :=
      hfresh ngName (by simp)
    simp only [seedGroups]
    rw [GoMap.set_of_not_mem _ _ _ hnew, ih _ hnodup.2]
    · simp [builtGroup, membersOf, wrap64]
    · intro k hk
      simp only [List.map_append, List.map_cons, List.map_nil, List.mem_append,
        List.mem_singleton, not_or]
      refine ⟨hfresh k (by simp [hk]), ?_⟩
      intro hkn
      rw [hkn] at hk
      exact hnodup.1 hk

/-- Updating the entry of one key in a map built entry by entry. -/
theorem GoMap.update_map {α β : Type} (n : GoString) (upd : α → α)
    (F G : GoString × β → α) (l : List (GoString × β)) :
    (l.map (fun entry => entry.1)).Nodup →
    (∀ entry ∈ l, G entry = if entry.1 = n then upd (F entry) else F entry) →
    (match GoMap.get (l.map (fun entry => (entry.1, F entry))) n with
      | none => l.map (fun entry => (entry.1, F entry))
      | some ng => GoMap.set (l.map (fun entry => (entry.1, F entry))) n (upd ng))
      = l.map (fun entry => (entry.1, G entry)) := by
  induction l with
  | nil =>
    intro _ _
    simp [GoMap.get]
  | cons head rest ih =>
    intro hnodup hG
    simp only [List.map_cons, List.nodup_cons] at hnodup
    by_cases hk : head.1 = n
    · have hrest : rest.map (fun entry => (entry.1, F entry))
          = rest.map (fun entry => (entry.1, G entry)) := by
        apply List.map_congr_left
        intro entry hentry
        have hne : ¬ entry.1 = n := by
          intro he
          apply hnodup.1
          rw [hk, ← he]
          exact List.mem_map_of_mem (fun entry => entry.1) hentry
        rw [hG entry (List.mem_cons_of_mem _ hentry)]
        simp [hne]
      have hhead := hG head (List.mem_cons_self _ _)
      simp only [hk, if_true] at hhead
      simp [GoMap.get, GoMap.set, hk, hrest, hhead]
    · have hhead := hG head (List.mem_cons_self _ _)
      simp only [hk, if_false] at hhead
      have hrec := ih hnodup.2 (fun entry hentry => hG entry (List.mem_cons_of_mem _ hentry))
      simp only [List.map_cons, GoMap.get, hk, if_false]
      cases hget : GoMap.get (rest.map (fun entry => (entry.1, F entry))) n with
      | none =>
        rw [hget] at hrec
        simp only at hrec ⊢
        rw [hhead, ← hrec]
      | some ng =>
        rw [hget] at hrec
        simp only [GoMap.set, hk, if_false] at hrec ⊢
        rw [hhead, ← hrec]

theorem membersOf_append_unresolved (m : managerServersCom) (ngName : GoString)
    (pre : List Server) (srv : Server) (h : ¬ nodeGroupName m srv.Name = ngName ∨
      nodeGroupName m srv.Name = []) :
    membersOf m ngName (pre ++ [srv]) = membersOf m ngName pre := by
  unfold membersOf
  rw [List.filter_append]
  rcases h with h | h <;> simp [List.filter, h]

theorem membersOf_append_resolved (m : managerServersCom) (pre : List Server) (srv : Server)
    (h : nodeGroupName m srv.Name ≠ []) :
    membersOf m (nodeGroupName m srv.Name) (pre ++ [srv])
      = membersOf m (nodeGroupName m srv.Name) pre ++ [srv] := by
  unfold membersOf
  rw [List.filter_append]
  simp [List.filter, h]

/-- One step of the second loop of `GetNodeGroups` on a map built from the
configuration and the servers seen so far. -/
theorem placeServer_builtGroup (m : managerServersCom) (cfg : GoMap nodeGroupProps)
    (pre : List Server) (srv : Server) (hnodup : (cfg.map (fun entry => entry.1)).Nodup) :
    placeServer m (cfg.map (fun entry => (entry.1, builtGroup m pre entry))) srv
      = cfg.map (fun entry => (entry.1, builtGroup m (pre ++ [srv]) entry)) := by
  by_cases hname : nodeGroupName m srv.Name = []
  · rw [placeServer_of_unresolved m _ srv hname]
    apply List.map_congr_left
    intro entry _
    simp only [builtGroup, membersOf_append_unresolved m entry.1 pre srv (Or.inr hname)]
  · have h := GoMap.update_map (nodeGroupName m srv.Name)
      (fun ng : nodeGroup =>
        { ng with
          size := { ng.size with target := intAdd ng.size.target 1 },
          nodes := ng.nodes ++ [listedInstance srv] })
      (builtGroup m pre) (builtGroup m (pre ++ [srv])) cfg hnodup
      (by
        intro entry _
        by_cases he : entry.1 = nodeGroupName m srv.Name
        · simp only [he, if_true, builtGroup]
          rw [membersOf_append_resolved m pre srv hname]
          simp only [List.length_append, List.length_singleton, List.map_append, List.map_cons,
            List.map_nil, intAdd, wrap64_add_wrap64, Nat.cast_add, Nat.cast_one]
        · simp only [he, if_false, builtGroup]
          rw [membersOf_append_unresolved m entry.1 pre srv
            (Or.inl (fun h => he h.symm))])
    rw [← h]
    simp only [placeServer, hname, if_false, listedInstance]
    cases GoMap.get (cfg.map (fun entry => (entry.1, builtGroup m pre entry)))
      (nodeGroupName m srv.Name) <;> rfl

/-- The second loop of `GetNodeGroups` over a whole inventory. -/
theorem foldl_placeServer_builtGroup (m : managerServersCom) (cfg : GoMap nodeGroupProps)
    (hnodup : (cfg.map (fun entry => entry.1)).Nodup) (inventory : List Server) :
    ∀ pre : List Server,
      inventory.foldl (placeServer m) (cfg.map (fun entry => (entry.1, builtGroup m pre entry)))
        = cfg.map (fun entry => (entry.1, builtGroup m (pre ++ inventory) entry)) := by
  induction inventory with
  | nil =>
    intro pre
    simp
  | cons srv rest ih =>
    intro pre
    simp only [List.foldl_cons]
    rw [placeServer_builtGroup m cfg pre srv hnodup, ih (pre ++ [srv])]
    simp

/-- The map that `GetNodeGroups` builds over a listed inventory, for a
configuration with distinct keys. -/
theorem GetNodeGroups_map (m : managerServersCom) (inventory : List Server)
    (hnodup : (m.scaleProperties.nodeGroups.map (fun entry => entry.1)).Nodup) :
    inventory.foldl (placeServer m) (seedGroups m.scaleProperties.nodeGroups [])
      = m.scaleProperties.nodeGroups.map
          (fun entry => (entry.1, builtGroup m inventory entry)) := by
  rw [seedGroups_eq m _ [] hnodup (by simp)]
  simp only [List.nil_append]
  rw [foldl_placeServer_builtGroup m _ hnodup inventory []]
  simp

theorem GoMap.get_of_mem_nodup {α : Type} (gm : GoMap α) (k : GoString) (v : α)
    (hnodup : (gm.map (fun entry => entry.1)).Nodup) (h : (k, v) ∈ gm) :
    GoMap.get gm k = some v := by
  induction gm with
  | nil => simp at h
  | cons head rest ih =>
    obtain ⟨k1, v1⟩ := head
    simp only [List.map_cons, List.nodup_cons] at hnodup
    simp only [List.mem_cons, Prod.mk.injEq] at h
    rcases h with ⟨hk, hv⟩ | h
    · simp [GoMap.get, hk, hv]
    · have hne : ¬ k1 = k := by
        intro he
        apply hnodup.1
        rw [he]
        exact List.mem_map_of_mem (fun entry => entry.1) h
      simp [GoMap.get, hne, ih hnodup.2 h]

/-- C12: over a listed inventory and a configuration with distinct group ids
(the keys of a Go map), `GetNodeGroups` returns no error and one group per
configured id; each group has the configured minimum and maximum, its node
list holds, in inventory order, one instance per server whose host name
resolves to the id of the group (a name that resolves to the empty string
resolves to no group), with the host name as `Id`, and its target is the
length of its node list. -/
theorem GetNodeGroups_one_group_per_id {ω : Type} (c : computeAPI ω) (m : managerServersCom)
    (w : World ω) (inventory : List Server)
    (hlist : (c.ListServers [] w.api).1 = Listing.servers inventory)
    (hnodup : (m.scaleProperties.nodeGroups.map (fun entry => entry.1)).Nodup) :
    (GetNodeGroups c m w).1.2 = none ∧
    (GetNodeGroups c m w).1.1 = m.scaleProperties.nodeGroups.map (builtGroup m inventory) ∧
    (GetNodeGroups c m w).1.1.map (fun g => g.id)
      = m.scaleProperties.nodeGroups.map (fun entry => entry.1) ∧
    (∀ g ∈ (GetNodeGroups c m w).1.1,
      (∃ props, GoMap.get m.scaleProperties.nodeGroups g.id = some props ∧
        g.size.min = props.Min ∧ g.size.max = props.Max) ∧
      g.nodes = (inventory.filter (fun srv =>
          decide (nodeGroupName m srv.Name = g.id) && decide (nodeGroupName m srv.Name ≠ []))).map
            listedInstance ∧
      g.nodes.map (fun inst => inst.Id) = (inventory.filter (fun srv =>
          decide (nodeGroupName m srv.Name = g.id) && decide (nodeGroupName m srv.Name ≠ []))).map
            (fun srv => srv.Name) ∧
      g.size.target = wrap64 g.nodes.length ∧
      (isInt g.nodes.length → g.size.target = g.nodes.length)) := by
  have hres := (GetNodeGroups_of_listing c m w inventory hlist).1
  rw [GetNodeGroups_map m inventory hnodup] at hres
  have hgroups : (GetNodeGroups c m w).1.1
      = m.scaleProperties.nodeGroups.map (builtGroup m inventory) := by
    rw [hres]
    simp [List.map_map, Function.comp_def]
  refine ⟨by rw [hres], hgroups, ?_, ?_⟩
  · rw [hgroups]
    simp [List.map_map, Function.comp_def, builtGroup]
  · intro g hg
    rw [hgroups] at hg
    obtain ⟨entry, hentry, rfl⟩ := List.mem_map.mp hg
    have htarget : (builtGroup m inventory entry).size.target
        = wrap64 (builtGroup m inventory entry).nodes.length := by
      simp [builtGroup]
    refine ⟨⟨entry.2, GoMap.get_of_mem_nodup _ _ _ hnodup hentry, rfl, rfl⟩, rfl, ?_, htarget,
      fun hr => htarget.trans (wrap64_of_isInt _ hr)⟩
    simp [builtGroup, membersOf, listedInstance, List.map_map, Function.comp_def]

theorem GetNodeGroups_one_group_per_id_witness :
    kafkaManager.scaleProperties.nodeGroups = [(str "kafka", { Min := 2, Max := 5 })] ∧
    (GetNodeGroups (fixedCompute respServersDetail) kafkaManager freshWorld).1.1.map
        (fun g => (g.id, g.size.target, g.nodes.length, g.size.min, g.size.max))
      = [(str "kafka", 3, 3, 2, 5)] ∧
    (GetNodeGroups (fixedCompute respServersDetail) kafkaManager freshWorld).1.1.map
        (fun g => g.nodes.map (fun inst => inst.Id))
      = [[str "kube2-kafka-mow-3.int.avs.io", str "kube2-kafka-mow-2.int.avs.io",
          str "kube2-kafka-mow-1.int.avs.io"]] := by
  have h := (GetNodeGroups_one_group_per_id (fixedCompute respServersDetail) kafkaManager
    freshWorld respServersDetail rfl (by decide)).2.1
  refine ⟨rfl, ?_, ?_⟩
  · rw [h]
    decide
  · rw [h]
    decide

/-! ## `GetNodeGroups` replaces the group map -/

theorem placeServer_congr (m1 m2 : managerServersCom)
    (h : m1.scaleProperties = m2.scaleProperties) : placeServer m1 = placeServer m2 := by
  funext groups srv
  simp [placeServer, nodeGroupName, h]

/-- C14: after a successful `GetNodeGroups` over a configuration with distinct
group ids, whatever group map `old` the manager held before, the keys of the
manager's map are the configured ids, its entries are the groups returned by
the call, and the map is the one built from the configuration and the
inventory alone: it is the same for every `old`, so that no entry, node list
or target of `old` is left in it. -/
theorem GetNodeGroups_replaces_map {ω : Type} (c : computeAPI ω) (m : managerServersCom)
    (w : World ω) (inventory : List Server) (old : GoMap nodeGroup)
    (hlist : (c.ListServers [] w.api).1 = Listing.servers inventory)
    (hnodup : (m.scaleProperties.nodeGroups.map (fun entry => entry.1)).Nodup) :
    (GetNodeGroups c { m with nodeGroups := old } w).1.2 = none ∧
    (GetNodeGroups c { m with nodeGroups := old } w).2.1.nodeGroups.map (fun entry => entry.1)
      = m.scaleProperties.nodeGroups.map (fun entry => entry.1) ∧
    (GetNodeGroups c { m with nodeGroups := old } w).2.1.nodeGroups.map (fun entry => entry.2)
      = (GetNodeGroups c { m with nodeGroups := old } w).1.1 ∧
    (GetNodeGroups c { m with nodeGroups := old } w).2.1.nodeGroups
      = m.scaleProperties.nodeGroups.map (fun entry => (entry.1, builtGroup m inventory entry)) ∧
    (GetNodeGroups c { m with nodeGroups := old } w).2.1.nodeGroups
      = (GetNodeGroups c m w).2.1.nodeGroups ∧
    (GetNodeGroups c { m with nodeGroups := old } w).2.1.scaleProperties = m.scaleProperties := by
  have hold := GetNodeGroups_of_listing c { m with nodeGroups := old } w inventory hlist
  have hnew := GetNodeGroups_of_listing c m w inventory hlist
  have hplace : placeServer { m with nodeGroups := old } = placeServer m :=
    placeServer_congr _ _ rfl
  have hmap : (GetNodeGroups c { m with nodeGroups := old } w).2.1.nodeGroups
      = m.scaleProperties.nodeGroups.map
          (fun entry => (entry.1, builtGroup m inventory entry)) := by
    rw [hold.2]
    simp only [hplace]
    exact GetNodeGroups_map m inventory hnodup
  refine ⟨by rw [hold.1], ?_, ?_, hmap, ?_, by rw [hold.2]⟩
  · rw [hmap]
    simp [List.map_map, Function.comp_def]
  · rw [hold.1, hold.2]
  · rw [hmap, hnew.2]
    exact (GetNodeGroups_map m inventory hnodup).symm

theorem GetNodeGroups_replaces_map_witness :
    staleManager.nodeGroups = [(str "stale", workerGroup 9)] ∧
    (GetNodeGroups (fixedCompute respServersDetail) staleManager freshWorld).2.1.nodeGroups.map
        (fun entry => (entry.1, entry.2.size.target, entry.2.nodes.length))
      = [(str "kafka", 3, 3)] ∧
    (GetNodeGroups (fixedCompute respServersDetail) staleManager freshWorld).2.1.nodeGroups
      = (GetNodeGroups (fixedCompute respServersDetail) kafkaManager freshWorld).2.1.nodeGroups := by
  have h := GetNodeGroups_replaces_map (fixedCompute respServersDetail) kafkaManager freshWorld
    respServersDetail [(str "stale", workerGroup 9)] rfl (by decide)
  refine ⟨rfl, ?_, h.2.2.2.2.1⟩
  have hmap := h.2.2.2.1
  have hst : ({ kafkaManager with nodeGroups := [(str "stale", workerGroup 9)] }
      : managerServersCom) = staleManager := rfl
  rw [hst] at hmap
  rw [hmap]
  decide

/-! ## Decimal formatting -/

theorem decimalValue_append (digits : GoString) (d : Nat) :
    decimalValue (digits ++ [d]) = decimalValue digits * 10 + (d - 48) := by
  simp [decimalValue, List.foldl_append]

theorem decimalValue_decimal (fuel : Nat) :
    ∀ n, n < fuel → decimalValue (decimal fuel n) = n := by
  induction fuel with
  | zero =>
    intro n h
    omega
  | succ fuel ih =>
    intro n h
    by_cases hn : n < 10
    · simp [decimal, hn, decimalValue]
    · simp only [decimal, hn, if_false]
      rw [decimalValue_append, ih (n / 10) (by omega)]
      omega

theorem decimal_bytes (fuel : Nat) : ∀ n, ∀ b ∈ decimal fuel n, 48 ≤ b := by
  induction fuel with
  | zero =>
    intro n b hb
    simp [decimal] at hb
  | succ fuel ih =>
    intro n b hb
    by_cases hn : n < 10
    · simp only [decimal, hn, if_true, List.mem_singleton] at hb
      omega
    · simp only [decimal, hn, if_false, List.mem_append, List.mem_singleton] at hb
      rcases hb with hb | hb
      · exact ih _ b hb
      · omega

theorem decimal_injective (a b : Nat) (h : decimal (a + 1) a = decimal (b + 1) b) : a = b := by
  have ha := decimalValue_decimal (a + 1) a (by omega)
  have hb := decimalValue_decimal (b + 1) b (by omega)
  rw [h] at ha
  omega

/-- Distinct integers are formatted differently by `%d`. -/
theorem formatInt_injective (a b : Int) (h : formatInt a = formatInt b) : a = b := by
  unfold formatInt at h
  by_cases ha : a < 0
  · by_cases hb : b < 0
    · simp only [ha, hb, if_true, List.cons.injEq, true_and] at h
      have := decimal_injective _ _ h
      omega
    · simp only [ha, hb, if_true, if_false] at h
      have := decimal_bytes _ _ 45 (by rw [← h]; exact List.mem_cons_self _ _)
      omega
  · by_cases hb : b < 0
    · simp only [ha, hb, if_true, if_false] at h
      have := decimal_bytes _ _ 45 (by rw [h]; exact List.mem_cons_self _ _)
      omega
    · simp only [ha, hb, if_false] at h
      have := decimal_injective _ _ h
      omega

/-- The names of two tasks of one `CreateNodes` call differ. -/
theorem newNodeName_injective (m : managerServersCom) (ngName : GoString) (ngLen : Int)
    (i j : Nat) (hi : (i : Int) < 9223372036854775808) (hj : (j : Int) < 9223372036854775808)
    (h : newNodeName m ngName ngLen i = newNodeName m ngName ngLen j) : i = j := by
  unfold newNodeName at h
  have h2 := formatInt_injective _ _ (List.append_cancel_left h)
  unfold intAdd wrap64 at h2
  omega

/-! ## `managerServersCom.CreateNodes` -/

/-- The result of `CreateNodes` for a group that is in the map. -/
theorem CreateNodes_of_group (m : managerServersCom)
    (createNode : Nat → GoString → GoString → Option GoError) (finished : List Nat)
    (count : Int) (ngName : GoString) (ng : nodeGroup)
    (hgroup : GoMap.get m.nodeGroups ngName = some ng) :
    CreateNodes m createNode finished count ngName = GoResult.returns
      { started := (List.range count.toNat).map
          (fun i : Nat => (ngName, newNodeName m ngName ng.nodes.length i)),
        created := finished.foldl
          (fun created i =>
            match taskResult m createNode ngName ng i with
            | some _ => created
            | none => intAdd created 1)
          0,
        err :=
          if (finished.filterMap
              (fun i => (taskResult m createNode ngName ng i).map GoError.Error)).length ≠ 0 then
            errors.New (Join
              (finished.filterMap
                (fun i => (taskResult m createNode ngName ng i).map GoError.Error))
              (str "; "))
          else none } := by
  simp only [CreateNodes, hgroup, taskResult]

/-- The counter of `CreateNodes` after the tasks of a list have finished. -/
theorem created_foldl (result : Nat → Option GoError) (tasks : List Nat) :
    ∀ acc : Int, isInt acc →
      tasks.foldl
        (fun created i =>
          match result i with
          | some _ => created
          | none => intAdd created 1)
        acc
        = wrap64 (acc + (tasks.filter (fun i => (result i).isNone)).length) := by
  induction tasks with
  | nil =>
    intro acc hacc
    simp [wrap64_of_isInt _ hacc]
  | cons i rest ih =>
    intro acc hacc
    cases hr : result i with
    | some e =>
      simp only [List.foldl_cons, hr, List.filter_cons, Option.isNone_some]
      exact ih acc hacc
    | none =>
      simp only [List.foldl_cons, hr, List.filter_cons, Option.isNone_none, if_true,
        List.length_cons]
      rw [ih (intAdd acc 1) (wrap64_isInt _), intAdd, wrap64_add_wrap64]
      congr 1
      push_cast
      ring

theorem length_filter_isNone_add_isSome {α : Type} (result : Nat → Option α) (tasks : List Nat) :
    (tasks.filter (fun i => (result i).isNone)).length
      + (tasks.filter (fun i => (result i).isSome)).length = tasks.length := by
  induction tasks with
  | nil => rfl
  | cons i rest ih =>
    cases hr : result i <;> simp [List.filter_cons, hr] <;> omega

/-- C15: for `count ≥ 0`, a group id that is a key of the manager's map and
any results of the `count` provisioning tasks, finishing in any order,
`CreateNodes` returns as created count the number of tasks that returned no
error, so that created plus the number of failed tasks is `count`; the
returned error is nil exactly when no task failed, and then created is
`count`; otherwise its text is the messages of the failed tasks, in the order
in which they finished, joined with "; ". -/
theorem CreateNodes_aggregates (m : managerServersCom)
    (createNode : Nat → GoString → GoString → Option GoError) (finished : List Nat)
    (count : Int) (ngName : GoString) (ng : nodeGroup)
    (hcount : 0 ≤ count) (hint : isInt count)
    (hgroup : GoMap.get m.nodeGroups ngName = some ng)
    (hfinished : finished.Perm (List.range count.toNat)) :
    ∃ r, CreateNodes m createNode finished count ngName = GoResult.returns r ∧
      r.created = ((List.range count.toNat).filter
        (fun i => (taskResult m createNode ngName ng i).isNone)).length ∧
      r.created + ((List.range count.toNat).filter
        (fun i => (taskResult m createNode ngName ng i).isSome)).length = count ∧
      (r.err = none ↔ ((List.range count.toNat).filter
        (fun i => (taskResult m createNode ngName ng i).isSome)).length = 0) ∧
      (r.err = none → r.created = count) ∧
      (((List.range count.toNat).filter
          (fun i => (taskResult m createNode ngName ng i).isSome)).length ≠ 0 →
        r.err = some (GoError.fresh (Join
          (finished.filterMap (fun i => (taskResult m createNode ngName ng i).map GoError.Error))
          (str "; ")))) ∧
      (finished.filterMap (fun i => (taskResult m createNode ngName ng i).map GoError.Error)).Perm
        ((List.range count.toNat).filterMap
          (fun i => (taskResult m createNode ngName ng i).map GoError.Error)) := by
  have hsum := length_filter_isNone_add_isSome (taskResult m createNode ngName ng)
    (List.range count.toNat)
  rw [List.length_range] at hsum
  have hok : (finished.filter (fun i => (taskResult m createNode ngName ng i).isNone)).length
      = ((List.range count.toNat).filter
          (fun i => (taskResult m createNode ngName ng i).isNone)).length :=
    (hfinished.filter _).length_eq
  have hfailed : (finished.filterMap
        (fun i => (taskResult m createNode ngName ng i).map GoError.Error)).length
      = ((List.range count.toNat).filter
          (fun i => (taskResult m createNode ngName ng i).isSome)).length := by
    rw [length_filterMap_eq_length_filter]
    simp only [Option.isSome_map']
    exact (hfinished.filter _).length_eq
  have hcreated : finished.foldl
        (fun created i =>
          match taskResult m createNode ngName ng i with
          | some _ => created
          | none => intAdd created 1)
        (0 : Int)
      = (((List.range count.toNat).filter
          (fun i => (taskResult m createNode ngName ng i).isNone)).length : Int) := by
    rw [created_foldl _ finished 0 (by decide), hok, zero_add]
    apply wrap64_of_isInt
    unfold isInt at hint ⊢
    omega
  refine ⟨_, CreateNodes_of_group m createNode finished count ngName ng hgroup, hcreated, ?_,
    ?_, ?_, ?_, hfinished.filterMap _⟩
  · simp only [hcreated]
    omega
  · simp only [hfailed, errors.New]
    by_cases hz : ((List.range count.toNat).filter
        (fun i => (taskResult m createNode ngName ng i).isSome)).length = 0
    · simp [hz]
    · simp [hz]
  · simp only [hfailed, errors.New, hcreated]
    by_cases hz : ((List.range count.toNat).filter
        (fun i => (taskResult m createNode ngName ng i).isSome)).length = 0
    · intro _
      omega
    · simp [hz]
  · intro hz
    simp only [hfailed, errors.New]
    simp [hz]

theorem CreateNodes_aggregates_witness :
    ∃ r, CreateNodes oneNodeManager evenTasksFail [2, 0, 1] 3 (str "worker")
        = GoResult.returns r ∧
      r.created = 1 ∧
      r.err = some (GoError.fresh (str "timeout; timeout")) := by
  obtain ⟨r, hr, hcreated, _, _, _, herr, _⟩ :=
    CreateNodes_aggregates oneNodeManager evenTasksFail [2, 0, 1] 3 (str "worker") oneNodeGroup
      (by decide) (by decide) (by decide) (by decide)
  refine ⟨r, hr, ?_, ?_⟩
  · rw [hcreated]
    decide
  · rw [herr (by decide)]
    decide

/-- C16: for a group id that is a key of the manager's map, `CreateNodes`
starts `count` provisioning tasks (none when `count` is negative); the task
of index `i` is started for the group id and the node name made of the
new-node prefix, the group id and the decimal form of the Go `int` `L+1+i`,
joined by hyphens, where `L` is the length of the node list of the group in
the map; the node names of one call are pairwise distinct. -/
theorem CreateNodes_task_names (m : managerServersCom)
    (createNode : Nat → GoString → GoString → Option GoError) (finished : List Nat)
    (count : Int) (ngName : GoString) (ng : nodeGroup) (hint : isInt count)
    (hgroup : GoMap.get m.nodeGroups ngName = some ng) :
    ∃ r, CreateNodes m createNode finished count ngName = GoResult.returns r ∧
      r.started.length = count.toNat ∧
      (0 ≤ count → (r.started.length : Int) = count) ∧
      (∀ i, i < count.toNat →
        r.started[i]? = some (ngName,
          m.scaleProperties.newNodeNamePrefix ++ str "-" ++ ngName ++ str "-"
            ++ formatInt (intAdd (intAdd ng.nodes.length 1) i))) ∧
      (∀ i, isInt ((ng.nodes.length : Int) + 1 + i) →
        intAdd (intAdd ng.nodes.length 1) i = (ng.nodes.length : Int) + 1 + i) ∧
      (r.started.map (fun task => task.2)).Nodup := by
  refine ⟨_, CreateNodes_of_group m createNode finished count ngName ng hgroup, ?_, ?_, ?_, ?_,
    ?_⟩
  · simp
  · intro hcount
    simp only [List.length_map, List.length_range]
    omega
  · intro i hi
    simp [List.getElem?_map, List.getElem?_range hi, newNodeName]
  · intro i hi
    rw [intAdd, intAdd, wrap64_add_wrap64]
    exact wrap64_of_isInt _ hi
  · simp only [List.map_map]
    apply List.Nodup.map_on _ (List.nodup_range _)
    intro i hi j hj hij
    simp only [List.mem_range] at hi hj
    unfold isInt at hint
    exact newNodeName_injective m ngName ng.nodes.length i j (by omega) (by omega) hij

theorem CreateNodes_task_names_witness :
    ∃ r, CreateNodes oneNodeManager evenTasksFail [2, 0, 1] 3 (str "worker")
        = GoResult.returns r ∧
      r.started.length = 3 ∧
      r.started[0]? = some (str "worker", str "kube2-scaler-mow-worker-2") ∧
      r.started[1]? = some (str "worker", str "kube2-scaler-mow-worker-3") ∧
      r.started[2]? = some (str "worker", str "kube2-scaler-mow-worker-4") ∧
      (r.started.map (fun task => task.2)).Nodup := by
  obtain ⟨r, hr, hlen, _, hname, _, hdistinct⟩ :=
    CreateNodes_task_names oneNodeManager evenTasksFail [2, 0, 1] 3 (str "worker") oneNodeGroup
      (by decide) (by decide)
  refine ⟨r, hr, hlen, ?_, ?_, ?_, hdistinct⟩
  · rw [hname 0 (by decide)]
    decide
  · rw [hname 1 (by decide)]
    decide
  · rw [hname 2 (by decide)]
    decide

/-! ## The guards of `IncreaseSize` -/

theorem IncreaseSize_ng_of_nonpositive {σ : Type} (m : manager σ) (ng : nodeGroup)
    (delta : Int) (s : σ) (hle : delta ≤ 0) : (IncreaseSize m ng delta s).ng = ng := by
  simp [IncreaseSize, hle]

theorem IncreaseSize_ng_of_above_max {σ : Type} (m : manager σ) (ng : nodeGroup)
    (delta : Int) (s : σ) (hbig : intAdd ng.size.target delta > ng.size.max) :
    (IncreaseSize m ng delta s).ng = ng := by
  by_cases hd : delta ≤ 0
  · exact IncreaseSize_ng_of_nonpositive m ng delta s hd
  · simp [IncreaseSize, hd, hbig]

/-- The groups returned by `GetNodeGroups` over a listed inventory, for a
configuration with distinct keys. -/
theorem GetNodeGroups_groups {ω : Type} (c : computeAPI ω) (m : managerServersCom)
    (w : World ω) (inventory : List Server)
    (hlist : (c.ListServers [] w.api).1 = Listing.servers inventory)
    (hnodup : (m.scaleProperties.nodeGroups.map (fun entry => entry.1)).Nodup) :
    (GetNodeGroups c m w).1.1 = m.scaleProperties.nodeGroups.map (builtGroup m inventory) := by
  rw [(GetNodeGroups_of_listing c m w inventory hlist).1, GetNodeGroups_map m inventory hnodup]
  simp [List.map_map, Function.comp_def]

/-! ## `DeleteNodes` and nodes of other groups -/

/-- C21, evaluated on the code: the group `worker` holds the one node
`kube2-scaler-mow-worker-2`; the node `db1.int.avs.io` resolves to no group
and is not in the node list of the group, the manager deletes it without
error, and `DeleteNodes` returns no error and decrements the target. -/
theorem DeleteNodes_accepts_foreign_node :
    nodeGroupName oneNodeManager (str "db1.int.avs.io") ≠ oneNodeGroup.id ∧
    (∀ inst ∈ oneNodeGroup.nodes, inst.Id ≠ str "db1.int.avs.io") ∧
    (DeleteNodes (scriptedManager 0 none []) oneNodeGroup
      [{ Name := str "db1.int.avs.io" }] ()).err = none ∧
    (DeleteNodes (scriptedManager 0 none []) oneNodeGroup
      [{ Name := str "db1.int.avs.io" }] ()).calls
      = [Call.DeleteNode { Name := str "db1.int.avs.io" }] ∧
    oneNodeGroup.size.target = 1 ∧
    (DeleteNodes (scriptedManager 0 none []) oneNodeGroup
      [{ Name := str "db1.int.avs.io" }] ()).ng.size.target = 0 := by
  have h := DeleteNodes_no_failure (scriptedManager 0 none [])
    [{ Name := str "db1.int.avs.io" }] oneNodeGroup () (by decide)
    (by
      intro j hj
      have hj0 : j = 0 := by simpa using hj
      subst hj0
      decide)
  refine ⟨by decide, by decide, h.2.2.2.2, h.1, rfl, ?_⟩
  rw [h.2.1]
  decide

/-! ## `IncreaseSize` and the upper bound -/

/-- C25, evaluated on the code: target and maximum are 9223372036854775797,
`IncreaseSize(20)` computes `target+delta` with wrap-around, which is negative
and passes the guard; `CreateNodes` reports 5 created nodes (between 0 and
20) and the target becomes 9223372036854775802, above the maximum. -/
theorem IncreaseSize_upper_bound_overflow :
    isInt hugeGroup.size.target ∧ isInt hugeGroup.size.max ∧ isInt 20 ∧
    hugeGroup.size.target ≤ hugeGroup.size.max ∧
    ((scriptedManager 5 none []).CreateNodes 20 hugeGroup.id ()).1 = (5, none) ∧
    (0 : Int) ≤ 5 ∧ (5 : Int) ≤ 20 ∧
    (IncreaseSize (scriptedManager 5 none []) hugeGroup 20 ()).ng.size.target
      = 9223372036854775802 ∧
    ¬ (IncreaseSize (scriptedManager 5 none []) hugeGroup 20 ()).ng.size.target
      ≤ hugeGroup.size.max := by
  have hfit : ¬ intAdd hugeGroup.size.target 20 > hugeGroup.size.max := by
    simp [hugeGroup, intAdd, wrap64]
  have h := (IncreaseSize_of_create_ok (scriptedManager 5 none []) hugeGroup 20 ()
    (by decide) hfit rfl).1
  have ht : (IncreaseSize (scriptedManager 5 none []) hugeGroup 20 ()).ng.size.target
      = 9223372036854775802 := by
    rw [h]
    simp [hugeGroup, scriptedManager, intAdd, wrap64]
  refine ⟨by decide, by decide, by decide, by decide, rfl, by decide, by decide, ht, ?_⟩
  rw [ht]
  decide

/-- C25, amended: for every group state with `target ≤ max`, every `delta`
whose sum with the target is in the range of `int`, and every `CreateNodes`
result whose created count is between 0 and `delta`, the target after
`IncreaseSize(delta)` is still at most `max`. -/
theorem IncreaseSize_preserves_upper_bound {σ : Type} (m : manager σ) (ng : nodeGroup)
    (delta : Int) (s : σ) (htarget : isInt ng.size.target)
    (hle : ng.size.target ≤ ng.size.max) (hsum : isInt (ng.size.target + delta))
    (hlow : 0 ≤ (m.CreateNodes delta ng.id s).1.1)
    (hhigh : (m.CreateNodes delta ng.id s).1.1 ≤ delta) :
    (IncreaseSize m ng delta s).ng.size.target ≤ ng.size.max := by
  by_cases hd : delta ≤ 0
  · rw [IncreaseSize_ng_of_nonpositive m ng delta s hd]
    exact hle
  · by_cases hbig : intAdd ng.size.target delta > ng.size.max
    · rw [IncreaseSize_ng_of_above_max m ng delta s hbig]
      exact hle
    · cases herr : (m.CreateNodes delta ng.id s).1.2 with
      | some e =>
        rw [(IncreaseSize_of_create_error m ng delta s e (by omega) hbig herr).1]
        exact hle
      | none =>
        rw [(IncreaseSize_of_create_ok m ng delta s (by omega) hbig herr).1]
        have hfit : ng.size.target + delta ≤ ng.size.max := by
          have := wrap64_of_isInt _ hsum
          unfold intAdd at hbig
          omega
        have hin : isInt (ng.size.target + (m.CreateNodes delta ng.id s).1.1) := by
          unfold isInt at htarget hsum ⊢
          omega
        rw [intAdd, wrap64_of_isInt _ hin]
        omega

theorem IncreaseSize_preserves_upper_bound_witness :
    isInt (workerGroup 2).size.target ∧ (workerGroup 2).size.target ≤ (workerGroup 2).size.max ∧
    isInt ((workerGroup 2).size.target + 3) ∧
    (IncreaseSize (scriptedManager 2 none []) (workerGroup 2) 3 ()).ng.size.target = 4 ∧
    (IncreaseSize (scriptedManager 2 none []) (workerGroup 2) 3 ()).ng.size.target
      ≤ (workerGroup 2).size.max := by
  have h := IncreaseSize_preserves_upper_bound (scriptedManager 2 none []) (workerGroup 2) 3 ()
    (by decide) (by decide) (by decide) (by decide) (by decide)
  have hfit : ¬ intAdd (workerGroup 2).size.target 3 > (workerGroup 2).size.max := by
    simp [workerGroup, intAdd, wrap64]
  have ht := (IncreaseSize_of_create_ok (scriptedManager 2 none []) (workerGroup 2) 3 ()
    (by decide) hfit rfl).1
  refine ⟨by decide, by decide, by decide, ?_, h⟩
  rw [ht]
  simp [workerGroup, scriptedManager, intAdd, wrap64]

/-! ## Names generated by `CreateNodes` from the member count -/

/-- C27: the group `worker` of a manager with the prefix `kube2-scaler-mow`
has the single member `kube2-scaler-mow-worker-2`; `CreateNodes(1, "worker")`
returns and starts one task, for the node name `kube2-scaler-mow-worker-2`,
which is the id of the instance already in the group. -/
theorem CreateNodes_reuses_member_name :
    GoMap.get oneNodeManager.nodeGroups (str "worker") = some oneNodeGroup ∧
    oneNodeGroup.nodes.map (fun inst => inst.Id) = [str "kube2-scaler-mow-worker-2"] ∧
    (∃ r, CreateNodes oneNodeManager (fun _ _ _ => none) [0] 1 (str "worker")
        = GoResult.returns r ∧
      r.started = [(str "worker", str "kube2-scaler-mow-worker-2")] ∧
      (∀ task ∈ r.started, task.2 ∈ oneNodeGroup.nodes.map (fun inst => inst.Id))) := by
  refine ⟨by decide, by decide, _,
    CreateNodes_of_group oneNodeManager (fun _ _ _ => none) [0] 1 (str "worker") oneNodeGroup
      (by decide), by decide, by decide⟩

/-! ## The empty new-node prefix -/

/-- C28: when the new-node prefix is the empty string, every host name
contains it, so the prefix rule decides for every host name: the result is
the first hyphen-delimited piece of the host name once one leading hyphen, if
there is one, has been removed; it is the first piece of the tail when the
host name begins with a hyphen and the first piece of the host name
otherwise, whether or not the convention pattern matches. -/
theorem nodeGroupName_empty_newNodeNamePrefix (m : managerServersCom) (hostname : GoString)
    (hempty : m.scaleProperties.newNodeNamePrefix = []) :
    Contains hostname m.scaleProperties.newNodeNamePrefix = true ∧
    nodeGroupName m hostname = (splitPieces 45 (TrimPrefix hostname (str "-"))).1 ∧
    (∀ tail, hostname = 45 :: tail → nodeGroupName m hostname = (splitPieces 45 tail).1) ∧
    (hostname.head? ≠ some 45 → nodeGroupName m hostname = (splitPieces 45 hostname).1) := by
  have hc : Contains hostname m.scaleProperties.newNodeNamePrefix = true := by
    rw [hempty]
    cases hostname <;> simp [Contains, HasPrefix]
  have hname := nodeGroupName_of_contains m hostname hc
  rw [hempty, List.nil_append] at hname
  refine ⟨hc, hname, ?_, ?_⟩
  · intro tail htail
    rw [hname, htail, str_hyphen]
    simp [TrimPrefix, HasPrefix]
  · intro hhead
    rw [hname, str_hyphen]
    cases hostname with
    | nil => simp [TrimPrefix, HasPrefix]
    | cons b bs =>
      have hb : b ≠ 45 := by simpa using hhead
      have hb2 : ¬ (45 : Nat) = b := fun h => hb h.symm
      simp [TrimPrefix, HasPrefix, List.isPrefixOf, hb2]

theorem nodeGroupName_empty_newNodeNamePrefix_witness :
    newTestManager.scaleProperties.newNodeNamePrefix = [] ∧
    FindStringSubmatch (str "kube2-kafka-mow-1.int.avs.io") = [str "kube2-kafka-", str "kafka"] ∧
    nodeGroupName newTestManager (str "kube2-kafka-mow-1.int.avs.io") = str "kube2" ∧
    nodeGroupName newTestManager (str "-kafka-mow-1") = str "kafka" := by
  have h1 := (nodeGroupName_empty_newNodeNamePrefix newTestManager
    (str "kube2-kafka-mow-1.int.avs.io") rfl).2.2.2 (by decide)
  have h2 := (nodeGroupName_empty_newNodeNamePrefix newTestManager
    (str "-kafka-mow-1") rfl).2.2.1 (str "kafka-mow-1") (by decide)
  refine ⟨rfl, by decide, ?_, ?_⟩
  · rw [h1]
    decide
  · rw [h2]
    decide

/-! ## The node group methods change the target only -/

theorem DeleteNodes_frame {σ : Type} (m : manager σ) (nodes : List Node) :
    ∀ (ng : nodeGroup) (s : σ),
      (DeleteNodes m ng nodes s).ng.id = ng.id ∧
      (DeleteNodes m ng nodes s).ng.size.min = ng.size.min ∧
      (DeleteNodes m ng nodes s).ng.size.max = ng.size.max ∧
      (DeleteNodes m ng nodes s).ng.nodes = ng.nodes ∧
      (DeleteNodes m ng nodes s).ng.notRunningNodes = ng.notRunningNodes := by
  induction nodes with
  | nil =>
    intro ng s
    simp [DeleteNodes]
  | cons first rest ih =>
    intro ng s
    cases h : (m.DeleteNode first s).1 with
    | some e =>
      rw [DeleteNodes_cons_fail m ng first rest s e h]
      simp
    | none =>
      rw [DeleteNodes_cons_ok m ng first rest s h]
      exact ih _ _

theorem IncreaseSize_frame {σ : Type} (m : manager σ) (ng : nodeGroup) (delta : Int) (s : σ) :
    (IncreaseSize m ng delta s).ng.id = ng.id ∧
    (IncreaseSize m ng delta s).ng.size.min = ng.size.min ∧
    (IncreaseSize m ng delta s).ng.size.max = ng.size.max ∧
    (IncreaseSize m ng delta s).ng.nodes = ng.nodes ∧
    (IncreaseSize m ng delta s).ng.notRunningNodes = ng.notRunningNodes := by
  by_cases hd : delta ≤ 0
  · rw [IncreaseSize_ng_of_nonpositive m ng delta s hd]
    simp
  · by_cases hbig : intAdd ng.size.target delta > ng.size.max
    · rw [IncreaseSize_ng_of_above_max m ng delta s hbig]
      simp
    · cases herr : (m.CreateNodes delta ng.id s).1.2 with
      | some e =>
        rw [(IncreaseSize_of_create_error m ng delta s e (by omega) hbig herr).1]
        simp
      | none =>
        simp only [IncreaseSize, hd, hbig, if_false, herr, and_self]

/-- C29: for every input and every manager, `IncreaseSize`,
`DecreaseTargetSize` and `DeleteNodes` leave the id, the minimum, the maximum,
the node list and the list of not running nodes of the group as they were;
so whenever the target was the length of the node list before the call and
the call changes the target, the target is not the length of the node list
after the call. -/
theorem nodeGroup_methods_change_target_only {σ : Type} (m : manager σ) (ng : nodeGroup)
    (s : σ) :
    (∀ delta : Int,
      (IncreaseSize m ng delta s).ng.id = ng.id ∧
      (IncreaseSize m ng delta s).ng.size.min = ng.size.min ∧
      (IncreaseSize m ng delta s).ng.size.max = ng.size.max ∧
      (IncreaseSize m ng delta s).ng.nodes = ng.nodes ∧
      (IncreaseSize m ng delta s).ng.notRunningNodes = ng.notRunningNodes ∧
      (ng.size.target = ng.nodes.length →
        (IncreaseSize m ng delta s).ng.size.target ≠ ng.size.target →
        (IncreaseSize m ng delta s).ng.size.target
          ≠ (IncreaseSize m ng delta s).ng.nodes.length)) ∧
    (∀ delta : Int,
      (DecreaseTargetSize m ng delta s).ng.id = ng.id ∧
      (DecreaseTargetSize m ng delta s).ng.size.min = ng.size.min ∧
      (DecreaseTargetSize m ng delta s).ng.size.max = ng.size.max ∧
      (DecreaseTargetSize m ng delta s).ng.nodes = ng.nodes ∧
      (DecreaseTargetSize m ng delta s).ng.notRunningNodes = ng.notRunningNodes ∧
      (ng.size.target = ng.nodes.length →
        (DecreaseTargetSize m ng delta s).ng.size.target ≠ ng.size.target →
        (DecreaseTargetSize m ng delta s).ng.size.target
          ≠ (DecreaseTargetSize m ng delta s).ng.nodes.length)) ∧
    (∀ nodes : List Node,
      (DeleteNodes m ng nodes s).ng.id = ng.id ∧
      (DeleteNodes m ng nodes s).ng.size.min = ng.size.min ∧
      (DeleteNodes m ng nodes s).ng.size.max = ng.size.max ∧
      (DeleteNodes m ng nodes s).ng.nodes = ng.nodes ∧
      (DeleteNodes m ng nodes s).ng.notRunningNodes = ng.notRunningNodes ∧
      (ng.size.target = ng.nodes.length →
        (DeleteNodes m ng nodes s).ng.size.target ≠ ng.size.target →
        (DeleteNodes m ng nodes s).ng.size.target
          ≠ (DeleteNodes m ng nodes s).ng.nodes.length)) := by
  refine ⟨?_, ?_, ?_⟩
  · intro delta
    obtain ⟨h1, h2, h3, h4, h5⟩ := IncreaseSize_frame m ng delta s
    refine ⟨h1, h2, h3, h4, h5, ?_⟩
    intro hlen hchanged
    rw [h4, ← hlen]
    exact hchanged
  · intro delta
    refine ⟨rfl, rfl, rfl, rfl, rfl, ?_⟩
    intro hlen hchanged
    have h4 : (DecreaseTargetSize m ng delta s).ng.nodes = ng.nodes := rfl
    rw [h4, ← hlen]
    exact hchanged
  · intro nodes
    obtain ⟨h1, h2, h3, h4, h5⟩ := DeleteNodes_frame m nodes ng s
    refine ⟨h1, h2, h3, h4, h5, ?_⟩
    intro hlen hchanged
    rw [h4, ← hlen]
    exact hchanged

theorem nodeGroup_methods_change_target_only_witness :
    oneNodeGroup.size.target = oneNodeGroup.nodes.length ∧
    (DecreaseTargetSize (scriptedManager 0 none []) oneNodeGroup (-1) ()).ng.nodes
      = oneNodeGroup.nodes ∧
    (DecreaseTargetSize (scriptedManager 0 none []) oneNodeGroup (-1) ()).ng.size.target = 0 ∧
    (DecreaseTargetSize (scriptedManager 0 none []) oneNodeGroup (-1) ()).ng.size.target
      ≠ (DecreaseTargetSize (scriptedManager 0 none []) oneNodeGroup (-1) ()).ng.nodes.length := by
  have h := (nodeGroup_methods_change_target_only (scriptedManager 0 none []) oneNodeGroup
    ()).2.1 (-1)
  exact ⟨by decide, h.2.2.2.1, by decide, h.2.2.2.2.2 (by decide) (by decide)⟩

/-! ## The format detection of `NewConfig` -/

/-- C30: `NewConfig` reads byte 0 of the input without a length check.  On an
empty input the read is out of bounds and the function panics instead of
returning an error.  On a non-empty input it returns, with the configuration
left by `json.Unmarshal` when the first byte is `[` or `{` (the YAML decoder is
not used) and with the configuration left by `yaml.Unmarshal` otherwise (the
JSON decoder is not used). -/
theorem NewConfig_format_detection (jsonUnmarshal yamlUnmarshal : Unmarshal) :
    NewConfig ([], none) jsonUnmarshal yamlUnmarshal = GoResult.panics ∧
    (∀ (first : Nat) (rest : GoString),
      (∃ err, NewConfig (first :: rest, none) jsonUnmarshal yamlUnmarshal
        = GoResult.returns
            ((if first = 91 ∨ first = 123
                then jsonUnmarshal (first :: rest) managerConfig.zero
                else yamlUnmarshal (first :: rest) managerConfig.zero).1, err)) ∧
      (first = 91 ∨ first = 123 →
        NewConfig (first :: rest, none) jsonUnmarshal yamlUnmarshal
          = NewConfig (first :: rest, none) jsonUnmarshal jsonUnmarshal) ∧
      (¬ (first = 91 ∨ first = 123) →
        NewConfig (first :: rest, none) jsonUnmarshal yamlUnmarshal
          = NewConfig (first :: rest, none) yamlUnmarshal yamlUnmarshal)) := by
  refine ⟨rfl, ?_⟩
  intro first rest
  refine ⟨?_, ?_, ?_⟩
  · by_cases herr : (if first = 91 ∨ first = 123
        then jsonUnmarshal (first :: rest) managerConfig.zero
        else yamlUnmarshal (first :: rest) managerConfig.zero).2 = none
    · by_cases hflavor : (if first = 91 ∨ first = 123
          then jsonUnmarshal (first :: rest) managerConfig.zero
          else yamlUnmarshal (first :: rest) managerConfig.zero).1.DefaultFlavor = []
      · refine ⟨errors.Wrap none (str "default flavor should be set"), ?_⟩
        simp only [NewConfig, ne_eq, not_true_eq_false, if_false, herr, hflavor, if_true]
      · refine ⟨none, ?_⟩
        simp only [NewConfig, ne_eq, not_true_eq_false, if_false, herr, hflavor]
    · refine ⟨errors.Wrap (if first = 91 ∨ first = 123
          then jsonUnmarshal (first :: rest) managerConfig.zero
          else yamlUnmarshal (first :: rest) managerConfig.zero).2
        (str "unmarshal config error"), ?_⟩
      simp only [NewConfig, ne_eq, not_true_eq_false, if_false, herr, not_false_eq_true, if_true]
  · intro h
    simp only [NewConfig, h, if_true]
  · intro h
    simp only [NewConfig, h, if_false]

theorem NewConfig_format_detection_witness :
    str "" = [] ∧
    NewConfig (str "", none) decodeNothing (decodeTo testConfig) = GoResult.panics ∧
    NewConfig (str "[1]", none) decodeNothing (decodeTo testConfig)
      = GoResult.returns (managerConfig.zero, none) ∧
    NewConfig (testConfigYaml, none) decodeNothing (decodeTo testConfig)
      = GoResult.returns (testConfig, none) := by
  have h := NewConfig_format_detection decodeNothing (decodeTo testConfig)
  refine ⟨by decide, h.1, by decide, by decide⟩

/-! ## The new-node prefix inside a host name -/

/-- C22, evaluated on the code: the prefix is `kube2` and the host name
`xkube2-worker-1` contains it at offset 1, followed by a hyphen, the
hyphen-free `worker`, a hyphen and `1`.  The branch of the prefix rule is
entered, because `strings.Contains` finds the prefix, but `strings.TrimPrefix`
strips only at the start of the host name, so nothing is stripped and
`nodeGroupName` returns `xkube2`, not `worker`. -/
theorem nodeGroupName_inner_match_not_stripped :
    45 ∉ str "worker" ∧
    str "x" ++ (managerWith (str "kube2") []).scaleProperties.newNodeNamePrefix ++ str "-"
      ++ str "worker" ++ str "-" ++ str "1" = str "xkube2-worker-1" ∧
    Contains (str "xkube2-worker-1")
      (managerWith (str "kube2") []).scaleProperties.newNodeNamePrefix = true ∧
    TrimPrefix (str "xkube2-worker-1")
      ((managerWith (str "kube2") []).scaleProperties.newNodeNamePrefix ++ str "-")
      = str "xkube2-worker-1" ∧
    nodeGroupName (managerWith (str "kube2") []) (str "xkube2-worker-1") = str "xkube2" ∧
    nodeGroupName (managerWith (str "kube2") []) (str "xkube2-worker-1") ≠ str "worker" := by
  refine ⟨by decide, by decide, by decide, by decide, by decide, by decide⟩

/-! ## Group ids with a hyphen -/

/-- What the regexp returns: nothing, or the match and a group of word bytes. -/
theorem FindStringSubmatch_cases (s : GoString) :
    FindStringSubmatch s = [] ∨
    ∃ whole word, FindStringSubmatch s = [whole, word] ∧ ∀ b ∈ word, isWord b = true := by
  induction s with
  | nil =>
    left
    decide
  | cons b bs ih =>
    by_cases hm : matchAt (b :: bs) = []
    · have : FindStringSubmatch (b :: bs) = FindStringSubmatch bs := by
        simp [FindStringSubmatch, hm]
      rw [this]
      exact ih
    · obtain ⟨digits, word, post, _, _, hw, _, heq⟩ := matchAt_shape (b :: bs) hm
      right
      exact ⟨_, word, by rw [FindStringSubmatch_of_matchAt _ hm, heq], hw⟩

/-- No group id returned by `nodeGroupName` holds a hyphen. -/
theorem nodeGroupName_no_hyphen (m : managerServersCom) (hostname : GoString) :
    45 ∉ nodeGroupName m hostname := by
  by_cases hc : Contains hostname m.scaleProperties.newNodeNamePrefix = true
  · rw [nodeGroupName_of_contains m hostname hc]
    exact splitPieces_first_no_sep 45 _
  · simp only [Bool.not_eq_true] at hc
    rw [nodeGroupName_of_not_contains m hostname hc]
    rcases FindStringSubmatch_cases hostname with h | ⟨whole, word, h, hw⟩
    · rw [h]
      simp
    · rw [h]
      intro h45
      have := hw 45 h45
      exact absurd this (by decide)

theorem membersOf_hyphen (m : managerServersCom) (ngName : GoString) (h : 45 ∈ ngName)
    (inventory : List Server) : membersOf m ngName inventory = [] := by
  unfold membersOf
  rw [List.filter_eq_nil_iff]
  intro srv _
  have hne : nodeGroupName m srv.Name ≠ ngName := by
    intro he
    exact nodeGroupName_no_hyphen m srv.Name (by rw [he]; exact h)
  simp [hne]

/-- C26: for every prefix and every host name the group id returned by
`nodeGroupName` holds no hyphen.  So, over any listed inventory and a
configuration with distinct keys, every configured group whose id holds a
hyphen is returned by `GetNodeGroups` with target 0 and an empty node list,
and no node name that `CreateNodes` generates for a group id with a hyphen
resolves to that id. -/
theorem nodeGroupName_hyphen_free (m : managerServersCom) :
    (∀ hostname, 45 ∉ nodeGroupName m hostname) ∧
    (∀ {ω : Type} (c : computeAPI ω) (w : World ω) (inventory : List Server),
      (c.ListServers [] w.api).1 = Listing.servers inventory →
      (m.scaleProperties.nodeGroups.map (fun entry => entry.1)).Nodup →
      (∀ entry ∈ m.scaleProperties.nodeGroups, 45 ∈ entry.1 →
        ∃ g ∈ (GetNodeGroups c m w).1.1, g.id = entry.1 ∧ g.size.target = 0 ∧ g.nodes = []) ∧
      (∀ g ∈ (GetNodeGroups c m w).1.1, 45 ∈ g.id → g.size.target = 0 ∧ g.nodes = [])) ∧
    (∀ (ngName : GoString) (ngLen i : Int), 45 ∈ ngName →
      nodeGroupName m (newNodeName m ngName ngLen i) ≠ ngName) ∧
    (∀ (ngName : GoString) (createNode : Nat → GoString → GoString → Option GoError)
      (finished : List Nat) (count : Int) (r : fanOut), 45 ∈ ngName →
      CreateNodes m createNode finished count ngName = GoResult.returns r →
      ∀ task ∈ r.started, nodeGroupName m task.2 ≠ ngName) := by
  have hno := nodeGroupName_no_hyphen m
  have hback : ∀ (ngName hostname : GoString), 45 ∈ ngName →
      nodeGroupName m hostname ≠ ngName := by
    intro ngName hostname h he
    exact hno hostname (by rw [he]; exact h)
  refine ⟨hno, ?_, fun ngName ngLen i h => hback ngName _ h, ?_⟩
  · intro ω c w inventory hlist hnodup
    have hgroups := GetNodeGroups_groups c m w inventory hlist hnodup
    have hbuilt : ∀ entry : GoString × nodeGroupProps, 45 ∈ entry.1 →
        (builtGroup m inventory entry).size.target = 0 ∧
        (builtGroup m inventory entry).nodes = [] := by
      intro entry h
      simp [builtGroup, membersOf_hyphen m entry.1 h inventory, wrap64]
    constructor
    · intro entry hentry h
      refine ⟨builtGroup m inventory entry, ?_, rfl, hbuilt entry h⟩
      rw [hgroups]
      exact List.mem_map_of_mem _ hentry
    · intro g hg h
      rw [hgroups] at hg
      obtain ⟨entry, _, rfl⟩ := List.mem_map.mp hg
      exact hbuilt entry h
  · intro ngName createNode finished count r h hr task htask
    cases hget : GoMap.get m.nodeGroups ngName with
    | none => simp [CreateNodes, hget] at hr
    | some ng =>
      rw [CreateNodes_of_group m createNode finished count ngName ng hget] at hr
      simp only [GoResult.returns.injEq] at hr
      subst hr
      simp only [List.mem_map, List.mem_range] at htask
      obtain ⟨i, _, rfl⟩ := htask
      exact hback ngName _ h

theorem nodeGroupName_hyphen_free_witness :
    hyphenManager.scaleProperties.nodeGroups = [(str "kafka-east", { Min := 0, Max := 5 })] ∧
    nodeGroupName hyphenManager (str "kube2-kafka-east-mow-1") = str "kafka" ∧
    nodeGroupName hyphenManager (str "kube2-mow-kafka-east-1") = str "kafka" ∧
    (∃ g ∈ (GetNodeGroups (fixedCompute hyphenInventory) hyphenManager freshWorld).1.1,
      g.id = str "kafka-east" ∧ g.size.target = 0 ∧ g.nodes = []) := by
  have h := ((nodeGroupName_hyphen_free hyphenManager).2.1 (fixedCompute hyphenInventory)
    freshWorld hyphenInventory rfl (by decide)).1
    (str "kafka-east", { Min := 0, Max := 5 }) (by decide) (by decide)
  exact ⟨rfl, by decide, by decide, h⟩

/-! ## `managerServersCom.getImageRef` -/

theorem imagesNoted_step (name : GoString) (seen : List Image)
    (state : GoMap GoString × GoString) (image : Image) (h : imagesNoted name seen state) :
    imagesNoted name (seen ++ [image]) (noteImage name state image) := by
  obtain ⟨hbound, hlast, hmap⟩ := h
  by_cases hn : image.Name = name
  · have hstate : noteImage name state image
        = (GoMap.set state.1 image.Created image.ID,
           if image.Created > state.2 then image.Created else state.2) := by
      simp [noteImage, hn]
    rw [hstate]
    refine ⟨?_, ?_, ?_⟩
    · intro img himg hname
      simp only [List.mem_append, List.mem_singleton] at himg
      by_cases hgt : image.Created > state.2
      · simp only [hgt, if_true]
        rcases himg with himg | himg
        · intro hlt
          exact hbound img himg hname (lt_trans hgt hlt)
        · rw [himg]
          exact lt_irrefl _
      · simp only [hgt, if_false]
        rcases himg with himg | himg
        · exact hbound img himg hname
        · rw [himg]
          exact hgt
    · by_cases hgt : image.Created > state.2
      · simp only [hgt, if_true]
        exact Or.inr ⟨image, by simp, hn, rfl⟩
      · simp only [hgt, if_false]
        rcases hlast with hl | ⟨img, himg, hname, hcreated⟩
        · exact Or.inl hl
        · exact Or.inr ⟨img, by simp [himg], hname, hcreated⟩
    · intro k hk
      by_cases hkc : k = image.Created
      · exact ⟨image, by simp, hn, hkc.symm, by
          simp only
          rw [hkc, GoMap.get_set_same]⟩
      · obtain ⟨img, himg, hname, hcreated⟩ := hk
        simp only [List.mem_append, List.mem_singleton] at himg
        have hseen : img ∈ seen := by
          rcases himg with himg | himg
          · exact himg
          · rw [himg] at hcreated
            exact absurd hcreated.symm hkc
        obtain ⟨best, hbest, hbname, hbcreated, hbget⟩ := hmap k ⟨img, hseen, hname, hcreated⟩
        exact ⟨best, by simp [hbest], hbname, hbcreated, by
          simp only
          rw [GoMap.get_set_other _ _ _ _ hkc]
          exact hbget⟩
  · have hstate : noteImage name state image = state := by
      simp [noteImage, hn]
    rw [hstate]
    refine ⟨?_, ?_, ?_⟩
    · intro img himg hname
      simp only [List.mem_append, List.mem_singleton] at himg
      rcases himg with himg | himg
      · exact hbound img himg hname
      · rw [himg] at hname
        exact absurd hname hn
    · rcases hlast with hl | ⟨img, himg, hname, hcreated⟩
      · exact Or.inl hl
      · exact Or.inr ⟨img, by simp [himg], hname, hcreated⟩
    · intro k hk
      obtain ⟨img, himg, hname, hcreated⟩ := hk
      simp only [List.mem_append, List.mem_singleton] at himg
      have hseen : img ∈ seen := by
        rcases himg with himg | himg
        · exact himg
        · rw [himg] at hname
          exact absurd hname hn
      obtain ⟨best, hbest, hbname, hbcreated, hbget⟩ := hmap k ⟨img, hseen, hname, hcreated⟩
      exact ⟨best, by simp [hbest], hbname, hbcreated, hbget⟩

theorem imagesNoted_foldl (name : GoString) (images : List Image) :
    ∀ (seen : List Image) (state : GoMap GoString × GoString),
      imagesNoted name seen state →
      imagesNoted name (seen ++ images) (images.foldl (noteImage name) state) := by
  induction images with
  | nil =>
    intro seen state h
    simpa using h
  | cons image rest ih =>
    intro seen state h
    have := ih (seen ++ [image]) _ (imagesNoted_step name seen state image h)
    simpa using this

theorem imagesNoted_all (name : GoString) (images : List Image) :
    imagesNoted name images (images.foldl (noteImage name) ([], [])) := by
  have h := imagesNoted_foldl name images [] ([], [])
    ⟨by simp, Or.inl rfl, by simp⟩
  simpa using h

/-- C23, counterexample: the listing holds one image, of the configured name
`scalermow`, whose creation timestamp is the empty string; `getImageRef` fails
with "cannot find image with name=scalermow". -/
theorem getImageRef_empty_timestamp :
    (∃ img ∈ [({ ID := str "img-1", Name := str "scalermow", Created := [] } : Image)],
      img.Name = str "scalermow") ∧
    getImageRef (str "scalermow")
      (ImageListing.images [{ ID := str "img-1", Name := str "scalermow", Created := [] }])
      = ([], some (GoError.fresh (str "cannot find image with name=scalermow"))) := by
  refine ⟨⟨_, List.mem_cons_self _ _, rfl⟩, ?_⟩
  decide

/-- C23, amended: whenever the image listing holds at least one image of the
given name whose creation timestamp is not the empty string, `getImageRef`
succeeds and returns the id of a listed image of that name whose creation
timestamp is greatest, in the order of Go strings, among the listed images of
that name; it fails, with "cannot find image with name=" followed by the
name, exactly when no listed image has that name and a non-empty creation
timestamp. -/
theorem getImageRef_latest (name : GoString) (images : List Image) :
    ((∃ img ∈ images, img.Name = name ∧ img.Created ≠ []) →
      ∃ best ∈ images, best.Name = name ∧
        (∀ img ∈ images, img.Name = name → ¬ best.Created < img.Created) ∧
        getImageRef name (ImageListing.images images) = (best.ID, none)) ∧
    ((∀ img ∈ images, img.Name = name → img.Created = []) →
      getImageRef name (ImageListing.images images)
        = ([], some (GoError.fresh (str "cannot find image with name=" ++ name)))) ∧
    ((getImageRef name (ImageListing.images images)).2 ≠ none ↔
      ∀ img ∈ images, img.Name = name → img.Created = []) := by
  obtain ⟨hbound, hlast, hmap⟩ := imagesNoted_all name images
  have hsome : (∃ img ∈ images, img.Name = name ∧ img.Created ≠ []) →
      ∃ best ∈ images, best.Name = name ∧
        (∀ img ∈ images, img.Name = name → ¬ best.Created < img.Created) ∧
        getImageRef name (ImageListing.images images) = (best.ID, none) := by
    rintro ⟨img, himg, hname, hcreated⟩
    have hne : (images.foldl (noteImage name) ([], [])).2 ≠ [] := by
      intro hnil
      have hb := hbound img himg hname
      rw [hnil] at hb
      cases hc : img.Created with
      | nil => exact hcreated hc
      | cons x xs =>
        rw [hc] at hb
        exact hb (List.nil_lt_cons x xs)
    rcases hlast with hl | hl
    · exact absurd hl hne
    · obtain ⟨best, hbest, hbname, hbcreated, hbget⟩ := hmap _ hl
      refine ⟨best, hbest, hbname, ?_, ?_⟩
      · intro other hother honame
        rw [hbcreated]
        exact hbound other hother honame
      · simp [getImageRef, hne, hbget]
  have hnone : (∀ img ∈ images, img.Name = name → img.Created = []) →
      getImageRef name (ImageListing.images images)
        = ([], some (GoError.fresh (str "cannot find image with name=" ++ name))) := by
    intro hall
    have hnil : (images.foldl (noteImage name) ([], [])).2 = [] := by
      rcases hlast with hl | ⟨img, himg, hname, hcreated⟩
      · exact hl
      · rw [← hcreated]
        exact hall img himg hname
    simp [getImageRef, hnil]
  refine ⟨hsome, hnone, ?_⟩
  constructor
  · intro herr img himg hname
    by_contra hcreated
    obtain ⟨best, _, _, _, hres⟩ := hsome ⟨img, himg, hname, hcreated⟩
    rw [hres] at herr
    exact herr rfl
  · intro hall
    rw [hnone hall]
    simp

theorem getImageRef_latest_witness :
    (∃ img ∈ sampleImages, img.Name = str "scalermow" ∧ img.Created ≠ []) ∧
    getImageRef (str "scalermow") (ImageListing.images sampleImages) = (str "img-2", none) ∧
    (∃ best ∈ sampleImages, best.Name = str "scalermow" ∧
      (∀ img ∈ sampleImages, img.Name = str "scalermow" → ¬ best.Created < img.Created) ∧
      getImageRef (str "scalermow") (ImageListing.images sampleImages) = (best.ID, none)) := by
  have hex : ∃ img ∈ sampleImages, img.Name = str "scalermow" ∧ img.Created ≠ [] :=
    ⟨{ ID := str "img-1", Name := str "scalermow", Created := str "2019-10-01T10:00:00Z" },
      by decide, by decide, by decide⟩
  exact ⟨hex, by decide, (getImageRef_latest (str "scalermow") sampleImages).1 hex⟩

/-! ## The poll loop of `createNode` -/

theorem pollLoop_eq_none_iff (nodeName : GoString) (polls : List GetResult) :
    pollLoop nodeName polls = none ↔
      ∃ got ∈ polls, (GetNodeStatusByID got).1 = nodeStatusRunning := by
  induction polls with
  | nil => simp [pollLoop, errors.New]
  | cons got later ih =>
    by_cases h : (GetNodeStatusByID got).1 = nodeStatusRunning
    · simp [pollLoop, h]
    · simp [pollLoop, h, ih]

theorem pollLoop_timeout (nodeName : GoString) (polls : List GetResult)
    (h : ∀ got ∈ polls, (GetNodeStatusByID got).1 ≠ nodeStatusRunning) :
    pollLoop nodeName polls
      = some (GoError.fresh (str "node " ++ nodeName ++ str " did not reach active state")) := by
  induction polls with
  | nil => simp [pollLoop, errors.New]
  | cons got later ih =>
    have hgot := h got (List.mem_cons_self _ _)
    simp only [pollLoop, hgot, if_false]
    exact ih (fun g hg => h g (List.mem_cons_of_mem _ hg))

/-- A status with error info and the status left by a failed query are not
the status Running. -/
theorem GetNodeStatusByID_not_running (got : GetResult)
    (h : (GetNodeStatusByID got).1.ErrorInfo ≠ none ∨ (GetNodeStatusByID got).2 ≠ none) :
    (GetNodeStatusByID got).1 ≠ nodeStatusRunning := by
  rcases h with h | h
  · intro he
    rw [he] at h
    exact h rfl
  · cases got with
    | notFound404 => decide
    | failed e => simp [GetNodeStatusByID, nodeStatusRunning]
    | found srv =>
      exfalso
      apply h
      cases hget : GoMap.get statusMapping srv.Status <;> simp [GetNodeStatusByID, hget]

/-- The function `createNode` once the networks and the image are resolved
and the create call has succeeded: what is left is the poll loop. -/
theorem createNode_of_created (m : managerServersCom) (ngName nodeName : GoString)
    (networks : NetworkListing) (images : ImageListing) (create : CreateOpts → CreateResult)
    (polls : List GetResult)
    (hnetworks : (GetKnownNetworks m networks).2 = none)
    (himage : (getImageRef m.scaleProperties.imageName images).2 = none)
    (hcreate : ∀ opts, ∃ srv, create opts = CreateResult.server srv) :
    createNode m ngName nodeName networks images create polls = pollLoop nodeName polls := by
  simp only [createNode, hnetworks, himage, ne_eq, not_true_eq_false, if_false]
  split
  · rename_i e he
    obtain ⟨srv, hsrv⟩ := hcreate _
    rw [hsrv] at he
    cases he
  · rename_i e he
    obtain ⟨srv, hsrv⟩ := hcreate _
    rw [hsrv] at he
    cases he
  · rfl

/-- C24: after a successful create call, for every sequence of results of
the status queries made before the provisioning timer fires, `createNode`
returns nil exactly when one of these polls observes the status Running; a
poll that observes a status with error info, or whose query fails, leaves the
outcome to the polls after it; when no poll observes Running the function
returns the error "node <name> did not reach active state"; so the attempt
ends in one of these two outcomes and never in both. -/
theorem createNode_poll_outcome (m : managerServersCom) (ngName nodeName : GoString)
    (networks : NetworkListing) (images : ImageListing) (create : CreateOpts → CreateResult)
    (hnetworks : (GetKnownNetworks m networks).2 = none)
    (himage : (getImageRef m.scaleProperties.imageName images).2 = none)
    (hcreate : ∀ opts, ∃ srv, create opts = CreateResult.server srv) :
    ∀ polls : List GetResult,
      (createNode m ngName nodeName networks images create polls = none ↔
        ∃ got ∈ polls, (GetNodeStatusByID got).1 = nodeStatusRunning) ∧
      ((∀ got ∈ polls, (GetNodeStatusByID got).1 ≠ nodeStatusRunning) →
        createNode m ngName nodeName networks images create polls
          = some (GoError.fresh
              (str "node " ++ nodeName ++ str " did not reach active state"))) ∧
      (∀ got : GetResult,
        ((GetNodeStatusByID got).1.ErrorInfo ≠ none ∨ (GetNodeStatusByID got).2 ≠ none) →
        createNode m ngName nodeName networks images create (got :: polls)
          = createNode m ngName nodeName networks images create polls) ∧
      (createNode m ngName nodeName networks images create polls = none ∨
        createNode m ngName nodeName networks images create polls
          = some (GoError.fresh
              (str "node " ++ nodeName ++ str " did not reach active state"))) := by
  intro polls
  have hloop : ∀ l, createNode m ngName nodeName networks images create l
      = pollLoop nodeName l :=
    fun l => createNode_of_created m ngName nodeName networks images create l
      hnetworks himage hcreate
  rw [hloop]
  refine ⟨pollLoop_eq_none_iff nodeName polls, pollLoop_timeout nodeName polls, ?_, ?_⟩
  · intro got hgot
    rw [hloop]
    simp [pollLoop, GetNodeStatusByID_not_running got hgot]
  · by_cases h : ∃ got ∈ polls, (GetNodeStatusByID got).1 = nodeStatusRunning
    · exact Or.inl ((pollLoop_eq_none_iff nodeName polls).mpr h)
    · right
      apply pollLoop_timeout
      intro got hgot he
      exact h ⟨got, hgot, he⟩

theorem createNode_poll_outcome_witness :
    (GetKnownNetworks provisionManager (NetworkListing.networks respOsNetworks)).2 = none ∧
    (getImageRef provisionManager.scaleProperties.imageName
      (ImageListing.images sampleImages)).2 = none ∧
    createNode provisionManager (str "worker") (str "kube2-scaler-mow-worker-1")
        (NetworkListing.networks respOsNetworks) (ImageListing.images sampleImages) createOk
        [polled "BUILD", GetResult.failed (GoError.fresh (str "timeout")), polled "ERROR",
         polled "ACTIVE"] = none ∧
    createNode provisionManager (str "worker") (str "kube2-scaler-mow-worker-1")
        (NetworkListing.networks respOsNetworks) (ImageListing.images sampleImages) createOk
        [polled "BUILD", GetResult.notFound404, polled "ERROR"]
      = some (GoError.fresh
          (str "node kube2-scaler-mow-worker-1 did not reach active state")) := by
  have hnet : (GetKnownNetworks provisionManager
      (NetworkListing.networks respOsNetworks)).2 = none := by decide
  have himg : (getImageRef provisionManager.scaleProperties.imageName
      (ImageListing.images sampleImages)).2 = none := by decide
  have h := createNode_poll_outcome provisionManager (str "worker")
    (str "kube2-scaler-mow-worker-1") (NetworkListing.networks respOsNetworks)
    (ImageListing.images sampleImages) createOk hnet himg (fun opts => ⟨_, rfl⟩)
  refine ⟨hnet, himg, ?_, ?_⟩
  · exact (h _).1.mpr ⟨polled "ACTIVE", by decide, by decide⟩
  · rw [(h _).2.1 (by decide)]
    decide

end Serverscom
